import Mathlib

/-!
# Farmer portal backend: order lifecycle

A shallow embedding of `internal/handlers/order_handler.go`, of `UpdateProduct`
from `internal/handlers/product_handler.go` and of the models they use
(`internal/models/order.go`, `order_item.go`, `product.go`), followed by
theorems about the order status transition graph, `UpdateOrderStatus`,
`CreateOrder`, `GetOrder`, the two listings and the lifecycle of an order.

The handlers compute on `float64`; the columns `quantity`, `price_per_unit`
and `total_amount` are `decimal(10,2)`. A write converts the `float64` to the
two-digit decimal the column takes, and a read converts it back.
-/

namespace FarmerPortal

/-! ## Status transition validator (order_handler.go, lines 271-292 and 320-332) -/

/-- The five values of the `status` enum column of `models.Order`. -/
def orderStatuses : List String :=
  ["pending", "accepted", "rejected", "shipped", "delivered"]

/-- The `switch currentStatus` block of `UpdateOrderStatus` (lines 275-292):
the value of the local variable `validTransition` after the switch. A status
matching no `case` leaves the initial `false`. -/
def validTransition (currentStatus newStatus : String) : Bool :=
  if currentStatus = "pending" then
    (if newStatus = "accepted" ∨ newStatus = "rejected" then true else false)
  else if currentStatus = "accepted" then
    (if newStatus = "shipped" then true else false)
  else if currentStatus = "shipped" then
    (if newStatus = "delivered" then true else false)
  else if currentStatus = "rejected" ∨ currentStatus = "delivered" then
    false
  else
    false

/-- The function `getValidTransitions` (lines 320-332). -/
def getValidTransitions (status : String) : List String :=
  if status = "pending" then ["accepted", "rejected"]
  else if status = "accepted" then ["shipped"]
  else if status = "shipped" then ["delivered"]
  else []

/-- The edges of the transition graph, as (current, requested) pairs. -/
def allowedPairs : List (String × String) :=
  [("pending", "accepted"), ("pending", "rejected"),
   ("accepted", "shipped"), ("shipped", "delivered")]

/-- All 25 (current, requested) pairs over the five statuses. -/
def statusPairs : List (String × String) :=
  orderStatuses.flatMap fun c => orderStatuses.map fun r => (c, r)

/-! ## float64

`Quantity`, `PricePerUnit` and `TotalAmount` are Go `float64` fields. The
handler multiplies them with the `*` operator of `float64`, which is IEEE 754
binary64 multiplication: the exact product rounded to the nearest
representable value, ties to the even significand. -/

/-- A Go `float64` value. `finite neg m e` stands for `(-1)^neg * m * 2^e`.
Values are kept in canonical form: `m` is odd, `m < 2^53`, `-1074 ≤ e` and
`m * 2^e < 2^1024`; zero is `finite neg 0 0`. -/
inductive F64 where
  | finite (neg : Bool) (m : Nat) (e : Int)
  | inf (neg : Bool)
  | nan
  deriving DecidableEq, Repr

namespace F64

/-- Test `2^k ≤ num / den` (for `den > 0`), in integer arithmetic. -/
def geTwoPow (num den : Nat) (k : Int) : Bool :=
  if 0 ≤ k then decide (den * 2 ^ k.toNat ≤ num)
  else decide (den ≤ num * 2 ^ (-k).toNat)

/-- Halving loop of `ilog2`; the first argument bounds the number of steps. -/
def ilog2Loop : Nat → Nat → Nat
  | 0, _ => 0
  | fuel + 1, n => if 2 ≤ n then ilog2Loop fuel (n / 2) + 1 else 0

/-- The integer `⌊log₂ n⌋` for `n > 0` (and 0 for `n = 0`). -/
def ilog2 (n : Nat) : Nat := ilog2Loop n n

/-- The integer `⌊log₂ (num / den)⌋` for `num, den > 0`. -/
def floorLog2 (num den : Nat) : Int :=
  let k : Int := (ilog2 num : Int) - (ilog2 den : Int)
  if geTwoPow num den k then k else k - 1

/-- Nearest integer to `N / D`, ties to even. -/
def roundHalfEven (N D : Nat) : Nat :=
  let q := N / D
  let r := N % D
  if D < 2 * r ∨ (2 * r = D ∧ q % 2 = 1) then q + 1 else q

/-- Move factors of two from the significand to the exponent (at most `fuel`
of them). -/
def stripTwos : Nat → Nat → Int → Nat × Int
  | 0, m, e => (m, e)
  | fuel + 1, m, e =>
    if m % 2 = 0 ∧ m ≠ 0 then stripTwos fuel (m / 2) (e + 1) else (m, e)

/-- Pack the rounded significand `m ≤ 2^53` at exponent `q`: zero, overflow to
infinity (the result would be `2^1024` or more: the largest finite value is
`(2^53 - 1) * 2^971`), or the canonical finite value. -/
def pack (neg : Bool) (m : Nat) (q : Int) : F64 :=
  if m = 0 then finite neg 0 0
  else if 971 < q ∨ (q = 971 ∧ 2 ^ 53 ≤ m) then inf neg
  else finite neg (stripTwos 64 m q).1 (stripTwos 64 m q).2

/-- Round the rational `(-1)^neg * num / den` (`den > 0`) to binary64, to
nearest, ties to even: 53 significant bits for normal numbers, a unit in the
last place of `2^-1074` for subnormal ones. -/
def round (neg : Bool) (num den : Nat) : F64 :=
  if num = 0 then finite neg 0 0
  else
    let q : Int := max (floorLog2 num den - 52) (-1074)
    let m : Nat :=
      if 0 ≤ q then roundHalfEven num (den * 2 ^ q.toNat)
      else roundHalfEven (num * 2 ^ (-q).toNat) den
    pack neg m q

/-- The `float64` nearest to the decimal `n / 10^digits` (what
`strconv.ParseFloat` yields for a JSON number or a `decimal(10,2)` column). -/
def ofDecimal (n digits : Nat) : F64 :=
  round false n (10 ^ digits)

/-- The Go operator `*` on `float64`. -/
def mul : F64 → F64 → F64
  | nan, _ => nan
  | _, nan => nan
  | inf s, inf t => inf (s != t)
  | inf s, finite t m _ => if m = 0 then nan else inf (s != t)
  | finite s m _, inf t => if m = 0 then nan else inf (s != t)
  | finite s m₁ e₁, finite t m₂ e₂ =>
    if 0 ≤ e₁ + e₂ then round (s != t) (m₁ * m₂ * 2 ^ (e₁ + e₂).toNat) 1
    else round (s != t) (m₁ * m₂) (2 ^ (-(e₁ + e₂)).toNat)

/-- The comparison `x > 0` on `float64` (validator tag `gt=0`). -/
def gtZero : F64 → Bool
  | finite false m _ => decide (m ≠ 0)
  | inf false => true
  | _ => false

/-- The comparison `x == 0` on `float64`. -/
def isZero : F64 → Bool
  | finite _ m _ => decide (m = 0)
  | _ => false

/-- The comparison `x <= 0` on `float64`. -/
def leZero : F64 → Bool
  | finite neg m _ => neg || decide (m = 0)
  | inf neg => neg
  | nan => false

/-- The value a `decimal(10,2)` column takes when the `float64` `x` is written
to it, in hundredths; `none` when the column refuses the value. The
conversion is the one of the MySQL server behind `gorm.Open(mysql.Open(dsn))`
(`internal/db/mysql.go`, line 34), which receives the `float64` as it is: it
reads the shortest decimal text that denotes `x` and rounds it to two
fractional digits, halves away from zero: with `h` the whole hundredths of
`|x|`, the result is `h + 1` when `|x|` is at or above `h/100 + 0.005`, or when
`x` is the `float64` of that midpoint (its shortest text is then the midpoint
itself), and `h` otherwise. A result of `10^10` hundredths or more is out of
range and the statement fails, as it does for infinities and NaN (the SQL
mode of the server is its default, strict, one: the connection string of
`internal/db/mysql.go` sets none). -/
def toCents : F64 → Option Int
  | finite neg m e =>
    let N : Nat := if 0 ≤ e then m * 2 ^ e.toNat * 100 else m * 100
    let D : Nat := if 0 ≤ e then 1 else 2 ^ (-e).toNat
    let h : Nat := N / D
    let n : Nat :=
      if D ≤ 2 * (N % D) ∨ round neg (2 * h + 1) 200 = finite neg m e then h + 1 else h
    if 10 ^ 10 ≤ n then none
    else some (if neg then -(n : Int) else (n : Int))
  | _ => none

/-- The `float64` read from a `decimal(10,2)` column that holds `c`
hundredths: the `float64` nearest to `c / 100`. -/
def ofCents (c : Int) : F64 :=
  round (decide (c < 0)) c.natAbs 100

/-- A `float64` written to a `decimal(10,2)` column and read back; `none` when
the column refuses the value. -/
def toDecimal2 (x : F64) : Option F64 :=
  (toCents x).map ofCents

/-- The number `m * 2^e` with `m` odd is a finite binary64 value: at most 53
significant bits, exponent of the last bit at least `-1074`, and magnitude
below `2^1024`. -/
def Representable (m : Nat) (e : Int) : Prop :=
  m % 2 = 1 ∧ m < 2 ^ 53 ∧ -1074 ≤ e ∧ (ilog2 m : Int) + e < 1024

/-- The rational value of a finite `float64`. -/
def toRat : F64 → Option ℚ
  | finite neg m e => some ((if neg then -1 else 1) * (m : ℚ) * (2 : ℚ) ^ e)
  | _ => none

end F64

/-! ## Models (internal/models) and the store

A row of a table holds the columns of the model. The association fields of
the Go structs (`Buyer`, `Farmer`, `Order`, `Product`, `OrderItems`) are not
columns: `OrderItems` is what `Preload("OrderItems")` queries. Timestamps are
instants on an integer clock. Column comparison in a `Where` clause is string
equality. The columns `quantity`, `price_per_unit` and `total_amount` are
`decimal(10,2)`: a row holds, as the `float64` a query reads, the two-digit
decimal the column took at the write (`F64.toDecimal2`); the other columns
hold the field values the handler wrote. -/

/-- The columns of `models.Order` (order.go, lines 10-22). -/
structure Order where
  ID : String
  BuyerID : String
  FarmerID : String
  Status : String
  DeliveryMode : String
  TotalAmount : F64
  CreatedAt : Nat
  UpdatedAt : Nat
  deriving DecidableEq, Repr

/-- The columns of `models.OrderItem` (order_item.go). -/
structure OrderItem where
  ID : String
  OrderID : String
  ProductID : String
  Quantity : F64
  PricePerUnit : F64
  CreatedAt : Nat
  UpdatedAt : Nat
  deriving DecidableEq, Repr

/-- The columns of `models.Product` (product.go). -/
structure Product where
  ID : String
  FarmerID : String
  CropName : String
  Quantity : F64
  Unit : String
  PricePerUnit : F64
  State : String
  City : String
  Pincode : String
  Status : String
  CreatedAt : Nat
  UpdatedAt : Nat
  deriving DecidableEq, Repr

/-- The database behind `*gorm.DB`: the tables the order handlers touch. -/
structure Store where
  products : List Product
  orders : List Order
  orderItems : List OrderItem
  deriving DecidableEq, Repr

/-- The primary-key constraint of the three tables (`gorm:"primaryKey"` on
each `ID`): no two rows of a table share an id. -/
def Store.PrimaryKeys (s : Store) : Prop :=
  (s.products.map Product.ID).Nodup ∧ (s.orders.map Order.ID).Nodup ∧
    (s.orderItems.map OrderItem.ID).Nodup

/-- The foreign-key constraint of `order_items.order_id`
(`foreignKey:OrderID;references:ID`, order_item.go, line 18): every item
belongs to a stored order. -/
def Store.ForeignKeys (s : Store) : Prop :=
  ∀ i ∈ s.orderItems, i.OrderID ∈ s.orders.map Order.ID

/-- A store that satisfies its key constraints. -/
def Store.WF (s : Store) : Prop :=
  s.PrimaryKeys ∧ s.ForeignKeys

instance (s : Store) : Decidable s.PrimaryKeys := by
  unfold Store.PrimaryKeys; infer_instance

instance (s : Store) : Decidable s.ForeignKeys := by
  unfold Store.ForeignKeys; infer_instance

instance (s : Store) : Decidable s.WF := by
  unfold Store.WF; infer_instance

/-- The row of `orders` an order is written as: `total_amount` is
`decimal(10,2)` (order.go, line 16). `none` when the column refuses the value. -/
def Order.toRow (o : Order) : Option Order :=
  (F64.toDecimal2 o.TotalAmount).map fun t => { o with TotalAmount := t }

/-- The row of `order_items` an item is written as: `quantity` and
`price_per_unit` are `decimal(10,2)` (order_item.go, lines 14-15). -/
def OrderItem.toRow (i : OrderItem) : Option OrderItem :=
  (F64.toDecimal2 i.Quantity).bind fun q =>
    (F64.toDecimal2 i.PricePerUnit).map fun v => { i with Quantity := q, PricePerUnit := v }

/-- The two errors the handlers distinguish on a query:
`gorm.ErrRecordNotFound` and any other error of the store. -/
inductive DBError where
  | recordNotFound
  | other
  deriving DecidableEq, Repr

/-- The query `db.Where("id = ?", id).First(&product)`; `fails` is a failure of
the store itself. -/
def dbFirstProduct (fails : Bool) (s : Store) (id : String) : Except DBError Product :=
  if fails then .error .other
  else match s.products.find? (fun p => decide (p.ID = id)) with
    | some p => .ok p
    | none => .error .recordNotFound

/-- The query `db.Where("id = ? AND farmer_id = ?", orderID, farmerID).First(&order)`. -/
def dbFirstOrderOfFarmer (fails : Bool) (s : Store) (orderID farmerID : String) :
    Except DBError Order :=
  if fails then .error .other
  else match s.orders.find? (fun o => decide (o.ID = orderID ∧ o.FarmerID = farmerID)) with
    | some o => .ok o
    | none => .error .recordNotFound

/-- The rows loaded by `Preload("OrderItems")` for an order: the items whose
`order_id` is the order's id. -/
def preloadOrderItems (s : Store) (o : Order) : List OrderItem :=
  s.orderItems.filter (fun i => decide (i.OrderID = o.ID))

/-- The query `db.Preload("OrderItems").Where("id = ?", id).First(&order)`. -/
def dbFirstOrderPreload (fails : Bool) (s : Store) (id : String) :
    Except DBError (Order × List OrderItem) :=
  if fails then .error .other
  else match s.orders.find? (fun o => decide (o.ID = id)) with
    | some o => .ok (o, preloadOrderItems s o)
    | none => .error .recordNotFound

/-- The call `db.Create(&order)`: the `BeforeCreate` hook (order.go, lines
30-35) assigns `uuid` when the id is empty, `autoCreateTime` and
`autoUpdateTime` fill zero timestamps with `now`, and the row is inserted. The
insert fails when the store fails, the primary key is taken or the
`decimal(10,2)` column refuses the total. Returns the order as the handler
sees it afterwards (the struct keeps the `float64` it was given; only the
row is converted), and the new store. -/
def dbCreateOrder (fails : Bool) (uuid : String) (now : Nat) (s : Store) (order : Order) :
    Except DBError (Order × Store) :=
  let o₁ : Order := if order.ID = "" then { order with ID := uuid } else order
  let o₂ : Order := if o₁.CreatedAt = 0 then { o₁ with CreatedAt := now } else o₁
  let o₃ : Order := if o₂.UpdatedAt = 0 then { o₂ with UpdatedAt := now } else o₂
  if fails ∨ o₃.ID ∈ s.orders.map Order.ID then .error .other
  else match o₃.toRow with
    | none => .error .other
    | some row => .ok (o₃, { s with orders := s.orders ++ [row] })

/-- The call `db.Create(&orderItem)`, as `dbCreateOrder` (hook: order_item.go,
lines 28-33). -/
def dbCreateOrderItem (fails : Bool) (uuid : String) (now : Nat) (s : Store)
    (item : OrderItem) : Except DBError (OrderItem × Store) :=
  let i₁ : OrderItem := if item.ID = "" then { item with ID := uuid } else item
  let i₂ : OrderItem := if i₁.CreatedAt = 0 then { i₁ with CreatedAt := now } else i₁
  let i₃ : OrderItem := if i₂.UpdatedAt = 0 then { i₂ with UpdatedAt := now } else i₂
  if fails ∨ i₃.ID ∈ s.orderItems.map OrderItem.ID then .error .other
  else match i₃.toRow with
    | none => .error .other
    | some row => .ok (i₃, { s with orderItems := s.orderItems ++ [row] })

/-- The call `db.Delete(&order)`: removes the row with the order's primary key
and, by `OnDelete:CASCADE` (order.go, line 21), its items. The store is left as
it was when the statement fails. -/
def dbDeleteOrder (fails : Bool) (s : Store) (order : Order) : Except DBError Store :=
  if fails then .error .other
  else .ok { s with
    orders := s.orders.filter (fun o => decide (o.ID ≠ order.ID))
    orderItems := s.orderItems.filter (fun i => decide (i.OrderID ≠ order.ID)) }

/-- The call `db.Model(&order).Update("status", newStatus)`: sets `status` and,
by `autoUpdateTime`, `updated_at` on the row with the order's primary key. -/
def dbUpdateOrderStatus (fails : Bool) (now : Nat) (s : Store) (order : Order)
    (newStatus : String) : Except DBError Store :=
  if fails then .error .other
  else .ok { s with
    orders := s.orders.map fun o =>
      if o.ID = order.ID then { o with Status := newStatus, UpdatedAt := now } else o }

/-- The query `db.Preload("OrderItems").Where("id = ?", id).Where(cond).First(&order)`
of `GetOrder`, where `cond` is the ownership condition on the row. -/
def dbFirstOrderWherePreload (fails : Bool) (s : Store) (id : String) (cond : Order → Bool) :
    Except DBError (Order × List OrderItem) :=
  if fails then .error .other
  else match s.orders.find? (fun o => decide (o.ID = id) && cond o) with
    | some o => .ok (o, preloadOrderItems s o)
    | none => .error .recordNotFound

/-- The order `created_at DESC`: `a` comes before `b` when `a` was created at
the same time as `b` or later. -/
def createdAtDesc (a b : Order) : Prop := b.CreatedAt ≤ a.CreatedAt

instance : DecidableRel createdAtDesc := fun a b => Nat.decLe b.CreatedAt a.CreatedAt

instance : IsTotal Order createdAtDesc := ⟨fun a b => Nat.le_total b.CreatedAt a.CreatedAt⟩

instance : IsTrans Order createdAtDesc := ⟨fun _ _ _ hab hbc => Nat.le_trans hbc hab⟩

/-- The query `db.Preload("OrderItems").Where(cond).Order("created_at DESC").Find(&orders)`:
the rows that satisfy `cond`, sorted by `created_at` descending (rows created
at the same instant stay in table order, which SQL leaves open), each with
its items. -/
def dbFindOrdersPreload (fails : Bool) (s : Store) (cond : Order → Bool) :
    Except DBError (List (Order × List OrderItem)) :=
  if fails then .error .other
  else .ok (((s.orders.filter cond).insertionSort createdAtDesc).map
    fun o => (o, preloadOrderItems s o))

/-- The query `db.Where("id = ? AND farmer_id = ?", productID, userID).First(&product)`. -/
def dbFirstProductOfFarmer (fails : Bool) (s : Store) (productID farmerID : String) :
    Except DBError Product :=
  if fails then .error .other
  else match s.products.find? (fun p => decide (p.ID = productID ∧ p.FarmerID = farmerID)) with
    | some p => .ok p
    | none => .error .recordNotFound

/-- The effect of the `updates` map of `UpdateProduct` on a product: the given
columns and, by `autoUpdateTime`, `updated_at`. -/
def applyProductUpdates (now : Nat) (quantity pricePerUnit : Option F64)
    (status : Option String) (p : Product) : Product :=
  { p with
    Quantity := quantity.getD p.Quantity
    PricePerUnit := pricePerUnit.getD p.PricePerUnit
    Status := status.getD p.Status
    UpdatedAt := now }

/-- The value a `decimal(10,2)` column takes for an entry of the `updates`
map: nothing for an absent entry, `none` when the column refuses the value. -/
def columnUpdate : Option F64 → Option (Option F64)
  | none => some none
  | some x => (F64.toDecimal2 x).map some

/-- The call `db.Model(&product).Updates(updates)`: rewrites the columns of
the map on the row with the product's primary key; `quantity` and
`price_per_unit` are `decimal(10,2)` (product.go, lines 14 and 16). The update
fails when the store fails or a column refuses its value. -/
def dbUpdateProduct (fails : Bool) (now : Nat) (s : Store) (product : Product)
    (quantity pricePerUnit : Option F64) (status : Option String) : Except DBError Store :=
  if fails then .error .other
  else match columnUpdate quantity, columnUpdate pricePerUnit with
    | some q, some v => .ok { s with
        products := s.products.map fun p =>
          if p.ID = product.ID then applyProductUpdates now q v status p else p }
    | _, _ => .error .other

/-! ## Requests and responses (order_handler.go, lines 13-78) -/

/-- The payload `CreateOrderRequest` (lines 14-18), after JSON decoding. -/
structure CreateOrderRequest where
  ProductID : String
  Quantity : F64
  DeliveryMode : String
  deriving DecidableEq, Repr

/-- The payload `UpdateOrderStatusRequest` (lines 21-23), after JSON decoding. -/
structure UpdateOrderStatusRequest where
  Status : String
  deriving DecidableEq, Repr

/-- The error of `c.ShouldBindJSON`: the body is not JSON for the struct, or
the listed fields fail their `binding` tags. -/
inductive BindError where
  | malformed
  | validation (fields : List String)
  deriving DecidableEq, Repr

/-- The call `c.ShouldBindJSON(&req)` for `CreateOrderRequest`; `none` is a
body that does not decode. Tags: `product_id` required; `quantity`
required, gt=0; `delivery_mode` required, oneof=pickup courier. -/
def bindCreateOrder (body : Option CreateOrderRequest) : Except BindError CreateOrderRequest :=
  match body with
  | none => .error .malformed
  | some req =>
    let failed : List String :=
      (if req.ProductID = "" then ["ProductID"] else []) ++
      (if req.Quantity.isZero = true ∨ req.Quantity.gtZero = false then ["Quantity"] else []) ++
      (if req.DeliveryMode = "" ∨ ¬ (req.DeliveryMode = "pickup" ∨ req.DeliveryMode = "courier")
        then ["DeliveryMode"] else [])
    if failed = [] then .ok req else .error (.validation failed)

/-- The call `c.ShouldBindJSON(&req)` for `UpdateOrderStatusRequest`. Tags:
`status` required, oneof=accepted rejected shipped delivered. -/
def bindUpdateOrderStatus (body : Option UpdateOrderStatusRequest) :
    Except BindError UpdateOrderStatusRequest :=
  match body with
  | none => .error .malformed
  | some req =>
    if req.Status = "" ∨ ¬ (req.Status = "accepted" ∨ req.Status = "rejected" ∨
        req.Status = "shipped" ∨ req.Status = "delivered")
    then .error (.validation ["Status"]) else .ok req

/-- The payload `UpdateProductRequest` (product_handler.go, lines 26-30), after
JSON decoding; an absent field is a nil pointer. -/
structure UpdateProductRequest where
  Quantity : Option F64
  PricePerUnit : Option F64
  Status : Option String
  deriving DecidableEq, Repr

/-- The call `c.ShouldBindJSON(&req)` for `UpdateProductRequest`, which has no
`binding` tags. -/
def bindUpdateProduct (body : Option UpdateProductRequest) :
    Except BindError UpdateProductRequest :=
  match body with
  | none => .error .malformed
  | some req => .ok req

/-- The struct `OrderItemResponse` (lines 26-33); timestamps are kept as
instants instead of formatted text. -/
structure OrderItemResponse where
  ID : String
  ProductID : String
  Quantity : F64
  PricePerUnit : F64
  CreatedAt : Nat
  UpdatedAt : Nat
  deriving DecidableEq, Repr

/-- The struct `OrderResponse` (lines 36-46). -/
structure OrderResponse where
  ID : String
  BuyerID : String
  FarmerID : String
  Status : String
  DeliveryMode : String
  TotalAmount : F64
  CreatedAt : Nat
  UpdatedAt : Nat
  OrderItems : List OrderItemResponse
  deriving DecidableEq, Repr

/-- The function `toOrderItemResponse` (lines 49-58). -/
def toOrderItemResponse (oi : OrderItem) : OrderItemResponse :=
  { ID := oi.ID, ProductID := oi.ProductID, Quantity := oi.Quantity,
    PricePerUnit := oi.PricePerUnit, CreatedAt := oi.CreatedAt, UpdatedAt := oi.UpdatedAt }

/-- The function `toOrderResponse` (lines 61-78), on an order loaded with its
items. -/
def toOrderResponse (order : Order) (orderItems : List OrderItem) : OrderResponse :=
  { ID := order.ID, BuyerID := order.BuyerID, FarmerID := order.FarmerID,
    Status := order.Status, DeliveryMode := order.DeliveryMode,
    TotalAmount := order.TotalAmount, CreatedAt := order.CreatedAt,
    UpdatedAt := order.UpdatedAt, OrderItems := orderItems.map toOrderItemResponse }

/-- The struct `ProductResponse` (product_handler.go, lines 33-46). -/
structure ProductResponse where
  ID : String
  FarmerID : String
  CropName : String
  Quantity : F64
  Unit : String
  PricePerUnit : F64
  State : String
  City : String
  Pincode : String
  Status : String
  CreatedAt : Nat
  UpdatedAt : Nat
  deriving DecidableEq, Repr

/-- The function `toProductResponse` (product_handler.go, lines 49-64). -/
def toProductResponse (p : Product) : ProductResponse :=
  { ID := p.ID, FarmerID := p.FarmerID, CropName := p.CropName, Quantity := p.Quantity,
    Unit := p.Unit, PricePerUnit := p.PricePerUnit, State := p.State, City := p.City,
    Pincode := p.Pincode, Status := p.Status, CreatedAt := p.CreatedAt,
    UpdatedAt := p.UpdatedAt }

/-- The JSON document passed to `c.JSON`. -/
inductive Payload where
  | error (msg : String)
  | bindError (err : BindError)
  | invalidTransition (currentStatus requestedStatus : String) (validTransitions : List String)
  | order (o : OrderResponse)
  | orders (os : List OrderResponse)
  | product (p : ProductResponse)
  deriving DecidableEq, Repr

/-- A call `c.JSON(code, payload)`. -/
structure Response where
  code : Nat
  payload : Payload
  deriving DecidableEq, Repr

/-! ## Handlers -/

/-- What a run of `UpdateOrderStatus` takes from outside the handler: whether
each store call fails, and the clock at the update. -/
structure UpdateStatusEnv where
  orderQueryFails : Bool
  updateFails : Bool
  updateNow : Nat
  reloadFails : Bool
  deriving DecidableEq, Repr

/-- The handler `UpdateOrderStatus` (lines 242-318). `role` and `userID` are the
context values set by the authentication middleware, `orderID` the path
parameter, `body` the request body. Returns the response and the store after
the call. -/
def UpdateOrderStatus (env : UpdateStatusEnv) (role userID orderID : String)
    (body : Option UpdateOrderStatusRequest) (s : Store) : Response × Store :=
  if role ≠ "farmer" then
    (⟨403, .error "Only farmers can update order status"⟩, s)
  else
    match dbFirstOrderOfFarmer env.orderQueryFails s orderID userID with
    | .error .recordNotFound =>
      (⟨404, .error "Order not found or you don't have permission to update it"⟩, s)
    | .error .other => (⟨500, .error "Database error"⟩, s)
    | .ok order =>
      match bindUpdateOrderStatus body with
      | .error err => (⟨400, .bindError err⟩, s)
      | .ok req =>
        let currentStatus := order.Status
        let newStatus := req.Status
        if validTransition currentStatus newStatus = false then
          (⟨400, .invalidTransition currentStatus newStatus
            (getValidTransitions currentStatus)⟩, s)
        else
          match dbUpdateOrderStatus env.updateFails env.updateNow s order newStatus with
          | .error _ => (⟨500, .error "Failed to update order status"⟩, s)
          | .ok s₁ =>
            match dbFirstOrderPreload env.reloadFails s₁ orderID with
            | .error _ => (⟨500, .error "Failed to fetch updated order"⟩, s₁)
            | .ok (updatedOrder, items) =>
              (⟨200, .order (toOrderResponse updatedOrder items)⟩, s₁)

/-- What a run of `CreateOrder` takes from outside the handler: whether each
store call fails, the UUIDs drawn by the `BeforeCreate` hooks and the clock at
the two inserts. -/
structure CreateOrderEnv where
  productQueryFails : Bool
  orderUUID : String
  orderNow : Nat
  orderInsertFails : Bool
  itemUUID : String
  itemNow : Nat
  itemInsertFails : Bool
  orderDeleteFails : Bool
  reloadFails : Bool
  deriving DecidableEq, Repr

/-- The handler `CreateOrder` (lines 81-155). Returns the response and the
store after the call. The result of the rollback `db.Delete(&order)` (line
142) is not inspected by the handler. -/
def CreateOrder (env : CreateOrderEnv) (role userID : String)
    (body : Option CreateOrderRequest) (s : Store) : Response × Store :=
  if role ≠ "buyer" then
    (⟨403, .error "Only buyers can place orders"⟩, s)
  else
    match bindCreateOrder body with
    | .error err => (⟨400, .bindError err⟩, s)
    | .ok req =>
      let buyerID := userID
      match dbFirstProduct env.productQueryFails s req.ProductID with
      | .error .recordNotFound => (⟨404, .error "Product not found"⟩, s)
      | .error .other => (⟨500, .error "Database error"⟩, s)
      | .ok product =>
        if product.Status ≠ "active" then
          (⟨400, .error "Product is not available for ordering"⟩, s)
        else
          let totalAmount := F64.mul req.Quantity product.PricePerUnit
          let order : Order :=
            { ID := "", BuyerID := buyerID, FarmerID := product.FarmerID,
              Status := "pending", DeliveryMode := req.DeliveryMode,
              TotalAmount := totalAmount, CreatedAt := 0, UpdatedAt := 0 }
          match dbCreateOrder env.orderInsertFails env.orderUUID env.orderNow s order with
          | .error _ => (⟨500, .error "Failed to create order"⟩, s)
          | .ok (order, s₁) =>
            let orderItem : OrderItem :=
              { ID := "", OrderID := order.ID, ProductID := req.ProductID,
                Quantity := req.Quantity, PricePerUnit := product.PricePerUnit,
                CreatedAt := 0, UpdatedAt := 0 }
            match dbCreateOrderItem env.itemInsertFails env.itemUUID env.itemNow s₁ orderItem with
            | .error _ =>
              let s₂ := match dbDeleteOrder env.orderDeleteFails s₁ order with
                | .ok s' => s'
                | .error _ => s₁
              (⟨500, .error "Failed to create order item"⟩, s₂)
            | .ok (_, s₂) =>
              match dbFirstOrderPreload env.reloadFails s₂ order.ID with
              | .error _ => (⟨500, .error "Failed to fetch created order"⟩, s₂)
              | .ok (createdOrder, items) =>
                (⟨201, .order (toOrderResponse createdOrder items)⟩, s₂)

/-- The handler `GetOrder` (lines 158-187). `queryFails` is a failure of the
store on the query. The handler writes nothing. -/
def GetOrder (queryFails : Bool) (role userID orderID : String) (s : Store) : Response :=
  if role = "buyer" then
    match dbFirstOrderWherePreload queryFails s orderID (fun o => decide (o.BuyerID = userID)) with
    | .error .recordNotFound =>
      ⟨404, .error "Order not found or you don't have permission to access it"⟩
    | .error .other => ⟨500, .error "Database error"⟩
    | .ok (order, items) => ⟨200, .order (toOrderResponse order items)⟩
  else if role = "farmer" then
    match dbFirstOrderWherePreload queryFails s orderID (fun o => decide (o.FarmerID = userID)) with
    | .error .recordNotFound =>
      ⟨404, .error "Order not found or you don't have permission to access it"⟩
    | .error .other => ⟨500, .error "Database error"⟩
    | .ok (order, items) => ⟨200, .order (toOrderResponse order items)⟩
  else
    ⟨403, .error "Invalid role"⟩

/-- The handler `GetBuyerOrders` (lines 190-213). -/
def GetBuyerOrders (queryFails : Bool) (role userID : String) (s : Store) : Response :=
  if role ≠ "buyer" then
    ⟨403, .error "Only buyers can access this endpoint"⟩
  else
    let buyerID := userID
    match dbFindOrdersPreload queryFails s (fun o => decide (o.BuyerID = buyerID)) with
    | .error _ => ⟨500, .error "Failed to fetch orders"⟩
    | .ok orders => ⟨200, .orders (orders.map fun r => toOrderResponse r.1 r.2)⟩

/-- The handler `GetFarmerOrders` (lines 216-239). -/
def GetFarmerOrders (queryFails : Bool) (role userID : String) (s : Store) : Response :=
  if role ≠ "farmer" then
    ⟨403, .error "Only farmers can access this endpoint"⟩
  else
    let farmerID := userID
    match dbFindOrdersPreload queryFails s (fun o => decide (o.FarmerID = farmerID)) with
    | .error _ => ⟨500, .error "Failed to fetch orders"⟩
    | .ok orders => ⟨200, .orders (orders.map fun r => toOrderResponse r.1 r.2)⟩

/-- What a run of `UpdateProduct` takes from outside the handler. -/
structure UpdateProductEnv where
  productQueryFails : Bool
  updateFails : Bool
  updateNow : Nat
  reloadFails : Bool
  deriving DecidableEq, Repr

/-- The handler `UpdateProduct` (product_handler.go, lines 196-270). The error
of the reload (line 268) is not inspected; `product` then keeps the values
`Updates` assigned to it. -/
def UpdateProduct (env : UpdateProductEnv) (role userID productID : String)
    (body : Option UpdateProductRequest) (s : Store) : Response × Store :=
  if role ≠ "farmer" then
    (⟨403, .error "Only farmers can update products"⟩, s)
  else
    match dbFirstProductOfFarmer env.productQueryFails s productID userID with
    | .error .recordNotFound =>
      (⟨404, .error "Product not found or you don't have permission to update it"⟩, s)
    | .error .other => (⟨500, .error "Database error"⟩, s)
    | .ok product =>
      match bindUpdateProduct body with
      | .error err => (⟨400, .bindError err⟩, s)
      | .ok req =>
        if req.Quantity.any F64.leZero then
          (⟨400, .error "Quantity must be greater than 0"⟩, s)
        else if req.PricePerUnit.any F64.leZero then
          (⟨400, .error "Price per unit must be greater than 0"⟩, s)
        else if req.Status.any (fun st => !(["active", "closed", "sold"].contains st)) then
          (⟨400, .error "Status must be one of: active, closed, sold"⟩, s)
        else if req.Quantity.isNone ∧ req.PricePerUnit.isNone ∧ req.Status.isNone then
          (⟨400, .error "No fields to update"⟩, s)
        else
          match dbUpdateProduct env.updateFails env.updateNow s product
              req.Quantity req.PricePerUnit req.Status with
          | .error _ => (⟨500, .error "Failed to update product"⟩, s)
          | .ok s₁ =>
            let product :=
              match dbFirstProduct env.reloadFails s₁ productID with
              | .ok p => p
              | .error _ =>
                applyProductUpdates env.updateNow req.Quantity req.PricePerUnit req.Status product
            (⟨200, .product (toProductResponse product)⟩, s₁)

/-! ## Sequences of calls -/

/-- One call of `UpdateOrderStatus`: its environment, caller and request. -/
structure UpdateCall where
  env : UpdateStatusEnv
  role : String
  userID : String
  orderID : String
  body : Option UpdateOrderStatusRequest

/-- Run the call on a store. -/
def UpdateCall.run (c : UpdateCall) (s : Store) : Response × Store :=
  UpdateOrderStatus c.env c.role c.userID c.orderID c.body s

/-- Run the calls one after the other; the result lists each call with its
response and the store it leaves. -/
def runUpdateCalls : List UpdateCall → Store → List (UpdateCall × Response × Store)
  | [], _ => []
  | c :: cs, s => (c, c.run s) :: runUpdateCalls cs (c.run s).2

/-- The store after the calls. -/
def storeAfterUpdates : List UpdateCall → Store → Store
  | [], s => s
  | c :: cs, s => storeAfterUpdates cs (c.run s).2

/-- One call of `UpdateProduct`. -/
structure ProductCall where
  env : UpdateProductEnv
  role : String
  userID : String
  productID : String
  body : Option UpdateProductRequest

/-- The store after a sequence of `UpdateProduct` calls. -/
def storeAfterProductCalls : List ProductCall → Store → Store
  | [], s => s
  | c :: cs, s =>
    storeAfterProductCalls cs (UpdateProduct c.env c.role c.userID c.productID c.body s).2

/-- The stored status of the order with the given id. -/
def storedStatus (s : Store) (id : String) : Option String :=
  (s.orders.find? (fun o => decide (o.ID = id))).map Order.Status

/-- One edge of the transition graph. -/
def Transition (c r : String) : Prop := validTransition c r = true

/-- A measure that grows along every edge of the transition graph: the
position of a status in the lifecycle. -/
def statusRank (status : String) : Nat :=
  if status = "pending" then 0
  else if status = "accepted" then 1
  else if status = "shipped" then 2
  else 3

/-! ## Error kinds (spec, section 7) -/

/-- The error kinds of the spec's taxonomy, and the failure of request
validation. -/
inductive ErrorKind where
  | forbidden
  | validation
  | notFound
  | invalidState
  | invalidTransition
  | storageError
  deriving DecidableEq, Repr

/-- The HTTP status the handlers pass to `c.JSON` for each kind:
`http.StatusForbidden`, `http.StatusBadRequest`, `http.StatusNotFound` and
`http.StatusInternalServerError`. -/
def ErrorKind.statusCode : ErrorKind → Nat
  | .forbidden => 403
  | .validation => 400
  | .notFound => 404
  | .invalidState => 400
  | .invalidTransition => 400
  | .storageError => 500

/-- The status code of a run: that of its error kind, or `success` when the
run has none. -/
def statusCodeOf (success : Nat) : Option ErrorKind → Nat
  | none => success
  | some k => k.statusCode

/-- The error kind a run of `CreateOrder` falls under, following the spec:
Forbidden for a caller that is not a buyer, a validation failure for a body
that does not bind, StorageError when a store call fails (an insert also
fails when a `decimal(10,2)` column refuses its value), NotFound for an
unknown product id, InvalidState for a product that is not active; `none`
when the order is created. -/
def createOrderErrorKind (env : CreateOrderEnv) (role : String)
    (body : Option CreateOrderRequest) (s : Store) : Option ErrorKind :=
  if role ≠ "buyer" then some .forbidden
  else match bindCreateOrder body with
    | .error _ => some .validation
    | .ok req =>
      if env.productQueryFails = true then some .storageError
      else match s.products.find? (fun p => decide (p.ID = req.ProductID)) with
        | none => some .notFound
        | some p =>
          if p.Status ≠ "active" then some .invalidState
          else if env.orderInsertFails = true ∨ env.orderUUID ∈ s.orders.map Order.ID ∨
              F64.toDecimal2 (F64.mul req.Quantity p.PricePerUnit) = none then
            some .storageError
          else if env.itemInsertFails = true ∨ env.itemUUID ∈ s.orderItems.map OrderItem.ID ∨
              F64.toDecimal2 req.Quantity = none ∨ F64.toDecimal2 p.PricePerUnit = none then
            some .storageError
          else if env.reloadFails = true then some .storageError
          else none

/-- The error kind a run of `UpdateOrderStatus` falls under, following the
spec: Forbidden for a caller that is not a farmer, StorageError when a store
call fails, NotFound when no order has the id and the caller as its farmer, a
validation failure for a body that does not bind, InvalidTransition for a
status change outside the graph; `none` when the status is updated. -/
def updateStatusErrorKind (env : UpdateStatusEnv) (role userID orderID : String)
    (body : Option UpdateOrderStatusRequest) (s : Store) : Option ErrorKind :=
  if role ≠ "farmer" then some .forbidden
  else if env.orderQueryFails = true then some .storageError
  else match s.orders.find? (fun o => decide (o.ID = orderID ∧ o.FarmerID = userID)) with
    | none => some .notFound
    | some order =>
      match bindUpdateOrderStatus body with
      | .error _ => some .validation
      | .ok req =>
        if validTransition order.Status req.Status = false then some .invalidTransition
        else if env.updateFails = true then some .storageError
        else if env.reloadFails = true then some .storageError
        else none

/-- Two successive stored statuses of an order: the same status, or the two
ends of an edge of the transition graph. -/
def StatusStep (a b : Option String) : Prop :=
  a = b ∨ ∃ x y, a = some x ∧ b = some y ∧ Transition x y

/-! ## Sample data -/

/-- An order of buyer `b1` with farmer `f1`, in status pending. -/
def sampleOrder : Order :=
  { ID := "o1", BuyerID := "b1", FarmerID := "f1", Status := "pending",
    DeliveryMode := "pickup", TotalAmount := F64.finite false 75 1,
    CreatedAt := 10, UpdatedAt := 10 }

/-- The item of `sampleOrder`: 3 units at 50.00. -/
def sampleItem : OrderItem :=
  { ID := "i1", OrderID := "o1", ProductID := "p1", Quantity := F64.finite false 3 0,
    PricePerUnit := F64.finite false 25 1, CreatedAt := 10, UpdatedAt := 10 }

/-- An active product of farmer `f1` at 50.00 per unit. -/
def sampleProduct : Product :=
  { ID := "p1", FarmerID := "f1", CropName := "rice", Quantity := F64.finite false 25 2,
    Unit := "kg", PricePerUnit := F64.finite false 25 1, State := "TN", City := "Salem",
    Pincode := "636001", Status := "active", CreatedAt := 5, UpdatedAt := 5 }

/-- A store with one product, one order and its item. -/
def sampleStore : Store :=
  { products := [sampleProduct], orders := [sampleOrder], orderItems := [sampleItem] }

/-- A run of `UpdateOrderStatus` in which no store call fails. -/
def sampleUpdateEnv : UpdateStatusEnv :=
  { orderQueryFails := false, updateFails := false, updateNow := 20, reloadFails := false }

/-- The order `CreateOrder` inserts (lines 119-125, after the hooks of
`db.Create`). -/
def newOrder (env : CreateOrderEnv) (buyerID : String) (req : CreateOrderRequest)
    (product : Product) : Order :=
  { ID := env.orderUUID, BuyerID := buyerID, FarmerID := product.FarmerID,
    Status := "pending", DeliveryMode := req.DeliveryMode,
    TotalAmount := F64.mul req.Quantity product.PricePerUnit,
    CreatedAt := env.orderNow, UpdatedAt := env.orderNow }

/-- The order item `CreateOrder` inserts (lines 133-138, after the hooks of
`db.Create`). -/
def newOrderItem (env : CreateOrderEnv) (req : CreateOrderRequest) (product : Product) :
    OrderItem :=
  { ID := env.itemUUID, OrderID := env.orderUUID, ProductID := req.ProductID,
    Quantity := req.Quantity, PricePerUnit := product.PricePerUnit,
    CreatedAt := env.itemNow, UpdatedAt := env.itemNow }

/-- A run of `CreateOrder` in which no store call fails. -/
def sampleCreateEnv : CreateOrderEnv :=
  { productQueryFails := false, orderUUID := "o2", orderNow := 30, orderInsertFails := false,
    itemUUID := "i2", itemNow := 31, itemInsertFails := false, orderDeleteFails := false,
    reloadFails := false }

/-- A request for 3 units of product `p1`, to be picked up. -/
def sampleRequest : CreateOrderRequest :=
  { ProductID := "p1", Quantity := F64.finite false 3 0, DeliveryMode := "pickup" }

/-- The store `sampleStore` with its product closed. -/
def closedProductStore : Store :=
  { sampleStore with products := [{ sampleProduct with Status := "closed" }] }

/-- A run of `CreateOrder` in which the item insert fails and then the
rollback delete fails too (a store that stops answering after the order
insert). -/
def lostConnectionEnv : CreateOrderEnv :=
  { sampleCreateEnv with itemInsertFails := true, orderDeleteFails := true }

/-- The store `sampleStore` with the product priced at 1.10 per unit. -/
def decimalPriceStore : Store :=
  { sampleStore with
    products := [{ sampleProduct with PricePerUnit := F64.ofDecimal 110 2 }] }

/-- A request for 1.1 units of product `p1`. -/
def decimalRequest : CreateOrderRequest :=
  { ProductID := "p1", Quantity := F64.ofDecimal 11 1, DeliveryMode := "pickup" }

/-- The store `sampleStore` with the product priced at 2.30 per unit. -/
def smallPriceStore : Store :=
  { sampleStore with
    products := [{ sampleProduct with PricePerUnit := F64.ofDecimal 230 2 }] }

/-- The store `sampleStore` with the product priced at 0.70 per unit. -/
def driftPriceStore : Store :=
  { sampleStore with
    products := [{ sampleProduct with PricePerUnit := F64.ofDecimal 70 2 }] }

/-- A request for 0.05 units of product `p1`. -/
def smallRequest : CreateOrderRequest :=
  { ProductID := "p1", Quantity := F64.ofDecimal 5 2, DeliveryMode := "pickup" }

/-- A request for 1.234 units of product `p1`. -/
def milliRequest : CreateOrderRequest :=
  { ProductID := "p1", Quantity := F64.ofDecimal 1234 3, DeliveryMode := "pickup" }

/-- A request for 0.001 units of product `p1`. -/
def tinyRequest : CreateOrderRequest :=
  { ProductID := "p1", Quantity := F64.ofDecimal 1 3, DeliveryMode := "pickup" }

/-- A request for 0.125 units of product `p1`. -/
def eighthRequest : CreateOrderRequest :=
  { ProductID := "p1", Quantity := F64.ofDecimal 125 3, DeliveryMode := "pickup" }

/-- An order of buyer `b2` with farmer `f2`. -/
def foreignOrder : Order :=
  { ID := "o7", BuyerID := "b2", FarmerID := "f2", Status := "accepted",
    DeliveryMode := "courier", TotalAmount := F64.finite false 5 0,
    CreatedAt := 12, UpdatedAt := 13 }

/-- The store `sampleStore` with a second order, of other users. -/
def twoOrderStore : Store :=
  { sampleStore with orders := [sampleOrder, foreignOrder] }

/-- Three orders of buyer `b1`, stored oldest, newest, middle, and one order of
buyer `b2`. -/
def threeOrderStore : Store :=
  { sampleStore with
    orders := [sampleOrder, { sampleOrder with ID := "o3", CreatedAt := 30 }, foreignOrder,
      { sampleOrder with ID := "o2", CreatedAt := 20 }] }

/-- A run of `UpdateProduct` in which no store call fails. -/
def sampleProductEnv : UpdateProductEnv :=
  { productQueryFails := false, updateFails := false, updateNow := 40, reloadFails := false }

/-- Farmer `f1` raises the price of product `p1` to 60.00, then closes it. -/
def priceChangeCalls : List ProductCall :=
  [{ env := sampleProductEnv, role := "farmer", userID := "f1", productID := "p1",
     body := some { Quantity := none, PricePerUnit := some (F64.finite false 15 2),
                    Status := none } },
   { env := sampleProductEnv, role := "farmer", userID := "f1", productID := "p1",
     body := some { Quantity := some (F64.finite false 1 0), PricePerUnit := none,
                    Status := some "closed" } }]

/-- A call of `UpdateOrderStatus` by farmer `f1` on order `o2` in which no
store call fails. -/
def farmerCall (status : String) : UpdateCall :=
  { env := sampleUpdateEnv, role := "farmer", userID := "f1", orderID := "o2",
    body := some ⟨status⟩ }

/-- Farmer `f1` accepts order `o2` twice, ships it, delivers it, then tries to
reject it. -/
def lifecycleCalls : List UpdateCall :=
  [farmerCall "accepted", farmerCall "accepted", farmerCall "shipped",
   farmerCall "delivered", farmerCall "rejected"]

/-! ## Theorems: transition validator -/

theorem validTransition_iff_allowed (c r : String) :
    validTransition c r = true ↔ (c, r) ∈ allowedPairs := by
  unfold validTransition allowedPairs
  simp only [List.mem_cons, Prod.mk.injEq, List.mem_singleton, List.not_mem_nil, or_false]
  split_ifs <;> simp_all

/-- C1 (counterexample): the switch does not allow exactly five pairs. No
duplicate-free list of five pairs is the set of pairs for which
`validTransition` is true; over the 25 pairs of the five statuses it is true
for four of them. -/
theorem validTransition_not_five_pairs :
    (¬ ∃ l : List (String × String), l.Nodup ∧ l.length = 5 ∧
        ∀ c r, validTransition c r = true ↔ (c, r) ∈ l) ∧
    (statusPairs.filter fun p => validTransition p.1 p.2).length = 4 := by
  refine ⟨?_, by decide⟩
  rintro ⟨l, hnd, hlen, h⟩
  have hsub : l ⊆ allowedPairs := by
    rintro ⟨c, r⟩ hp
    exact (validTransition_iff_allowed c r).1 ((h c r).2 hp)
  have hle : l.length ≤ allowedPairs.length :=
    (List.subperm_of_subset hnd hsub).length_le
  have h4 : allowedPairs.length = 4 := rfl
  omega

/-- C1 (amended): the switch of `UpdateOrderStatus` allows exactly four pairs.
For all strings `c`, `r`, `validTransition c r` is true iff `(c, r)` is one of
pending->accepted, pending->rejected, accepted->shipped, shipped->delivered;
these four pairs are distinct; among the 25 pairs over the five statuses the
ones allowed are exactly these four, so every self-transition and every pair
whose current status is rejected or delivered is denied. -/
theorem validTransition_exactly_four_pairs :
    (∀ c r : String, validTransition c r = true ↔
        ((c = "pending" ∧ r = "accepted") ∨ (c = "pending" ∧ r = "rejected") ∨
         (c = "accepted" ∧ r = "shipped") ∨ (c = "shipped" ∧ r = "delivered"))) ∧
    allowedPairs.Nodup ∧ allowedPairs.length = 4 ∧
    statusPairs.length = 25 ∧
    statusPairs.filter (fun p => validTransition p.1 p.2) = allowedPairs ∧
    (∀ c ∈ orderStatuses, validTransition c c = false) ∧
    (∀ r : String, validTransition "rejected" r = false ∧
        validTransition "delivered" r = false) := by
  refine ⟨?_, by decide, rfl, rfl, by decide, by decide, ?_⟩
  · intro c r
    rw [validTransition_iff_allowed]
    simp [allowedPairs]
  · intro r
    constructor <;> rfl

theorem mem_getValidTransitions_iff (c r : String) :
    r ∈ getValidTransitions c ↔ validTransition c r = true := by
  unfold getValidTransitions validTransition
  split_ifs <;> simp_all

/-- A status the switch allows as a target passes the `oneof` tag of
`UpdateOrderStatusRequest`. -/
theorem bindUpdateOrderStatus_of_validTransition (c r : String)
    (h : validTransition c r = true) : bindUpdateOrderStatus (some ⟨r⟩) = .ok ⟨r⟩ := by
  have h' := (validTransition_iff_allowed c r).1 h
  simp only [allowedPairs, List.mem_cons, Prod.mk.injEq, List.mem_singleton,
    List.not_mem_nil, or_false] at h'
  rcases h' with ⟨-, rfl⟩ | ⟨-, rfl⟩ | ⟨-, rfl⟩ | ⟨-, rfl⟩ <;> rfl

/-- C2: the two encodings of the transition graph agree. For all strings `c`
and `r`, `r` is an element of `getValidTransitions c` iff the switch of
`UpdateOrderStatus` sets `validTransition` to true for `(c, r)`; and
`getValidTransitions c` has no duplicates. -/
theorem getValidTransitions_agrees_with_switch :
    (∀ c r : String, r ∈ getValidTransitions c ↔ validTransition c r = true) ∧
    (∀ c : String, (getValidTransitions c).Nodup) := by
  constructor
  · exact mem_getValidTransitions_iff
  · intro c
    unfold getValidTransitions
    split_ifs <;> decide

/-! ## Theorems: UpdateOrderStatus -/

/-- In a list with distinct keys, `find?` returns the element `x` as soon as
`x` satisfies the predicate and every element satisfying it has the key of `x`. -/
theorem find?_eq_some_of_nodup_key {α β : Type} (f : α → β) (p : α → Bool) :
    ∀ (l : List α) (x : α), (l.map f).Nodup → x ∈ l → p x = true →
      (∀ y ∈ l, p y = true → f y = f x) → l.find? p = some x
  | [], x, _, hx, _, _ => by cases hx
  | a :: l, x, hnd, hx, hp, hkey => by
    rw [List.map_cons, List.nodup_cons] at hnd
    by_cases hax : a = x
    · subst hax
      simp [List.find?, hp]
    · have hxl : x ∈ l := by
        rcases List.mem_cons.1 hx with h | h
        · exact absurd h.symm hax
        · exact h
      have hpa : p a = false := by
        by_contra hcon
        have hpa' : p a = true := by simpa using hcon
        have hk := hkey a (List.mem_cons_self a l) hpa'
        exact hnd.1 (hk ▸ List.mem_map_of_mem f hxl)
      simp only [List.find?, hpa]
      exact find?_eq_some_of_nodup_key f p l x hnd.2 hxl hp
        (fun y hy => hkey y (List.mem_cons_of_mem a hy))

/-- The farmer-scoped lookup of `UpdateOrderStatus` finds the stored order
with the given id when the caller is its farmer. -/
theorem dbFirstOrderOfFarmer_of_mem (s : Store) (o : Order) (hpk : s.PrimaryKeys)
    (ho : o ∈ s.orders) :
    dbFirstOrderOfFarmer false s o.ID o.FarmerID = .ok o := by
  have h := find?_eq_some_of_nodup_key Order.ID
    (fun x => decide (x.ID = o.ID ∧ x.FarmerID = o.FarmerID)) s.orders o hpk.2.1 ho
    (by simp) (by intro y _ hy; simp at hy; exact hy.1)
  simp only [dbFirstOrderOfFarmer, h, Bool.false_eq_true, if_false]

/-- C3: a denied status update changes nothing. For every store with unique
primary keys, every stored order `o` whose farmer is the caller and every
requested status `r` for which `validTransition o.Status r` is false,
`UpdateOrderStatus` fails (400, or 500 when the lookup itself fails; 400 when
it does not) and returns the store it was given, in which `o` still has its
old status. -/
theorem updateOrderStatus_denied_changes_nothing (env : UpdateStatusEnv) (s : Store)
    (o : Order) (r : String) (hpk : s.PrimaryKeys) (ho : o ∈ s.orders)
    (hden : validTransition o.Status r = false) :
    ((UpdateOrderStatus env "farmer" o.FarmerID o.ID (some ⟨r⟩) s).1.code = 400 ∨
      (UpdateOrderStatus env "farmer" o.FarmerID o.ID (some ⟨r⟩) s).1.code = 500) ∧
    (env.orderQueryFails = false →
      (UpdateOrderStatus env "farmer" o.FarmerID o.ID (some ⟨r⟩) s).1.code = 400) ∧
    (UpdateOrderStatus env "farmer" o.FarmerID o.ID (some ⟨r⟩) s).2 = s ∧
    o ∈ (UpdateOrderStatus env "farmer" o.FarmerID o.ID (some ⟨r⟩) s).2.orders := by
  have hfind := dbFirstOrderOfFarmer_of_mem s o hpk ho
  cases hq : env.orderQueryFails
  · have key : (UpdateOrderStatus env "farmer" o.FarmerID o.ID (some ⟨r⟩) s).2 = s ∧
        (UpdateOrderStatus env "farmer" o.FarmerID o.ID (some ⟨r⟩) s).1.code = 400 := by
      unfold UpdateOrderStatus
      simp only [hq, hfind, bindUpdateOrderStatus]
      split_ifs <;> simp_all
    refine ⟨Or.inl key.2, fun _ => key.2, key.1, ?_⟩
    rw [key.1]; exact ho
  · have key : UpdateOrderStatus env "farmer" o.FarmerID o.ID (some ⟨r⟩) s =
        (⟨500, .error "Database error"⟩, s) := by
      unfold UpdateOrderStatus
      simp [hq, dbFirstOrderOfFarmer]
    rw [key]
    refine ⟨Or.inr rfl, ?_, rfl, ho⟩
    intro h
    exact absurd h (by decide)

/-- C3 (witness): the pending order `o1` with requested status shipped. The
call answers 400 and the stored status remains pending. -/
theorem updateOrderStatus_denied_changes_nothing_witness :
    sampleStore.PrimaryKeys ∧ sampleOrder ∈ sampleStore.orders ∧
    validTransition sampleOrder.Status "shipped" = false ∧
    (UpdateOrderStatus sampleUpdateEnv "farmer" "f1" "o1" (some ⟨"shipped"⟩) sampleStore).1.code
      = 400 ∧
    (UpdateOrderStatus sampleUpdateEnv "farmer" "f1" "o1" (some ⟨"shipped"⟩) sampleStore).2
      = sampleStore ∧
    (sampleStore.orders.map Order.Status) = ["pending"] :=
  have h := updateOrderStatus_denied_changes_nothing sampleUpdateEnv sampleStore sampleOrder
    "shipped" (by decide) (by decide) (by decide)
  ⟨by decide, by decide, by decide, h.2.1 rfl, h.2.2.1, rfl⟩

/-- C4 (counterexample): the pending order `o1` with requested status pending,
a pair of the five statuses outside the transition graph. The request fails
the `oneof` tag and the response is the binding error, without
`current_status` and `valid_transitions`. -/
theorem updateOrderStatus_pending_request_is_bind_error :
    sampleStore.PrimaryKeys ∧ sampleOrder ∈ sampleStore.orders ∧
    sampleOrder.Status ∈ orderStatuses ∧ "pending" ∈ orderStatuses ∧
    validTransition sampleOrder.Status "pending" = false ∧
    (UpdateOrderStatus sampleUpdateEnv "farmer" "f1" "o1" (some ⟨"pending"⟩) sampleStore).1
      = ⟨400, .bindError (.validation ["Status"])⟩ ∧
    (UpdateOrderStatus sampleUpdateEnv "farmer" "f1" "o1" (some ⟨"pending"⟩) sampleStore).1
      ≠ ⟨400, .invalidTransition "pending" "pending" ["accepted", "rejected"]⟩ := by
  decide

/-- C4 (amended): every denied transition to one of the four statuses a
request may name is reported as an invalid transition with its context. For
every stored order `o` whose farmer is the caller and every requested status
`r` among accepted, rejected, shipped, delivered with `validTransition
o.Status r` false, when the lookup does not fail the response is 400 carrying
`current_status = o.Status`, `requested_status = r` and `valid_transitions =
getValidTransitions o.Status`, whose elements are exactly the statuses
reachable from `o.Status`. A request for pending is answered by the binding
error instead. -/
theorem updateOrderStatus_denied_reports_invalidTransition (env : UpdateStatusEnv)
    (s : Store) (o : Order) (r : String) (hpk : s.PrimaryKeys) (ho : o ∈ s.orders)
    (hq : env.orderQueryFails = false)
    (hr : r ∈ ["accepted", "rejected", "shipped", "delivered"])
    (hden : validTransition o.Status r = false) :
    (UpdateOrderStatus env "farmer" o.FarmerID o.ID (some ⟨r⟩) s).1 =
      ⟨400, .invalidTransition o.Status r (getValidTransitions o.Status)⟩ ∧
    (∀ x : String, x ∈ getValidTransitions o.Status ↔ validTransition o.Status x = true) ∧
    (UpdateOrderStatus env "farmer" o.FarmerID o.ID (some ⟨"pending"⟩) s).1 =
      ⟨400, .bindError (.validation ["Status"])⟩ := by
  have hfind := dbFirstOrderOfFarmer_of_mem s o hpk ho
  refine ⟨?_, mem_getValidTransitions_iff o.Status, ?_⟩
  · have hb : bindUpdateOrderStatus (some ⟨r⟩) = .ok ⟨r⟩ := by
      simp only [List.mem_cons, List.mem_singleton, List.not_mem_nil, or_false] at hr
      rcases hr with rfl | rfl | rfl | rfl <;> rfl
    unfold UpdateOrderStatus
    simp only [hq, hfind, hb, hden]
    simp
  · have hb : bindUpdateOrderStatus (some ⟨"pending"⟩) = .error (.validation ["Status"]) := by
      rfl
    unfold UpdateOrderStatus
    simp only [hq, hfind, hb]
    simp

/-- C4 (witness): the pending order `o1` with requested status shipped is
answered with `current_status = pending` and `valid_transitions = [accepted,
rejected]`. -/
theorem updateOrderStatus_denied_reports_invalidTransition_witness :
    sampleStore.PrimaryKeys ∧ sampleOrder ∈ sampleStore.orders ∧
    sampleUpdateEnv.orderQueryFails = false ∧
    "shipped" ∈ ["accepted", "rejected", "shipped", "delivered"] ∧
    validTransition sampleOrder.Status "shipped" = false ∧
    (UpdateOrderStatus sampleUpdateEnv "farmer" "f1" "o1" (some ⟨"shipped"⟩) sampleStore).1 =
      ⟨400, .invalidTransition "pending" "shipped" ["accepted", "rejected"]⟩ :=
  ⟨by decide, by decide, rfl, by decide, by decide,
    (updateOrderStatus_denied_reports_invalidTransition sampleUpdateEnv sampleStore
      sampleOrder "shipped" (by decide) (by decide) rfl (by decide) (by decide)).1⟩

/-- In a store with distinct order ids, a stored order with the id of `o` is `o`. -/
theorem order_eq_of_id_eq (s : Store) (hpk : s.PrimaryKeys) (o x : Order)
    (ho : o ∈ s.orders) (hx : x ∈ s.orders) (hid : x.ID = o.ID) : x = o :=
  List.inj_on_of_nodup_map hpk.2.1 hx ho hid

/-- The status update rewrites the row of `o` and no other. -/
theorem dbUpdateOrderStatus_eq (s : Store) (hpk : s.PrimaryKeys) (o : Order)
    (ho : o ∈ s.orders) (now : Nat) (r : String) :
    dbUpdateOrderStatus false now s o r = .ok { s with
      orders := s.orders.map fun x =>
        if x = o then { o with Status := r, UpdatedAt := now } else x } := by
  unfold dbUpdateOrderStatus
  simp only [Bool.false_eq_true, if_false]
  congr 2
  apply List.map_congr_left
  intro x hx
  by_cases hxo : x = o
  · subst hxo
    simp
  · have hid : x.ID ≠ o.ID := fun h => hxo (order_eq_of_id_eq s hpk o x ho hx h)
    simp [hid, hxo]

/-- The reload by id after the status update returns the rewritten row with
the items of `o`. -/
theorem dbFirstOrderPreload_after_update (s : Store) (hpk : s.PrimaryKeys) (o : Order)
    (ho : o ∈ s.orders) (now : Nat) (r : String) :
    dbFirstOrderPreload false { s with
      orders := s.orders.map fun x =>
        if x = o then { o with Status := r, UpdatedAt := now } else x } o.ID =
      .ok ({ o with Status := r, UpdatedAt := now }, preloadOrderItems s o) := by
  have hids : (s.orders.map fun x =>
      if x = o then { o with Status := r, UpdatedAt := now } else x).map Order.ID =
      s.orders.map Order.ID := by
    rw [List.map_map]
    apply List.map_congr_left
    intro x _
    by_cases hxo : x = o
    · simp [hxo]
    · simp [hxo]
  have hmem : ({ o with Status := r, UpdatedAt := now } : Order) ∈
      s.orders.map fun x => if x = o then { o with Status := r, UpdatedAt := now } else x :=
    List.mem_map.2 ⟨o, ho, by simp⟩
  have h := find?_eq_some_of_nodup_key Order.ID (fun x => decide (x.ID = o.ID)) _
    ({ o with Status := r, UpdatedAt := now } : Order) (hids ▸ hpk.2.1) hmem (by simp)
    (by intro y _ hy; simpa using hy)
  simp only [dbFirstOrderPreload, Bool.false_eq_true, if_false, h]
  rfl

/-- C5: an approved status update is a single-field write. For every store
with unique primary keys, every stored order `o` whose farmer is the
caller and every requested status `r` allowed from `o.Status`, the call
succeeds (200) exactly when none of its three store calls fails, and then: the
row of `o` becomes `o'`, which has status `r` and the id, buyer, farmer,
delivery mode, total amount and creation time of `o`; every other order row is
as before; the order items and the products are as before, so the items of
`o'` are those of `o`; and the response is `o'` with these items. -/
theorem updateOrderStatus_approved_single_field_write (env : UpdateStatusEnv) (s : Store)
    (o : Order) (r : String) (res : Response × Store) (hpk : s.PrimaryKeys) (ho : o ∈ s.orders)
    (hok : validTransition o.Status r = true)
    (hres : UpdateOrderStatus env "farmer" o.FarmerID o.ID (some ⟨r⟩) s = res) :
    (res.1.code = 200 ↔
      (env.orderQueryFails = false ∧ env.updateFails = false ∧ env.reloadFails = false)) ∧
    (res.1.code = 200 →
      ∃ o' : Order, o'.Status = r ∧ o'.ID = o.ID ∧ o'.BuyerID = o.BuyerID ∧
        o'.FarmerID = o.FarmerID ∧ o'.DeliveryMode = o.DeliveryMode ∧
        o'.TotalAmount = o.TotalAmount ∧ o'.CreatedAt = o.CreatedAt ∧
        res.2.orders = s.orders.map (fun x => if x = o then o' else x) ∧
        res.2.orderItems = s.orderItems ∧ res.2.products = s.products ∧
        preloadOrderItems res.2 o' = preloadOrderItems s o ∧
        res.1.payload = .order (toOrderResponse o' (preloadOrderItems s o))) := by
  have hfind := dbFirstOrderOfFarmer_of_mem s o hpk ho
  have hb := bindUpdateOrderStatus_of_validTransition o.Status r hok
  have hupd := dbUpdateOrderStatus_eq s hpk o ho env.updateNow r
  have hrel := dbFirstOrderPreload_after_update s hpk o ho env.updateNow r
  subst hres
  cases hq : env.orderQueryFails
  · cases hu : env.updateFails
    · cases hl : env.reloadFails
      · have key : UpdateOrderStatus env "farmer" o.FarmerID o.ID (some ⟨r⟩) s =
            (⟨200, .order (toOrderResponse { o with Status := r, UpdatedAt := env.updateNow }
              (preloadOrderItems s o))⟩,
             { s with orders := s.orders.map fun x =>
                if x = o then { o with Status := r, UpdatedAt := env.updateNow } else x }) := by
          unfold UpdateOrderStatus
          simp only [hq, hu, hl, hfind, hb, hok, hupd, hrel]
          simp
        rw [key]
        refine ⟨by simp, fun _ => ⟨{ o with Status := r, UpdatedAt := env.updateNow },
          rfl, rfl, rfl, rfl, rfl, rfl, rfl, rfl, rfl, rfl, rfl, rfl⟩⟩
      · have key : (UpdateOrderStatus env "farmer" o.FarmerID o.ID (some ⟨r⟩) s).1.code
            = 500 := by
          unfold UpdateOrderStatus
          simp only [hq, hu, hl, hfind, hb, hok, hupd]
          simp [dbFirstOrderPreload]
        rw [key]
        simp
    · have key : (UpdateOrderStatus env "farmer" o.FarmerID o.ID (some ⟨r⟩) s).1.code
          = 500 := by
        unfold UpdateOrderStatus
        simp only [hq, hu, hfind, hb, hok]
        simp [dbUpdateOrderStatus]
      rw [key]
      simp
  · have key : (UpdateOrderStatus env "farmer" o.FarmerID o.ID (some ⟨r⟩) s).1.code
        = 500 := by
      unfold UpdateOrderStatus
      simp [hq, dbFirstOrderOfFarmer]
    rw [key]
    simp

/-- C5 (witness): accepting the pending order `o1` rewrites its status and
nothing else in the store. -/
theorem updateOrderStatus_approved_single_field_write_witness :
    sampleStore.PrimaryKeys ∧ sampleOrder ∈ sampleStore.orders ∧
    validTransition sampleOrder.Status "accepted" = true ∧
    (UpdateOrderStatus sampleUpdateEnv "farmer" "f1" "o1" (some ⟨"accepted"⟩) sampleStore).1.code
      = 200 ∧
    (UpdateOrderStatus sampleUpdateEnv "farmer" "f1" "o1" (some ⟨"accepted"⟩) sampleStore).2
      = { sampleStore with
          orders := [{ sampleOrder with Status := "accepted", UpdatedAt := 20 }] } :=
  have h := updateOrderStatus_approved_single_field_write sampleUpdateEnv sampleStore
    sampleOrder "accepted" _ (by decide) (by decide) (by decide) rfl
  ⟨by decide, by decide, by decide, h.1.2 ⟨rfl, rfl, rfl⟩, by decide⟩

/-- The response of `UpdateOrderStatus` for an order the caller may not see
(line 258). -/
theorem updateOrderStatus_unmatched (env : UpdateStatusEnv) (userID orderID : String)
    (body : Option UpdateOrderStatusRequest) (s : Store)
    (hnone : ∀ o ∈ s.orders, ¬ (o.ID = orderID ∧ o.FarmerID = userID)) :
    UpdateOrderStatus env "farmer" userID orderID body s =
      if env.orderQueryFails = true then (⟨500, .error "Database error"⟩, s)
      else (⟨404, .error "Order not found or you don't have permission to update it"⟩, s) := by
  have hfind : s.orders.find? (fun o => decide (o.ID = orderID ∧ o.FarmerID = userID))
      = none := by
    rw [List.find?_eq_none]
    intro o ho
    simpa using hnone o ho
  unfold UpdateOrderStatus dbFirstOrderOfFarmer
  cases hq : env.orderQueryFails
  · simp only [hfind]
    simp
  · simp

/-- C6: `UpdateOrderStatus` is scoped to the owning farmer and does not leak
existence. For a caller with role farmer and any ids `x`, `y` such that no
stored order with that id has the caller as its farmer (`x` may name an order
of another farmer, `y` no order at all), and any request bodies: both calls
leave the store unchanged and produce the same response, and that response is
404 NotFound when the lookup does not fail. -/
theorem updateOrderStatus_scoped_to_owner (env : UpdateStatusEnv) (userID x y : String)
    (b₁ b₂ : Option UpdateOrderStatusRequest) (s : Store)
    (hx : ∀ o ∈ s.orders, ¬ (o.ID = x ∧ o.FarmerID = userID))
    (hy : ∀ o ∈ s.orders, ¬ (o.ID = y ∧ o.FarmerID = userID)) :
    (UpdateOrderStatus env "farmer" userID x b₁ s).1 =
      (UpdateOrderStatus env "farmer" userID y b₂ s).1 ∧
    (UpdateOrderStatus env "farmer" userID x b₁ s).2 = s ∧
    (UpdateOrderStatus env "farmer" userID y b₂ s).2 = s ∧
    (env.orderQueryFails = false →
      (UpdateOrderStatus env "farmer" userID x b₁ s).1 =
        ⟨404, .error "Order not found or you don't have permission to update it"⟩) := by
  rw [updateOrderStatus_unmatched env userID x b₁ s hx,
    updateOrderStatus_unmatched env userID y b₂ s hy]
  cases hq : env.orderQueryFails <;> simp

/-- C6 (witness): farmer `f2` asks for `o1`, an order of farmer `f1`, and for
`o9`, which names no order; both calls answer the same 404. -/
theorem updateOrderStatus_scoped_to_owner_witness :
    (∃ o ∈ sampleStore.orders, o.ID = "o1" ∧ o.FarmerID ≠ "f2") ∧
    (∀ o ∈ sampleStore.orders, o.ID ≠ "o9") ∧
    (UpdateOrderStatus sampleUpdateEnv "farmer" "f2" "o1" (some ⟨"accepted"⟩) sampleStore).1 =
      (UpdateOrderStatus sampleUpdateEnv "farmer" "f2" "o9" (some ⟨"accepted"⟩) sampleStore).1 ∧
    (UpdateOrderStatus sampleUpdateEnv "farmer" "f2" "o1" (some ⟨"accepted"⟩) sampleStore) =
      (⟨404, .error "Order not found or you don't have permission to update it"⟩,
        sampleStore) :=
  have h := updateOrderStatus_scoped_to_owner sampleUpdateEnv "f2" "o1" "o9"
    (some ⟨"accepted"⟩) (some ⟨"accepted"⟩) sampleStore (by decide) (by decide)
  ⟨by decide, by decide, h.1, Prod.ext (h.2.2.2 rfl) h.2.1⟩

/-! ## Theorems: CreateOrder -/

/-- A request with a product id, a positive quantity and a delivery mode of
pickup or courier passes `ShouldBindJSON`. -/
theorem bindCreateOrder_ok (req : CreateOrderRequest) (hid : req.ProductID ≠ "")
    (hq : req.Quantity.gtZero = true)
    (hmode : req.DeliveryMode = "pickup" ∨ req.DeliveryMode = "courier") :
    bindCreateOrder (some req) = .ok req := by
  have hz : req.Quantity.isZero = false := by
    cases hQ : req.Quantity with
    | finite neg m e =>
      cases neg <;> simp_all [F64.gtZero, F64.isZero]
    | inf neg => rfl
    | nan => rfl
  have hm : req.DeliveryMode ≠ "" := by
    rcases hmode with h | h <;> rw [h] <;> decide
  simp [bindCreateOrder, hid, hq, hz, hm, hmode]

/-- The product lookup of `CreateOrder` finds the stored product with the
requested id. -/
theorem dbFirstProduct_of_mem (s : Store) (p : Product) (hpk : s.PrimaryKeys)
    (hp : p ∈ s.products) : dbFirstProduct false s p.ID = .ok p := by
  have h := find?_eq_some_of_nodup_key Product.ID (fun x => decide (x.ID = p.ID))
    s.products p hpk.1 hp (by simp) (by intro y _ hy; simpa using hy)
  simp only [dbFirstProduct, h, Bool.false_eq_true, if_false]

/-- The row an order is written as differs from the order in its total only. -/
theorem order_toRow_eq_some (o r : Order) (h : o.toRow = some r) :
    F64.toDecimal2 o.TotalAmount = some r.TotalAmount ∧
      r = { o with TotalAmount := r.TotalAmount } := by
  unfold Order.toRow at h
  cases ht : F64.toDecimal2 o.TotalAmount with
  | none => rw [ht] at h; exact absurd h (by simp)
  | some t =>
    rw [ht] at h
    simp only [Option.map_some', Option.some.injEq] at h
    subst h
    exact ⟨rfl, rfl⟩

/-- The row an item is written as differs from the item in its quantity and
price only. -/
theorem orderItem_toRow_eq_some (i r : OrderItem) (h : i.toRow = some r) :
    F64.toDecimal2 i.Quantity = some r.Quantity ∧
      F64.toDecimal2 i.PricePerUnit = some r.PricePerUnit ∧
      r = { i with Quantity := r.Quantity, PricePerUnit := r.PricePerUnit } := by
  unfold OrderItem.toRow at h
  cases hq : F64.toDecimal2 i.Quantity with
  | none => rw [hq] at h; exact absurd h (by simp)
  | some q =>
    cases hv : F64.toDecimal2 i.PricePerUnit with
    | none => rw [hq, hv] at h; exact absurd h (by simp)
    | some v =>
      rw [hq, hv] at h
      simp only [Option.some_bind, Option.map_some', Option.some.injEq] at h
      subst h
      exact ⟨rfl, rfl, rfl⟩

/-- The insert of the order built by `CreateOrder`. -/
theorem dbCreateOrder_new (env : CreateOrderEnv) (userID : String) (req : CreateOrderRequest)
    (p : Product) (s : Store) :
    dbCreateOrder env.orderInsertFails env.orderUUID env.orderNow s
        { ID := "", BuyerID := userID, FarmerID := p.FarmerID, Status := "pending",
          DeliveryMode := req.DeliveryMode,
          TotalAmount := F64.mul req.Quantity p.PricePerUnit, CreatedAt := 0, UpdatedAt := 0 } =
      if env.orderInsertFails = true ∨ env.orderUUID ∈ s.orders.map Order.ID then .error .other
      else match (newOrder env userID req p).toRow with
        | none => .error .other
        | some row => .ok (newOrder env userID req p, { s with orders := s.orders ++ [row] }) := by
  simp [dbCreateOrder, newOrder]

/-- The insert of the order item built by `CreateOrder`. -/
theorem dbCreateOrderItem_new (env : CreateOrderEnv) (userID : String)
    (req : CreateOrderRequest) (p : Product) (s : Store) :
    dbCreateOrderItem env.itemInsertFails env.itemUUID env.itemNow s
        { ID := "", OrderID := (newOrder env userID req p).ID, ProductID := req.ProductID,
          Quantity := req.Quantity, PricePerUnit := p.PricePerUnit,
          CreatedAt := 0, UpdatedAt := 0 } =
      if env.itemInsertFails = true ∨ env.itemUUID ∈ s.orderItems.map OrderItem.ID then
        .error .other
      else match (newOrderItem env req p).toRow with
        | none => .error .other
        | some row =>
          .ok (newOrderItem env req p, { s with orderItems := s.orderItems ++ [row] }) := by
  simp [dbCreateOrderItem, newOrder, newOrderItem]

/-- No stored item refers to an order id that is not in the store. -/
theorem filter_items_of_fresh (s : Store) (hfk : s.ForeignKeys) (id : String)
    (hfresh : id ∉ s.orders.map Order.ID) :
    s.orderItems.filter (fun i => decide (i.OrderID = id)) = [] ∧
    s.orderItems.filter (fun i => decide (i.OrderID ≠ id)) = s.orderItems := by
  constructor
  · rw [List.filter_eq_nil_iff]
    intro i hi h
    exact hfresh ((of_decide_eq_true h) ▸ hfk i hi)
  · rw [List.filter_eq_self]
    intro i hi
    exact decide_eq_true fun h => hfresh (h ▸ hfk i hi)

/-- No stored order has an id that is not in the store. -/
theorem filter_orders_of_fresh (s : Store) (id : String)
    (hfresh : id ∉ s.orders.map Order.ID) :
    s.orders.find? (fun o => decide (o.ID = id)) = none ∧
    s.orders.filter (fun o => decide (o.ID ≠ id)) = s.orders := by
  constructor
  · rw [List.find?_eq_none]
    intro o ho h
    exact hfresh ((of_decide_eq_true h) ▸ List.mem_map_of_mem Order.ID ho)
  · rw [List.filter_eq_self]
    intro o ho
    exact decide_eq_true fun h => hfresh (h ▸ List.mem_map_of_mem Order.ID ho)

/-- The columns of the row the new order is written as. -/
theorem newOrder_row_fields (env : CreateOrderEnv) (userID : String)
    (req : CreateOrderRequest) (p : Product) (orow : Order)
    (hor : (newOrder env userID req p).toRow = some orow) :
    orow.ID = env.orderUUID ∧ orow.BuyerID = userID ∧ orow.FarmerID = p.FarmerID ∧
      orow.Status = "pending" ∧ orow.DeliveryMode = req.DeliveryMode ∧
      F64.toDecimal2 (F64.mul req.Quantity p.PricePerUnit) = some orow.TotalAmount := by
  obtain ⟨ht, horow⟩ := order_toRow_eq_some _ _ hor
  refine ⟨?_, ?_, ?_, ?_, ?_, ht⟩ <;> (rw [horow]; rfl)

/-- The columns of the row the new order item is written as. -/
theorem newOrderItem_row_fields (env : CreateOrderEnv) (req : CreateOrderRequest)
    (p : Product) (irow : OrderItem) (hir : (newOrderItem env req p).toRow = some irow) :
    irow.ID = env.itemUUID ∧ irow.OrderID = env.orderUUID ∧
      irow.ProductID = req.ProductID ∧
      F64.toDecimal2 req.Quantity = some irow.Quantity ∧
      F64.toDecimal2 p.PricePerUnit = some irow.PricePerUnit := by
  obtain ⟨hq, hv, hirow⟩ := orderItem_toRow_eq_some _ _ hir
  refine ⟨?_, ?_, ?_, hq, hv⟩ <;> (rw [hirow]; rfl)

/-- What `CreateOrder` does for a buyer, a request that passes binding and a
stored active product: the outcome of each store call decides the response
and the store left behind. -/
theorem createOrder_run (env : CreateOrderEnv) (userID : String) (req : CreateOrderRequest)
    (s : Store) (p : Product) (hwf : s.WF) (hp : p ∈ s.products)
    (hpid : req.ProductID = p.ID) (hid : req.ProductID ≠ "")
    (hq : req.Quantity.gtZero = true)
    (hmode : req.DeliveryMode = "pickup" ∨ req.DeliveryMode = "courier")
    (hactive : p.Status = "active") :
    CreateOrder env "buyer" userID (some req) s =
      if env.productQueryFails = true then (⟨500, .error "Database error"⟩, s)
      else if env.orderInsertFails = true ∨ env.orderUUID ∈ s.orders.map Order.ID then
        (⟨500, .error "Failed to create order"⟩, s)
      else match (newOrder env userID req p).toRow with
        | none => (⟨500, .error "Failed to create order"⟩, s)
        | some orow =>
          if env.itemInsertFails = true ∨ env.itemUUID ∈ s.orderItems.map OrderItem.ID then
            (⟨500, .error "Failed to create order item"⟩,
              if env.orderDeleteFails = true then { s with orders := s.orders ++ [orow] }
              else s)
          else match (newOrderItem env req p).toRow with
            | none =>
              (⟨500, .error "Failed to create order item"⟩,
                if env.orderDeleteFails = true then { s with orders := s.orders ++ [orow] }
                else s)
            | some irow =>
              (if env.reloadFails = true then ⟨500, .error "Failed to fetch created order"⟩
                else ⟨201, .order (toOrderResponse orow [irow])⟩,
               { s with orders := s.orders ++ [orow]
                        orderItems := s.orderItems ++ [irow] }) := by
  have hbind := bindCreateOrder_ok req hid hq hmode
  have hfindp : dbFirstProduct false s req.ProductID = .ok p :=
    hpid ▸ dbFirstProduct_of_mem s p hwf.1 hp
  unfold CreateOrder
  simp only [hbind]
  cases hpq : env.productQueryFails
  swap
  · simp [dbFirstProduct]
  simp only [hfindp, hactive, dbCreateOrder_new]
  by_cases ho : env.orderInsertFails = true ∨ env.orderUUID ∈ s.orders.map Order.ID
  · simp only [ho, ↓reduceIte, Bool.false_eq_true]
    simp
  have hfresh : env.orderUUID ∉ s.orders.map Order.ID := fun h => ho (Or.inr h)
  have hfi := filter_items_of_fresh s hwf.2 env.orderUUID hfresh
  have hfo := filter_orders_of_fresh s env.orderUUID hfresh
  simp only [ho, ↓reduceIte, Bool.false_eq_true]
  cases hor : (newOrder env userID req p).toRow with
  | none => simp
  | some orow =>
    obtain ⟨-, horow⟩ := order_toRow_eq_some _ _ hor
    have hoid : orow.ID = env.orderUUID := by rw [horow]; rfl
    have hnid : (newOrder env userID req p).ID = env.orderUUID := rfl
    simp only [ne_eq, not_true_eq_false, ↓reduceIte, dbCreateOrderItem_new]
    by_cases hi : env.itemInsertFails = true ∨ env.itemUUID ∈ s.orderItems.map OrderItem.ID
    · simp only [hi, ↓reduceIte]
      cases hd : env.orderDeleteFails
      · simp only [dbDeleteOrder, Bool.false_eq_true, ↓reduceIte, List.filter_append, hnid,
          hfi.2, hfo.2]
        simp [hoid]
      · simp only [dbDeleteOrder, ↓reduceIte]
    · simp only [hi, ↓reduceIte]
      cases hir : (newOrderItem env req p).toRow with
      | none =>
        cases hd : env.orderDeleteFails
        · simp only [dbDeleteOrder, Bool.false_eq_true, ↓reduceIte, List.filter_append, hnid,
            hfi.2, hfo.2]
          simp [hoid]
        · simp only [dbDeleteOrder, ↓reduceIte]
      | some irow =>
        obtain ⟨-, -, hirow⟩ := orderItem_toRow_eq_some _ _ hir
        have hioid : irow.OrderID = env.orderUUID := by rw [hirow]; rfl
        cases hr : env.reloadFails
        · simp only [dbFirstOrderPreload, Bool.false_eq_true, ↓reduceIte, List.find?_append,
            hnid, hfo.1, preloadOrderItems, List.filter_append, hfi.1]
          simp [hoid, hioid, hfi.1]
        · simp only [dbFirstOrderPreload, ↓reduceIte]

/-- The run of `CreateOrder` when both columns take their values: `orow` and
`irow` are the rows the order and the item are written as. -/
theorem createOrder_eq (env : CreateOrderEnv) (userID : String) (req : CreateOrderRequest)
    (s : Store) (p : Product) (orow : Order) (irow : OrderItem)
    (hwf : s.WF) (hp : p ∈ s.products)
    (hpid : req.ProductID = p.ID) (hid : req.ProductID ≠ "")
    (hq : req.Quantity.gtZero = true)
    (hmode : req.DeliveryMode = "pickup" ∨ req.DeliveryMode = "courier")
    (hactive : p.Status = "active")
    (hor : (newOrder env userID req p).toRow = some orow)
    (hir : (newOrderItem env req p).toRow = some irow) :
    CreateOrder env "buyer" userID (some req) s =
      if env.productQueryFails = true then (⟨500, .error "Database error"⟩, s)
      else if env.orderInsertFails = true ∨ env.orderUUID ∈ s.orders.map Order.ID then
        (⟨500, .error "Failed to create order"⟩, s)
      else if env.itemInsertFails = true ∨ env.itemUUID ∈ s.orderItems.map OrderItem.ID then
        (⟨500, .error "Failed to create order item"⟩,
          if env.orderDeleteFails = true then { s with orders := s.orders ++ [orow] }
          else s)
      else
        (if env.reloadFails = true then ⟨500, .error "Failed to fetch created order"⟩
          else ⟨201, .order (toOrderResponse orow [irow])⟩,
         { s with orders := s.orders ++ [orow]
                  orderItems := s.orderItems ++ [irow] }) := by
  rw [createOrder_run env userID req s p hwf hp hpid hid hq hmode hactive, hor, hir]

/-- An item whose quantity and price are two-digit decimals the columns hold
is written as it is. -/
theorem orderItem_toRow_of_fixed (i : OrderItem)
    (hq : F64.toDecimal2 i.Quantity = some i.Quantity)
    (hv : F64.toDecimal2 i.PricePerUnit = some i.PricePerUnit) : i.toRow = some i := by
  simp [OrderItem.toRow, hq, hv]

/-- The row of the new order, from the value its total column takes. -/
theorem newOrder_toRow (env : CreateOrderEnv) (userID : String) (req : CreateOrderRequest)
    (p : Product) :
    (newOrder env userID req p).toRow =
      (F64.toDecimal2 (F64.mul req.Quantity p.PricePerUnit)).map fun t =>
        { newOrder env userID req p with TotalAmount := t } := rfl

/-- The status code of `CreateOrder` for a buyer, a request that passes
binding and a stored active product is 500 or 201. -/
theorem createOrder_active_code (env : CreateOrderEnv) (userID : String)
    (req : CreateOrderRequest) (s : Store) (p : Product) (hwf : s.WF) (hp : p ∈ s.products)
    (hpid : req.ProductID = p.ID) (hid : req.ProductID ≠ "")
    (hq : req.Quantity.gtZero = true)
    (hmode : req.DeliveryMode = "pickup" ∨ req.DeliveryMode = "courier")
    (hactive : p.Status = "active") :
    (CreateOrder env "buyer" userID (some req) s).1.code = 500 ∨
      (CreateOrder env "buyer" userID (some req) s).1.code = 201 := by
  rw [createOrder_run env userID req s p hwf hp hpid hid hq hmode hactive]
  by_cases h1 : env.productQueryFails = true
  · rw [if_pos h1]; left; rfl
  rw [if_neg h1]
  by_cases h2 : env.orderInsertFails = true ∨ env.orderUUID ∈ s.orders.map Order.ID
  · rw [if_pos h2]; left; rfl
  rw [if_neg h2]
  cases (newOrder env userID req p).toRow with
  | none => left; rfl
  | some orow =>
    dsimp only
    by_cases h3 : env.itemInsertFails = true ∨ env.itemUUID ∈ s.orderItems.map OrderItem.ID
    · rw [if_pos h3]; left; rfl
    rw [if_neg h3]
    cases (newOrderItem env req p).toRow with
    | none => left; rfl
    | some irow =>
      dsimp only
      by_cases h4 : env.reloadFails = true
      · rw [if_pos h4]; left; rfl
      · rw [if_neg h4]; right; rfl

/-- The order insert is refused for its total exactly when the column refuses
the product of quantity and price. -/
theorem newOrder_toRow_eq_none (env : CreateOrderEnv) (userID : String)
    (req : CreateOrderRequest) (p : Product) :
    (newOrder env userID req p).toRow = none ↔
      F64.toDecimal2 (F64.mul req.Quantity p.PricePerUnit) = none := by
  rw [newOrder_toRow]
  cases F64.toDecimal2 (F64.mul req.Quantity p.PricePerUnit) <;> simp

/-- The item insert is refused for its values exactly when a column refuses
the quantity or the price. -/
theorem newOrderItem_toRow_eq_none (env : CreateOrderEnv) (req : CreateOrderRequest)
    (p : Product) :
    (newOrderItem env req p).toRow = none ↔
      (F64.toDecimal2 req.Quantity = none ∨ F64.toDecimal2 p.PricePerUnit = none) := by
  unfold OrderItem.toRow
  simp only [newOrderItem]
  cases F64.toDecimal2 req.Quantity <;> cases F64.toDecimal2 p.PricePerUnit <;> simp

set_option maxRecDepth 20000 in
/-- C7 (counterexample): two valid requests that `CreateOrder` answers 201.
For quantity 0.05 of a product at 2.30 the order is written with total 0.11,
which is neither the `float64` product `0.05 * 2.30` (0.11499999999999999) nor
the exact product 0.115, while its single item has quantity 0.05 and price
2.30: the total is not the line total of the item. For quantity 1.234 of a
product at 50.00 the item is written with quantity 1.23, not `q`. -/
theorem createOrder_total_not_line_total :
    smallPriceStore.WF ∧ sampleStore.WF ∧
    smallRequest.Quantity.gtZero = true ∧ milliRequest.Quantity.gtZero = true ∧
    smallRequest.Quantity = F64.ofDecimal 5 2 ∧ milliRequest.Quantity = F64.ofDecimal 1234 3 ∧
    (CreateOrder sampleCreateEnv "buyer" "b2" (some smallRequest) smallPriceStore).1.code
      = 201 ∧
    (CreateOrder sampleCreateEnv "buyer" "b2" (some smallRequest) smallPriceStore).2 =
      { smallPriceStore with
        orders := [sampleOrder, ⟨"o2", "b2", "f1", "pending", "pickup",
          F64.ofDecimal 11 2, 30, 30⟩]
        orderItems := [sampleItem, ⟨"i2", "o2", "p1", F64.ofDecimal 5 2,
          F64.ofDecimal 230 2, 31, 31⟩] } ∧
    F64.ofDecimal 11 2 ≠ F64.mul (F64.ofDecimal 5 2) (F64.ofDecimal 230 2) ∧
    F64.toRat (F64.ofDecimal 11 2) ≠ some ((5 / 100 : ℚ) * (230 / 100)) ∧
    (CreateOrder sampleCreateEnv "buyer" "b2" (some milliRequest) sampleStore).1.code = 201 ∧
    (CreateOrder sampleCreateEnv "buyer" "b2" (some milliRequest) sampleStore).2.orderItems =
      [sampleItem, ⟨"i2", "o2", "p1", F64.ofDecimal 123 2, F64.ofDecimal 5000 2, 31, 31⟩] ∧
    F64.ofDecimal 123 2 ≠ F64.ofDecimal 1234 3 := by
  refine ⟨by decide, by decide, by decide, by decide, by decide, by decide, by decide,
    by decide, by decide, ?_, by decide, by decide, by decide⟩
  rw [show F64.ofDecimal 11 2 = F64.finite false 7926335344172073 (-56) by decide]
  simp only [F64.toRat, ne_eq, Option.some.injEq]
  norm_num

/-- C7 (amended): a successful `CreateOrder` writes exactly one order and
exactly one order item. For every buyer, every stored active product `p` whose
price is a two-digit decimal of its column and every request that passes
binding (product id of `p`, delivery mode pickup or courier) with a quantity
`q > 0` that is a two-digit decimal of its column: the response is 201
exactly when no store call fails, the two drawn ids are unused and the total
column takes the `float64` product `q * p.PricePerUnit`; and when the lookup
and both inserts succeed, the store gains the single order `o` (status
pending, buyer the caller, farmer `p.FarmerID`, the requested delivery mode,
total the product `q * p.PricePerUnit` as the `decimal(10,2)` column rounds
it) and the single item `it` (order `o`, product `p`, quantity `q`, price
`p.PricePerUnit`) and nothing else changes; the items of `o` are `[it]`, and
the total of `o` is the line total of `it` rounded to two fractional digits. -/
theorem createOrder_success_writes_order_and_item (env : CreateOrderEnv) (userID : String)
    (req : CreateOrderRequest) (s : Store) (p : Product) (res : Response × Store)
    (hwf : s.WF) (hp : p ∈ s.products) (hpid : req.ProductID = p.ID)
    (hid : req.ProductID ≠ "") (hq : req.Quantity.gtZero = true)
    (hmode : req.DeliveryMode = "pickup" ∨ req.DeliveryMode = "courier")
    (hactive : p.Status = "active")
    (hqd : F64.toDecimal2 req.Quantity = some req.Quantity)
    (hpd : F64.toDecimal2 p.PricePerUnit = some p.PricePerUnit)
    (hres : CreateOrder env "buyer" userID (some req) s = res) :
    (res.1.code = 201 ↔
      (env.productQueryFails = false ∧
       ¬ (env.orderInsertFails = true ∨ env.orderUUID ∈ s.orders.map Order.ID) ∧
       F64.toDecimal2 (F64.mul req.Quantity p.PricePerUnit) ≠ none ∧
       ¬ (env.itemInsertFails = true ∨ env.itemUUID ∈ s.orderItems.map OrderItem.ID) ∧
       env.reloadFails = false)) ∧
    (∀ t : F64,
      (env.productQueryFails = false ∧
       ¬ (env.orderInsertFails = true ∨ env.orderUUID ∈ s.orders.map Order.ID) ∧
       F64.toDecimal2 (F64.mul req.Quantity p.PricePerUnit) = some t ∧
       ¬ (env.itemInsertFails = true ∨ env.itemUUID ∈ s.orderItems.map OrderItem.ID)) →
      ∃ (o : Order) (it : OrderItem),
        res.2.orders = s.orders ++ [o] ∧ res.2.orderItems = s.orderItems ++ [it] ∧
        res.2.products = s.products ∧
        o.Status = "pending" ∧ o.BuyerID = userID ∧ o.FarmerID = p.FarmerID ∧
        o.DeliveryMode = req.DeliveryMode ∧ o.TotalAmount = t ∧
        it.OrderID = o.ID ∧ it.ProductID = p.ID ∧ it.Quantity = req.Quantity ∧
        it.PricePerUnit = p.PricePerUnit ∧
        preloadOrderItems res.2 o = [it] ∧
        (preloadOrderItems res.2 o).map
            (fun i => F64.toDecimal2 (F64.mul i.Quantity i.PricePerUnit))
          = [some o.TotalAmount] ∧
        (env.reloadFails = false → res.1 = ⟨201, .order (toOrderResponse o [it])⟩)) := by
  subst hres
  have hir : (newOrderItem env req p).toRow = some (newOrderItem env req p) :=
    orderItem_toRow_of_fixed _ hqd hpd
  have hrun := createOrder_run env userID req s p hwf hp hpid hid hq hmode hactive
  have hor := newOrder_toRow env userID req p
  cases ht : F64.toDecimal2 (F64.mul req.Quantity p.PricePerUnit) with
  | none =>
    rw [ht] at hor
    rw [hrun, hor]
    constructor
    · simp only [Option.map_none']
      split_ifs <;> simp_all
    · rintro t ⟨-, -, h, -⟩
      exact absurd h (by simp)
  | some t₀ =>
    rw [ht] at hor
    rw [createOrder_eq env userID req s p _ _ hwf hp hpid hid hq hmode hactive hor hir]
    constructor
    · split_ifs <;> simp_all
    · rintro t ⟨h1, h2, h3, h4⟩
      have htt : t₀ = t := Option.some.inj h3
      subst htt
      have hfresh : env.orderUUID ∉ s.orders.map Order.ID := fun h => h2 (Or.inr h)
      have hfi := (filter_items_of_fresh s hwf.2 env.orderUUID hfresh).1
      have hpre : preloadOrderItems
          { s with orders := s.orders ++ [{ newOrder env userID req p with TotalAmount := t₀ }]
                   orderItems := s.orderItems ++ [newOrderItem env req p] }
          { newOrder env userID req p with TotalAmount := t₀ } = [newOrderItem env req p] := by
        simp only [preloadOrderItems, List.filter_append, newOrder, hfi]
        simp [newOrderItem]
      rw [if_neg (by simp [h1]), if_neg h2, if_neg h4]
      refine ⟨{ newOrder env userID req p with TotalAmount := t₀ }, newOrderItem env req p,
        rfl, rfl, rfl, rfl, rfl, rfl, rfl, rfl, rfl, hpid, rfl, rfl, hpre, ?_, ?_⟩
      · rw [hpre]
        simp only [List.map_cons, List.map_nil, newOrderItem, ht]
      · intro hr
        simp [hr]

set_option maxRecDepth 20000 in
/-- C7 (witness): buyer `b2` orders 3 units of the active product `p1` (50.00
per unit); the store gains order `o2` with total 150.00 and item `i2`. -/
theorem createOrder_success_writes_order_and_item_witness :
    sampleStore.WF ∧ sampleProduct ∈ sampleStore.products ∧
    sampleRequest.ProductID = sampleProduct.ID ∧ sampleRequest.Quantity.gtZero = true ∧
    sampleProduct.Status = "active" ∧
    F64.toDecimal2 sampleRequest.Quantity = some sampleRequest.Quantity ∧
    F64.toDecimal2 sampleProduct.PricePerUnit = some sampleProduct.PricePerUnit ∧
    (CreateOrder sampleCreateEnv "buyer" "b2" (some sampleRequest) sampleStore).1.code = 201 ∧
    (CreateOrder sampleCreateEnv "buyer" "b2" (some sampleRequest) sampleStore).2 =
      { sampleStore with
        orders := [sampleOrder, ⟨"o2", "b2", "f1", "pending", "pickup",
          F64.finite false 75 1, 30, 30⟩]
        orderItems := [sampleItem, ⟨"i2", "o2", "p1", F64.finite false 3 0,
          F64.finite false 25 1, 31, 31⟩] } :=
  have h := createOrder_success_writes_order_and_item sampleCreateEnv "b2" sampleRequest
    sampleStore sampleProduct _ (by decide) (by decide) rfl (by decide) rfl (Or.inl rfl) rfl
    (by decide) (by decide) rfl
  ⟨by decide, by decide, rfl, rfl, rfl, by decide, by decide,
    h.1.2 ⟨rfl, by decide, by decide, by decide, rfl⟩, by decide⟩

/-- C9: `CreateOrder` rejects unavailable products without writing. For every
buyer, every request that passes binding and every stored product with the
requested id whose status is not "active", when the lookup does not fail the
response is 400 "Product is not available for ordering" and the store is
returned unchanged. -/
theorem createOrder_inactive_product_rejected (env : CreateOrderEnv) (userID : String)
    (req : CreateOrderRequest) (s : Store) (p : Product)
    (hpk : s.PrimaryKeys) (hp : p ∈ s.products) (hpid : req.ProductID = p.ID)
    (hid : req.ProductID ≠ "") (hq : req.Quantity.gtZero = true)
    (hmode : req.DeliveryMode = "pickup" ∨ req.DeliveryMode = "courier")
    (hquery : env.productQueryFails = false) (hinactive : p.Status ≠ "active") :
    CreateOrder env "buyer" userID (some req) s =
      (⟨400, .error "Product is not available for ordering"⟩, s) := by
  have hbind := bindCreateOrder_ok req hid hq hmode
  have hfindp := dbFirstProduct_of_mem s p hpk hp
  unfold CreateOrder
  simp only [hbind, hpid, hquery, hfindp]
  simp [hinactive]

/-- C9 (witness): an order for the closed product `p1` is answered 400 and the
store keeps its single order and single item. -/
theorem createOrder_inactive_product_rejected_witness :
    closedProductStore.PrimaryKeys ∧
    (∃ p ∈ closedProductStore.products, p.ID = sampleRequest.ProductID ∧ p.Status = "closed") ∧
    CreateOrder sampleCreateEnv "buyer" "b2" (some sampleRequest) closedProductStore =
      (⟨400, .error "Product is not available for ordering"⟩, closedProductStore) ∧
    closedProductStore.orders = [sampleOrder] ∧ closedProductStore.orderItems = [sampleItem] :=
  ⟨by decide, by decide,
    createOrder_inactive_product_rejected sampleCreateEnv "b2" sampleRequest closedProductStore
      { sampleProduct with Status := "closed" } (by decide) (by decide) rfl (by decide) rfl
      (Or.inl rfl) rfl (by decide),
    rfl, rfl⟩

/-- C10 (failing input): the item insert fails and the rollback
`db.Delete(&order)` fails as well. The handler signals "Failed to create order
item" while the new order `o2` is in the store with no item. -/
theorem createOrder_failed_rollback_leaves_order :
    sampleStore.WF ∧
    (CreateOrder lostConnectionEnv "buyer" "b2" (some sampleRequest) sampleStore).1 =
      ⟨500, .error "Failed to create order item"⟩ ∧
    (CreateOrder lostConnectionEnv "buyer" "b2" (some sampleRequest) sampleStore).2.orders =
      [sampleOrder, ⟨"o2", "b2", "f1", "pending", "pickup", F64.finite false 75 1, 30, 30⟩] ∧
    (CreateOrder lostConnectionEnv "buyer" "b2" (some sampleRequest) sampleStore).2.orderItems =
      [sampleItem] ∧
    preloadOrderItems
      (CreateOrder lostConnectionEnv "buyer" "b2" (some sampleRequest) sampleStore).2
      ⟨"o2", "b2", "f1", "pending", "pickup", F64.finite false 75 1, 30, 30⟩ = [] := by
  decide

/-- A body that passes `ShouldBindJSON` for `CreateOrderRequest` decodes to a
request with a product id, a positive quantity and a delivery mode of pickup
or courier. -/
theorem bindCreateOrder_eq_ok (body : Option CreateOrderRequest) (req : CreateOrderRequest)
    (h : bindCreateOrder body = .ok req) :
    body = some req ∧ req.ProductID ≠ "" ∧ req.Quantity.gtZero = true ∧
      (req.DeliveryMode = "pickup" ∨ req.DeliveryMode = "courier") := by
  cases body with
  | none => simp [bindCreateOrder] at h
  | some r =>
    by_cases h1 : r.ProductID = ""
    · simp [bindCreateOrder, h1] at h
    by_cases h2 : r.Quantity.gtZero = true
    swap
    · simp [bindCreateOrder, h2] at h
    by_cases h3 : r.DeliveryMode = "pickup" ∨ r.DeliveryMode = "courier"
    swap
    · simp [bindCreateOrder, h3] at h
    rw [bindCreateOrder_ok r h1 h2 h3] at h
    injection h with h
    subst h
    exact ⟨rfl, h1, h2, h3⟩

/-- The other side of C10: whenever the rollback delete does not fail,
`CreateOrder` is all-or-nothing. For every store satisfying its key
constraints, every caller and every body, the store after the call is either
the store before it or that store plus one order and one item of that order. -/
theorem createOrder_all_or_nothing_unless_delete_fails (env : CreateOrderEnv)
    (role userID : String) (body : Option CreateOrderRequest) (s : Store) (hwf : s.WF)
    (hdel : env.orderDeleteFails = false) :
    (CreateOrder env role userID body s).2 = s ∨
    ∃ (o : Order) (it : OrderItem), it.OrderID = o.ID ∧
      (CreateOrder env role userID body s).2 =
        { s with orders := s.orders ++ [o], orderItems := s.orderItems ++ [it] } := by
  by_cases hrole : role = "buyer"
  swap
  · left; simp [CreateOrder, hrole]
  subst hrole
  cases hb : bindCreateOrder body with
  | error e => left; simp [CreateOrder, hb]
  | ok req =>
    obtain ⟨rfl, hid, hq, hmode⟩ := bindCreateOrder_eq_ok body req hb
    cases hpq : env.productQueryFails
    swap
    · left; simp [CreateOrder, hb, dbFirstProduct, hpq]
    cases hfind : s.products.find? (fun p => decide (p.ID = req.ProductID)) with
    | none => left; simp [CreateOrder, hb, dbFirstProduct, hpq, hfind]
    | some p =>
      have hp : p ∈ s.products := List.mem_of_find?_eq_some hfind
      have hpid : req.ProductID = p.ID := by
        have := List.find?_some hfind
        exact (of_decide_eq_true this).symm
      by_cases hactive : p.Status = "active"
      · rw [createOrder_run env userID req s p hwf hp hpid hid hq hmode hactive]
        simp only [hdel, hpq, Bool.false_eq_true, ↓reduceIte]
        by_cases h2 : env.orderInsertFails = true ∨ env.orderUUID ∈ s.orders.map Order.ID
        · rw [if_pos h2]; left; rfl
        rw [if_neg h2]
        cases hor : (newOrder env userID req p).toRow with
        | none => left; rfl
        | some orow =>
          have ho := newOrder_row_fields env userID req p orow hor
          dsimp only
          by_cases h3 : env.itemInsertFails = true ∨
              env.itemUUID ∈ s.orderItems.map OrderItem.ID
          · rw [if_pos h3]; left; rfl
          rw [if_neg h3]
          cases hir : (newOrderItem env req p).toRow with
          | none => left; rfl
          | some irow =>
            have hi := newOrderItem_row_fields env req p irow hir
            right
            exact ⟨orow, irow, hi.2.1.trans ho.1.symm, rfl⟩
      · left; simp [CreateOrder, hb, dbFirstProduct, hpq, hfind, hactive]

/-! ## Theorems: float64 multiplication and the order total -/

namespace F64

/-- The halving loop computes the position of the leading bit. -/
theorem ilog2Loop_spec : ∀ (fuel n : Nat), n ≤ fuel → 1 ≤ n →
    2 ^ ilog2Loop fuel n ≤ n ∧ n < 2 ^ (ilog2Loop fuel n + 1)
  | 0, n, h, h1 => by omega
  | fuel + 1, n, h, h1 => by
    unfold ilog2Loop
    by_cases h2 : 2 ≤ n
    · have ih := ilog2Loop_spec fuel (n / 2) (by omega) (by omega)
      simp only [h2, if_true]
      constructor
      · calc 2 ^ (ilog2Loop fuel (n / 2) + 1) = 2 ^ ilog2Loop fuel (n / 2) * 2 := pow_succ _ _
          _ ≤ n / 2 * 2 := Nat.mul_le_mul_right _ ih.1
          _ ≤ n := Nat.div_mul_le_self n 2
      · have := ih.2
        rw [pow_succ] at this ⊢
        omega
    · simp only [h2, if_false]
      omega

theorem ilog2_spec (n : Nat) (h : 1 ≤ n) : 2 ^ ilog2 n ≤ n ∧ n < 2 ^ (ilog2 n + 1) :=
  ilog2Loop_spec n n (le_refl n) h

theorem ilog2_unique (n k : Nat) (h1 : 2 ^ k ≤ n) (h2 : n < 2 ^ (k + 1)) : ilog2 n = k := by
  have hn : 1 ≤ n := le_trans Nat.one_le_two_pow h1
  have hs := ilog2_spec n hn
  have ha : ilog2 n < k + 1 :=
    (Nat.pow_lt_pow_iff_right (by norm_num : 1 < 2)).1 (lt_of_le_of_lt hs.1 h2)
  have hb : k < ilog2 n + 1 :=
    (Nat.pow_lt_pow_iff_right (by norm_num : 1 < 2)).1 (lt_of_le_of_lt h1 hs.2)
  omega

theorem roundHalfEven_mul (a D : Nat) (hD : 0 < D) : roundHalfEven (a * D) D = a := by
  unfold roundHalfEven
  have h1 : a * D / D = a := Nat.mul_div_cancel a hD
  have h2 : a * D % D = 0 := Nat.mul_mod_left a D
  simp only [h1, h2]
  have : ¬ (D < 2 * 0 ∨ (2 * 0 = D ∧ a % 2 = 1)) := by omega
  simp only [this, if_false]

theorem stripTwos_pow (m : Nat) (hm : m % 2 = 1) :
    ∀ (d fuel : Nat) (q : Int), d ≤ fuel → stripTwos fuel (m * 2 ^ d) q = (m, q + d)
  | 0, 0, q, _ => by simp [stripTwos]
  | 0, fuel + 1, q, _ => by
    have : ¬ (m % 2 = 0 ∧ m ≠ 0) := by omega
    simp [stripTwos, this]
  | d + 1, 0, q, h => by omega
  | d + 1, fuel + 1, q, h => by
    have hpos : m * 2 ^ (d + 1) ≠ 0 := by
      have : 0 < m := by omega
      positivity
    have heven : m * 2 ^ (d + 1) % 2 = 0 := by
      rw [pow_succ, ← mul_assoc]; exact Nat.mul_mod_left _ _
    have hdiv : m * 2 ^ (d + 1) / 2 = m * 2 ^ d := by
      rw [pow_succ, ← mul_assoc]; exact Nat.mul_div_cancel _ (by norm_num)
    unfold stripTwos
    simp only [heven, hpos, ne_eq, not_false_eq_true, and_self, if_true, hdiv]
    rw [stripTwos_pow m hm d fuel (q + 1) (by omega)]
    simp only [Prod.mk.injEq, true_and]
    push_cast
    ring


theorem pack_exact (neg : Bool) (m d : Nat) (q : Int) (hm : m % 2 = 1) (hd : d ≤ 64)
    (hlt : m * 2 ^ d < 2 ^ 53) (hq : q ≤ 971) :
    pack neg (m * 2 ^ d) q = finite neg m (q + d) := by
  have hpos : m * 2 ^ d ≠ 0 := by
    have : 0 < m := by omega
    positivity
  have hno : ¬ (971 < q ∨ (q = 971 ∧ 2 ^ 53 ≤ m * 2 ^ d)) := by omega
  unfold pack
  rw [if_neg hpos, if_neg hno, stripTwos_pow m hm d 64 q hd]

theorem ilog2_le_of_lt (m : Nat) (hm : 1 ≤ m) (h : m < 2 ^ 53) : ilog2 m ≤ 52 := by
  have hs := ilog2_spec m hm
  have : ilog2 m < 53 :=
    (Nat.pow_lt_pow_iff_right (by norm_num : 1 < 2)).1 (lt_of_le_of_lt hs.1 h)
  omega

theorem mul_pow_lt (m : Nat) (hm : 1 ≤ m) (d : Nat) (hd : ilog2 m + d ≤ 52) :
    m * 2 ^ d < 2 ^ 53 := by
  have hs := ilog2_spec m hm
  calc m * 2 ^ d < 2 ^ (ilog2 m + 1) * 2 ^ d :=
        Nat.mul_lt_mul_of_pos_right hs.2 (by positivity)
    _ = 2 ^ (ilog2 m + 1 + d) := (pow_add _ _ _).symm
    _ ≤ 2 ^ 53 := Nat.pow_le_pow_right (by norm_num) (by omega)

theorem round_exact_nonneg (neg : Bool) (m n : Nat) (hm : m % 2 = 1) (h53 : m < 2 ^ 53)
    (hr : ilog2 m + n < 1024) : round neg (m * 2 ^ n) 1 = finite neg m n := by
  have hm1 : 1 ≤ m := by omega
  have hs := ilog2_spec m hm1
  have hL := ilog2_le_of_lt m hm1 h53
  have hil : ilog2 (m * 2 ^ n) = ilog2 m + n := by
    apply ilog2_unique
    · rw [pow_add]; exact Nat.mul_le_mul_right _ hs.1
    · rw [show ilog2 m + n + 1 = ilog2 m + 1 + n by omega, pow_add]
      exact Nat.mul_lt_mul_of_pos_right hs.2 (by positivity)
  have hil1 : ilog2 1 = 0 := rfl
  have hge : 1 * 2 ^ (ilog2 m + n) ≤ m * 2 ^ n := by
    rw [one_mul, pow_add]; exact Nat.mul_le_mul_right _ hs.1
  have hfl : floorLog2 (m * 2 ^ n) 1 = (ilog2 m : Int) + n := by
    unfold floorLog2 geTwoPow
    simp only [hil, hil1]
    have h0 : (0 : Int) ≤ ((ilog2 m + n : Nat) : Int) - ((0 : Nat) : Int) := by omega
    have ht : (((ilog2 m + n : Nat) : Int) - ((0 : Nat) : Int)).toNat = ilog2 m + n := by omega
    simp only [h0, if_true, ht, hge, decide_True]
    push_cast
    ring
  have hpos : m * 2 ^ n ≠ 0 := by positivity
  have hq : max ((ilog2 m : Int) + n - 52) (-1074) = (ilog2 m : Int) + n - 52 := by omega
  unfold round
  rw [if_neg hpos]
  simp only [hfl, hq]
  by_cases hc : (0 : Int) ≤ (ilog2 m : Int) + n - 52
  · have ht : ((ilog2 m : Int) + n - 52).toNat = ilog2 m + n - 52 := by omega
    have hsplit : m * 2 ^ n = m * 2 ^ (52 - ilog2 m) * (1 * 2 ^ (ilog2 m + n - 52)) := by
      rw [one_mul, mul_assoc, ← pow_add]
      congr 2
      omega
    rw [if_pos hc, ht]
    conv_lhs => rw [hsplit]
    rw [roundHalfEven_mul _ _ (by positivity),
      pack_exact neg m (52 - ilog2 m) _ hm (by omega) (mul_pow_lt m hm1 _ (by omega)) (by omega)]
    congr 1
    omega
  · have ht : (-((ilog2 m : Int) + n - 52)).toNat = 52 - ilog2 m - n := by omega
    have hsplit : m * 2 ^ n * 2 ^ (52 - ilog2 m - n) = m * 2 ^ (52 - ilog2 m) * 1 := by
      rw [mul_one, mul_assoc, ← pow_add]
      congr 2
      omega
    rw [if_neg hc, ht, hsplit, roundHalfEven_mul _ _ (by norm_num),
      pack_exact neg m (52 - ilog2 m) _ hm (by omega) (mul_pow_lt m hm1 _ (by omega)) (by omega)]
    congr 1
    omega

theorem round_exact_neg (neg : Bool) (m n : Nat) (hm : m % 2 = 1) (h53 : m < 2 ^ 53)
    (hn : 1 ≤ n) (hn' : n ≤ 1074) : round neg m (2 ^ n) = finite neg m (-(n : Int)) := by
  have hm1 : 1 ≤ m := by omega
  have hs := ilog2_spec m hm1
  have hL := ilog2_le_of_lt m hm1 h53
  have hil : ilog2 (2 ^ n) = n :=
    ilog2_unique _ _ (le_refl _) (Nat.pow_lt_pow_right (by norm_num) (by omega))
  have hfl : floorLog2 m (2 ^ n) = (ilog2 m : Int) - n := by
    unfold floorLog2 geTwoPow
    simp only [hil]
    by_cases hk : (0 : Int) ≤ (ilog2 m : Int) - n
    · have ht : ((ilog2 m : Int) - n).toNat = ilog2 m - n := by omega
      have hge : 2 ^ n * 2 ^ (ilog2 m - n) ≤ m := by
        rw [← pow_add, show n + (ilog2 m - n) = ilog2 m by omega]; exact hs.1
      simp only [hk, if_true, ht, hge, decide_True]
    · have ht : (-((ilog2 m : Int) - n)).toNat = n - ilog2 m := by omega
      have hge : 2 ^ n ≤ m * 2 ^ (n - ilog2 m) := by
        calc 2 ^ n = 2 ^ ilog2 m * 2 ^ (n - ilog2 m) := by
              rw [← pow_add]; congr 1; omega
          _ ≤ m * 2 ^ (n - ilog2 m) := Nat.mul_le_mul_right _ hs.1
      simp only [hk, if_false, ht, hge, decide_True, if_true]
  have hpos : m ≠ 0 := by omega
  obtain ⟨d, hd, hq⟩ : ∃ d : Nat, ilog2 m + d ≤ 52 ∧
      max ((ilog2 m : Int) - n - 52) (-1074) = -((n + d : Nat) : Int) := by
    by_cases hc : (ilog2 m : Int) - n - 52 ≤ -1074
    · exact ⟨1074 - n, by omega, by omega⟩
    · exact ⟨52 - ilog2 m, by omega, by omega⟩
  unfold round
  rw [if_neg hpos]
  simp only [hfl, hq]
  have hc : ¬ ((0 : Int) ≤ -((n + d : Nat) : Int)) := by omega
  have ht : (- -((n + d : Nat) : Int)).toNat = n + d := by omega
  have hsplit : m * 2 ^ (n + d) = m * 2 ^ d * 2 ^ n := by
    rw [mul_assoc, ← pow_add, add_comm]
  rw [if_neg hc, ht, hsplit, roundHalfEven_mul _ _ (by positivity),
    pack_exact neg m d _ hm (by omega) (mul_pow_lt m hm1 _ hd) (by omega)]
  congr 1
  omega

/-- Rounding leaves a finite binary64 value as it is. -/
theorem round_exact (neg : Bool) (m : Nat) (e : Int) (h : Representable m e) :
    (if 0 ≤ e then round neg (m * 2 ^ e.toNat) 1 else round neg m (2 ^ (-e).toNat))
      = finite neg m e := by
  obtain ⟨hm, h53, hlo, hhi⟩ := h
  by_cases he : 0 ≤ e
  · obtain ⟨n, rfl⟩ := Int.eq_ofNat_of_zero_le he
    rw [if_pos he, Int.toNat_ofNat]
    exact round_exact_nonneg neg m n hm h53 (by omega)
  · obtain ⟨n, hn⟩ : ∃ n : Nat, e = -(n : Int) := ⟨(-e).toNat, by omega⟩
    subst hn
    rw [if_neg he, neg_neg, Int.toNat_ofNat]
    exact round_exact_neg neg m n hm h53 (by omega) (by omega)

/-- The product of two finite values whose exact product is a finite binary64
value is that exact product. -/
theorem mul_exact (s t : Bool) (m₁ m₂ : Nat) (e₁ e₂ : Int)
    (h : Representable (m₁ * m₂) (e₁ + e₂)) :
    mul (finite s m₁ e₁) (finite t m₂ e₂) = finite (s != t) (m₁ * m₂) (e₁ + e₂) := by
  have := round_exact (s != t) (m₁ * m₂) (e₁ + e₂) h
  simpa only [mul] using this

/-- The rational value of the exact product is the product of the values. -/
theorem toRat_mul_exact (s t : Bool) (m₁ m₂ : Nat) (e₁ e₂ : Int) :
    toRat (finite (s != t) (m₁ * m₂) (e₁ + e₂)) =
      some ((if s then -1 else 1) * (m₁ : ℚ) * (2 : ℚ) ^ e₁ *
        ((if t then -1 else 1) * (m₂ : ℚ) * (2 : ℚ) ^ e₂)) := by
  simp only [toRat, Option.some.injEq]
  rw [zpow_add₀ (by norm_num : (2 : ℚ) ≠ 0)]
  push_cast
  cases s <;> cases t <;> simp <;> ring

/-! ### Rounding error and the `decimal(10,2)` columns -/

/-- Moving factors of two keeps the value; the significand does not grow and
the exponent does not fall. -/
theorem stripTwos_value : ∀ (fuel m : Nat) (q : Int),
    ((stripTwos fuel m q).1 : ℚ) * (2 : ℚ) ^ (stripTwos fuel m q).2 = (m : ℚ) * (2 : ℚ) ^ q ∧
      (stripTwos fuel m q).1 ≤ m ∧ q ≤ (stripTwos fuel m q).2 ∧
      (stripTwos fuel m q).2 ≤ q + fuel
  | 0, m, q => by simp [stripTwos]
  | fuel + 1, m, q => by
    unfold stripTwos
    by_cases h : m % 2 = 0 ∧ m ≠ 0
    · rw [if_pos h]
      obtain ⟨ih1, ih2, ih3, ih4⟩ := stripTwos_value fuel (m / 2) (q + 1)
      refine ⟨?_, ?_, ?_, ?_⟩
      · rw [ih1, zpow_add_one₀ (by norm_num : (2 : ℚ) ≠ 0)]
        have hm : m = m / 2 * 2 := by omega
        have hm' : (m : ℚ) = ((m / 2 : ℕ) : ℚ) * 2 := by exact_mod_cast hm
        calc ((m / 2 : ℕ) : ℚ) * ((2 : ℚ) ^ q * 2) = (((m / 2 : ℕ) : ℚ) * 2) * (2 : ℚ) ^ q := by ring
          _ = (m : ℚ) * (2 : ℚ) ^ q := by rw [← hm']
      · exact le_trans ih2 (Nat.div_le_self m 2)
      · omega
      · push_cast
        omega
    · rw [if_neg h]
      exact ⟨rfl, le_refl _, le_refl _, by push_cast; omega⟩


/-- The nearest integer to `N / D` is within half a unit of it. -/
theorem roundHalfEven_near (N D : Nat) (hD : 0 < D) :
    2 * (roundHalfEven N D * D) ≤ 2 * N + D ∧ 2 * N ≤ 2 * (roundHalfEven N D * D) + D := by
  have hdm := Nat.div_add_mod N D
  have hr := Nat.mod_lt N hD
  unfold roundHalfEven
  by_cases hc : D < 2 * (N % D) ∨ (2 * (N % D) = D ∧ N / D % 2 = 1)
  · simp only [hc, if_true]
    have e1 : (N / D + 1) * D = D * (N / D) + D := by ring
    rw [e1]
    omega
  · simp only [hc, if_false]
    have e1 : N / D * D = D * (N / D) := by ring
    rw [e1]
    omega

/-- The rounded significand at exponent `q` is within half a unit in the last
place of the rational it rounds. -/
theorem roundScaled_near (num den : Nat) (hden : 0 < den) (q : Int) :
    |((if 0 ≤ q then roundHalfEven num (den * 2 ^ q.toNat)
        else roundHalfEven (num * 2 ^ (-q).toNat) den : ℕ) : ℚ) * (2 : ℚ) ^ q -
      (num : ℚ) / den| * 2 ≤ (2 : ℚ) ^ q := by
  have hdq : (0 : ℚ) < den := by exact_mod_cast hden
  by_cases hq : 0 ≤ q
  · obtain ⟨n, rfl⟩ := Int.eq_ofNat_of_zero_le hq
    rw [if_pos hq, Int.toNat_ofNat, zpow_natCast]
    obtain ⟨h1, h2⟩ := roundHalfEven_near num (den * 2 ^ n) (by positivity)
    set M := roundHalfEven num (den * 2 ^ n) with hM
    have h1' : (2 : ℚ) * (M * (den * 2 ^ n)) ≤ 2 * num + den * 2 ^ n := by exact_mod_cast h1
    have h2' : (2 : ℚ) * num ≤ 2 * (M * (den * 2 ^ n)) + den * 2 ^ n := by exact_mod_cast h2
    have hp : (0 : ℚ) < 2 ^ n := by positivity
    have key : (M : ℚ) * 2 ^ n - (num : ℚ) / den = (M * (den * 2 ^ n) - num) / den := by
      field_simp
      ring
    have : |(M : ℚ) * (↑den * 2 ^ n) - ↑num| ≤ den * 2 ^ n / 2 := by
      rw [abs_le]; constructor <;> linarith
    rw [key, abs_div, abs_of_pos hdq, div_mul_eq_mul_div, div_le_iff₀ hdq]
    linarith
  · obtain ⟨n, hn⟩ : ∃ n : Nat, q = -(n : Int) := ⟨(-q).toNat, by omega⟩
    subst hn
    rw [if_neg hq, neg_neg, Int.toNat_ofNat, zpow_neg, zpow_natCast]
    obtain ⟨h1, h2⟩ := roundHalfEven_near (num * 2 ^ n) den hden
    set M := roundHalfEven (num * 2 ^ n) den with hM
    have h1' : (2 : ℚ) * (M * den) ≤ 2 * (num * 2 ^ n) + den := by exact_mod_cast h1
    have h2' : (2 : ℚ) * (num * 2 ^ n) ≤ 2 * (M * den) + den := by exact_mod_cast h2
    have hp : (0 : ℚ) < 2 ^ n := by positivity
    have hdp : (0 : ℚ) < den * 2 ^ n := by positivity
    have key : (M : ℚ) * (2 ^ n)⁻¹ - (num : ℚ) / den = (M * den - num * 2 ^ n) / (den * 2 ^ n) := by
      field_simp
      ring
    have : |(M : ℚ) * den - num * 2 ^ n| ≤ den / 2 := by
      rw [abs_le]; constructor <;> linarith
    have e : ((2 : ℚ) ^ n)⁻¹ * (den * 2 ^ n) = den := by field_simp
    rw [key, abs_div, abs_of_pos hdp, div_mul_eq_mul_div, div_le_iff₀ hdp, e]
    linarith


/-- The test `geTwoPow` decides `2^k ≤ num / den`. -/
theorem geTwoPow_iff (num den : Nat) (hden : 0 < den) (k : Int) :
    geTwoPow num den k = true ↔ (2 : ℚ) ^ k ≤ (num : ℚ) / den := by
  have hdq : (0 : ℚ) < den := by exact_mod_cast hden
  unfold geTwoPow
  by_cases hk : 0 ≤ k
  · obtain ⟨n, rfl⟩ := Int.eq_ofNat_of_zero_le hk
    rw [if_pos hk, Int.toNat_ofNat, zpow_natCast, decide_eq_true_iff, le_div_iff₀ hdq]
    constructor
    · intro h
      have : ((den * 2 ^ n : ℕ) : ℚ) ≤ num := by exact_mod_cast h
      push_cast at this
      linarith
    · intro h
      have : ((den * 2 ^ n : ℕ) : ℚ) ≤ num := by push_cast; linarith
      exact_mod_cast this
  · obtain ⟨n, hn⟩ : ∃ n : Nat, k = -(n : Int) := ⟨(-k).toNat, by omega⟩
    subst hn
    have hp : (0 : ℚ) < 2 ^ n := by positivity
    rw [if_neg hk, neg_neg, Int.toNat_ofNat, zpow_neg, zpow_natCast, decide_eq_true_iff,
      le_div_iff₀ hdq, inv_mul_le_iff₀ hp]
    constructor
    · intro h
      have : ((den : ℕ) : ℚ) ≤ ((num * 2 ^ n : ℕ) : ℚ) := by exact_mod_cast h
      push_cast at this
      linarith
    · intro h
      have : ((den : ℕ) : ℚ) ≤ ((num * 2 ^ n : ℕ) : ℚ) := by push_cast; linarith
      exact_mod_cast this

/-- The exponent `floorLog2 num den` brackets `num / den` between two powers
of two. -/
theorem floorLog2_spec (num den : Nat) (hnum : 0 < num) (hden : 0 < den) :
    (2 : ℚ) ^ floorLog2 num den ≤ (num : ℚ) / den ∧
      (num : ℚ) / den < (2 : ℚ) ^ (floorLog2 num den + 1) ∧
      (ilog2 num : Int) - ilog2 den - 1 ≤ floorLog2 num den ∧
      floorLog2 num den ≤ (ilog2 num : Int) - ilog2 den := by
  have hdq : (0 : ℚ) < den := by exact_mod_cast hden
  obtain ⟨ha1, ha2⟩ := ilog2_spec num hnum
  obtain ⟨hb1, hb2⟩ := ilog2_spec den hden
  have ha1' : (2 : ℚ) ^ ilog2 num ≤ num := by exact_mod_cast ha1
  have ha2' : (num : ℚ) < 2 ^ (ilog2 num + 1) := by exact_mod_cast ha2
  have hb1' : (2 : ℚ) ^ ilog2 den ≤ den := by exact_mod_cast hb1
  have hb2' : (den : ℚ) < 2 ^ (ilog2 den + 1) := by exact_mod_cast hb2
  have h2 : (2 : ℚ) ≠ 0 := by norm_num
  have hlow : (2 : ℚ) ^ ((ilog2 num : Int) - ilog2 den - 1) ≤ (num : ℚ) / den := by
    rw [show (ilog2 num : Int) - ilog2 den - 1 = (ilog2 num : Int) - ((ilog2 den + 1 : ℕ) : Int)
      by push_cast; ring, zpow_sub₀ h2, zpow_natCast, zpow_natCast]
    exact div_le_div₀ (by positivity) ha1' hdq hb2'.le
  have hhigh : (num : ℚ) / den < (2 : ℚ) ^ ((ilog2 num : Int) - ilog2 den + 1) := by
    rw [show (ilog2 num : Int) - ilog2 den + 1 = ((ilog2 num + 1 : ℕ) : Int) - (ilog2 den : Int)
      by push_cast; ring, zpow_sub₀ h2, zpow_natCast, zpow_natCast]
    exact div_lt_div₀ ha2' hb1' (by positivity) (by positivity)
  unfold floorLog2
  by_cases hg : geTwoPow num den ((ilog2 num : Int) - ilog2 den) = true
  · simp only [hg, if_true]
    exact ⟨(geTwoPow_iff num den hden _).1 hg, hhigh, by omega, le_refl _⟩
  · have hg' : geTwoPow num den ((ilog2 num : Int) - ilog2 den) = false := by simpa using hg
    simp only [hg', Bool.false_eq_true, if_false]
    have hlt : (num : ℚ) / den < (2 : ℚ) ^ ((ilog2 num : Int) - ilog2 den) :=
      not_le.1 fun h => hg ((geTwoPow_iff num den hden _).2 h)
    refine ⟨hlow, ?_, le_refl _, by omega⟩
    rw [sub_add_cancel]
    exact hlt


/-- Rounding a positive rational that is neither tiny nor huge gives a finite
value within relative error `2^-53` of it. -/
theorem round_near (neg : Bool) (num den : Nat) (hnum : 0 < num) (hden : 0 < den)
    (hn : num < 2 ^ 200) (hd : den < 2 ^ 200) :
    ∃ (m : Nat) (e : Int), round neg num den = finite neg m e ∧ m ≤ 2 ^ 53 ∧
      floorLog2 num den - 52 ≤ e ∧ e ≤ floorLog2 num den + 12 ∧
      |(m : ℚ) * (2 : ℚ) ^ e - (num : ℚ) / den| * 2 ^ 53 ≤ (num : ℚ) / den := by
  have hdq : (0 : ℚ) < den := by exact_mod_cast hden
  have hnq : (0 : ℚ) < num := by exact_mod_cast hnum
  have hr : (0 : ℚ) < (num : ℚ) / den := by positivity
  obtain ⟨hk1, hk2, hk3, hk4⟩ := floorLog2_spec num den hnum hden
  have hia : ilog2 num < 200 :=
    (Nat.pow_lt_pow_iff_right (by norm_num : 1 < 2)).1
      (lt_of_le_of_lt (ilog2_spec num hnum).1 hn)
  have hib : ilog2 den < 200 :=
    (Nat.pow_lt_pow_iff_right (by norm_num : 1 < 2)).1
      (lt_of_le_of_lt (ilog2_spec den hden).1 hd)
  unfold round
  rw [if_neg (by omega : ¬ num = 0)]
  dsimp only
  generalize floorLog2 num den = k at hk1 hk2 hk3 hk4 ⊢
  have hq : max (k - 52) (-1074) = k - 52 := by omega
  have hnear := roundScaled_near num den hden (k - 52)
  have h2 : (2 : ℚ) ≠ 0 := by norm_num
  have hP : (0 : ℚ) < (2 : ℚ) ^ (k - 52) := by positivity
  have hK : (2 : ℚ) ^ k = (2 : ℚ) ^ (k - 52) * 2 ^ 52 := by
    rw [zpow_sub₀ h2]
    norm_num
  have hK1 : (2 : ℚ) ^ (k + 1) = (2 : ℚ) ^ (k - 52) * 2 ^ 53 := by
    rw [zpow_add_one₀ h2, hK]
    ring
  rw [hK] at hk1
  rw [hK1] at hk2
  simp only [hq]
  generalize (if 0 ≤ k - 52 then roundHalfEven num (den * 2 ^ (k - 52).toNat)
    else roundHalfEven (num * 2 ^ (-(k - 52)).toNat) den) = M at hnear ⊢
  obtain ⟨P, hPdef⟩ : ∃ P : ℚ, P = (2 : ℚ) ^ (k - 52) := ⟨_, rfl⟩
  rw [← hPdef] at hnear hP hk1 hk2
  have hk1' : P * 4503599627370496 ≤ (num : ℚ) / den := by norm_num at hk1; exact hk1
  have hk2' : (num : ℚ) / den < P * 9007199254740992 := by norm_num at hk2; exact hk2
  obtain ⟨hn1, hn2⟩ := abs_le.1 (le_of_mul_le_mul_right (a := (2 : ℚ))
    (by linarith : |(M : ℚ) * P - (num : ℚ) / den| * 2 ≤ P / 2 * 2) (by norm_num))
  have hMne : M ≠ 0 := by
    rintro rfl
    simp only [Nat.cast_zero, zero_mul, zero_sub] at hn1
    linarith
  have hM53 : M ≤ 9007199254740992 := by
    by_contra hlt
    have : 9007199254740993 ≤ M := by omega
    have hc : ((9007199254740993 : ℕ) : ℚ) ≤ M := by exact_mod_cast this
    push_cast at hc
    have := mul_le_mul_of_nonneg_right hc hP.le
    linarith
  have hov : ¬ (971 < k - 52 ∨ (k - 52 = 971 ∧ 2 ^ 53 ≤ M)) := by omega
  unfold pack
  rw [if_neg hMne, if_neg hov]
  obtain ⟨s1, s2, s3, s4⟩ := stripTwos_value 64 M (k - 52)
  refine ⟨_, _, rfl, le_trans s2 (by norm_num; exact hM53), s3, by push_cast at s4; omega, ?_⟩
  rw [s1, ← hPdef]
  have habs : |(M : ℚ) * P - (num : ℚ) / den| ≤ P / 2 := abs_le.2 ⟨hn1, hn2⟩
  have : |(M : ℚ) * P - (num : ℚ) / den| * 2 ^ 53 ≤ P / 2 * 2 ^ 53 :=
    mul_le_mul_of_nonneg_right habs (by positivity)
  norm_num at this ⊢
  linarith


/-- The whole hundredths of a ratio that is close to the whole number `c`:
the quotient is `c` when the remainder is below one half, and `c - 1`
otherwise. -/
theorem div_of_near (N D c : Nat) (hD : 0 < D)
    (hnear : |(N : ℚ) / D - c| * 2 ^ 17 ≤ 1) :
    (¬ D ≤ 2 * (N % D) → N / D = c) ∧ (D ≤ 2 * (N % D) → N / D + 1 = c) := by
  have hdq : (0 : ℚ) < D := by exact_mod_cast hD
  have hdm : ((D * (N / D) + N % D : ℕ) : ℚ) = N := by exact_mod_cast Nat.div_add_mod N D
  push_cast at hdm
  have hr : ((N % D : ℕ) : ℚ) < D := by exact_mod_cast Nat.mod_lt N hD
  have hr0 : (0 : ℚ) ≤ ((N % D : ℕ) : ℚ) := by positivity
  obtain ⟨ρ, hρ⟩ : ∃ ρ : ℚ, ρ = ((N % D : ℕ) : ℚ) / D := ⟨_, rfl⟩
  have hρ0 : 0 ≤ ρ := by rw [hρ]; positivity
  have hρ1 : ρ < 1 := by rw [hρ, div_lt_one hdq]; exact hr
  have hND : (N : ℚ) / D = ((N / D : ℕ) : ℚ) + ρ := by
    rw [hρ, ← hdm]
    field_simp
    ring
  rw [hND] at hnear
  have hε : |((N / D : ℕ) : ℚ) + ρ - c| ≤ 1 / 2 ^ 17 := by
    rw [le_div_iff₀ (by positivity)]
    exact hnear
  obtain ⟨h1, h2⟩ := abs_le.1 hε
  norm_num at h1 h2
  constructor
  · intro hlt
    have hlt' : (2 : ℚ) * ((N % D : ℕ) : ℚ) < D := by
      have : 2 * (N % D) < D := by omega
      exact_mod_cast this
    have hρ2 : ρ < 1 / 2 := by
      rw [hρ, div_lt_iff₀ hdq]
      linarith
    have a1 : ((N / D : ℕ) : ℚ) < c + 1 := by linarith
    have a2 : (c : ℚ) < ((N / D : ℕ) : ℚ) + 1 := by linarith
    have a1' : N / D < c + 1 := by exact_mod_cast a1
    have a2' : c < N / D + 1 := by exact_mod_cast a2
    omega
  · intro hge
    have hge' : (D : ℚ) ≤ 2 * ((N % D : ℕ) : ℚ) := by exact_mod_cast hge
    have hρ2 : 1 / 2 ≤ ρ := by
      rw [hρ, le_div_iff₀ hdq]
      linarith
    have a1 : ((N / D : ℕ) : ℚ) < c := by linarith
    have a2 : (c : ℚ) < ((N / D : ℕ) : ℚ) + 2 := by linarith
    have a1' : N / D < c := by exact_mod_cast a1
    have a2' : c < N / D + 2 := by exact_mod_cast a2
    omega

/-- A value close to the whole number of hundredths `c` is not the `float64`
of the midpoint above `c`. -/
theorem round_tie_ne (m : Nat) (e : Int) (c : Nat) (hc : c < 10 ^ 10)
    (hnear : |(m : ℚ) * (2 : ℚ) ^ e * 100 - c| * 2 ^ 17 ≤ 1) :
    round false (2 * c + 1) 200 ≠ finite false m e := by
  intro heq
  obtain ⟨m', e', hround, -, -, -, herr⟩ := round_near false (2 * c + 1) 200 (by omega)
    (by norm_num) (lt_of_lt_of_le (by omega : 2 * c + 1 < 2 ^ 35) (by norm_num)) (by norm_num)
  rw [heq] at hround
  injection hround with _ hm he
  subst hm he
  have hcq : (c : ℚ) < 10000000000 := by exact_mod_cast hc
  have hc0 : (0 : ℚ) ≤ c := by positivity
  push_cast at herr
  generalize (m : ℚ) * (2 : ℚ) ^ e = Z at hnear herr
  have hε : |Z * 100 - c| ≤ 1 / 2 ^ 17 := by
    rw [le_div_iff₀ (by positivity)]
    exact hnear
  have hδ : |Z - (2 * (c : ℚ) + 1) / 200| ≤ (2 * (c : ℚ) + 1) / 200 / 2 ^ 53 := by
    rw [le_div_iff₀ (by positivity)]
    exact herr
  obtain ⟨-, h2⟩ := abs_le.1 hε
  obtain ⟨h3, -⟩ := abs_le.1 hδ
  norm_num at h2 h3
  linarith


/-- A nonnegative finite value within `2^-17` hundredths of the whole number
of hundredths `c` is taken by a `decimal(10,2)` column as `c / 100`. -/
theorem toCents_of_near (m : Nat) (e : Int) (c : Nat) (hc : c < 10 ^ 10)
    (hnear : |(m : ℚ) * (2 : ℚ) ^ e * 100 - c| * 2 ^ 17 ≤ 1) :
    toCents (finite false m e) = some (c : Int) := by
  have htie := round_tie_ne m e c hc hnear
  obtain ⟨N, D, hD, hN, hdef⟩ : ∃ N D : Nat, 0 < D ∧ (N : ℚ) / D = (m : ℚ) * (2 : ℚ) ^ e * 100 ∧
      toCents (finite false m e) =
        (if 10 ^ 10 ≤ (if D ≤ 2 * (N % D) ∨ round false (2 * (N / D) + 1) 200 = finite false m e
            then N / D + 1 else N / D) then none
          else some (((if D ≤ 2 * (N % D) ∨
            round false (2 * (N / D) + 1) 200 = finite false m e
            then N / D + 1 else N / D : ℕ) : Int))) := by
    by_cases he : 0 ≤ e
    · obtain ⟨n, rfl⟩ := Int.eq_ofNat_of_zero_le he
      refine ⟨m * 2 ^ n * 100, 1, by norm_num, ?_, ?_⟩
      · push_cast
        rw [zpow_natCast]
        ring
      · simp only [toCents, he, if_true, Int.toNat_ofNat, Bool.false_eq_true, if_false]
    · obtain ⟨n, hn⟩ : ∃ n : Nat, e = -(n : Int) := ⟨(-e).toNat, by omega⟩
      subst hn
      refine ⟨m * 100, 2 ^ n, by positivity, ?_, ?_⟩
      · push_cast
        rw [zpow_neg, zpow_natCast]
        field_simp
      · simp only [toCents, he, if_false, neg_neg, Int.toNat_ofNat, Bool.false_eq_true]
  rw [← hN] at hnear
  obtain ⟨hlo, hhi⟩ := div_of_near N D c hD hnear
  rw [hdef]
  by_cases hup : D ≤ 2 * (N % D)
  · have h := hhi hup
    rw [if_pos (Or.inl hup), h, if_neg (by omega)]
  · have h := hlo hup
    rw [h]
    have : ¬ (D ≤ 2 * (N % D) ∨ round false (2 * c + 1) 200 = finite false m e) := by
      rintro (h' | h')
      · exact hup h'
      · exact htie h'
    rw [if_neg this, if_neg (by omega)]


/-- The `float64` of zero hundredths is zero. -/
theorem ofDecimal_zero (digits : Nat) : ofDecimal 0 digits = finite false 0 0 := by
  simp [ofDecimal, round]

/-- The `float64` read from a column that holds `n` hundredths. -/
theorem ofCents_natCast (n : Nat) : ofCents (n : Int) = ofDecimal n 2 := by
  have h : ¬ ((n : Int) < 0) := by omega
  simp [ofCents, ofDecimal, h]

/-- The `float64` of a positive two-digit decimal below `10^10` hundredths is
finite and within relative error `2^-53` of it. -/
theorem ofDecimal_near (n : Nat) (hn0 : 0 < n) (hn : n < 10 ^ 10) :
    ∃ (m : Nat) (e : Int), ofDecimal n 2 = finite false m e ∧ m ≤ 2 ^ 53 ∧ -59 ≤ e ∧
      e ≤ 39 ∧ |(m : ℚ) * (2 : ℚ) ^ e - (n : ℚ) / 100| * 2 ^ 53 ≤ (n : ℚ) / 100 := by
  obtain ⟨m, e, h1, h2, h3, h3', h4⟩ := round_near false n 100 hn0 (by norm_num)
    (lt_of_lt_of_le hn (by norm_num)) (by norm_num)
  obtain ⟨-, -, hk, hk'⟩ := floorLog2_spec n 100 hn0 (by norm_num)
  have h100 : ilog2 100 = 6 := by decide
  have hil : ilog2 n < 34 :=
    (Nat.pow_lt_pow_iff_right (by norm_num : 1 < 2)).1
      (lt_of_le_of_lt (ilog2_spec n hn0).1 (lt_of_lt_of_le hn (by norm_num)))
  rw [h100] at hk hk'
  refine ⟨m, e, h1, h2, by omega, by omega, ?_⟩
  exact_mod_cast h4

/-- A two-digit decimal within the range of a `decimal(10,2)` column is stored
as it is: writing its `float64` and reading it back gives the same
`float64`. -/
theorem toCents_ofDecimal (n : Nat) (hn : n < 10 ^ 10) :
    toCents (ofDecimal n 2) = some (n : Int) := by
  rcases Nat.eq_zero_or_pos n with rfl | hn0
  · rw [ofDecimal_zero]
    decide
  obtain ⟨m, e, h1, -, -, -, h4⟩ := ofDecimal_near n hn0 hn
  rw [h1]
  apply toCents_of_near m e n hn
  have hnq : (n : ℚ) < 10000000000 := by exact_mod_cast hn
  have hn0q : (0 : ℚ) < n := by exact_mod_cast hn0
  generalize (m : ℚ) * (2 : ℚ) ^ e = Z at h4 ⊢
  have hδ : |Z - (n : ℚ) / 100| ≤ (n : ℚ) / 100 / 2 ^ 53 := by
    rw [le_div_iff₀ (by positivity)]
    exact h4
  have e1 : Z * 100 - n = (Z - (n : ℚ) / 100) * 100 := by ring
  rw [e1, abs_mul, abs_of_pos (by norm_num : (0 : ℚ) < 100)]
  have : |Z - (n : ℚ) / 100| * 100 * 2 ^ 17 ≤ (n : ℚ) / 100 / 2 ^ 53 * 100 * 2 ^ 17 := by
    apply mul_le_mul_of_nonneg_right _ (by positivity)
    exact mul_le_mul_of_nonneg_right hδ (by norm_num)
  norm_num at this ⊢
  linarith

/-- Writing a two-digit decimal to a `decimal(10,2)` column and reading it
back gives the same `float64`. -/
theorem toDecimal2_ofDecimal (n : Nat) (hn : n < 10 ^ 10) :
    toDecimal2 (ofDecimal n 2) = some (ofDecimal n 2) := by
  rw [toDecimal2, toCents_ofDecimal n hn, Option.map_some', ofCents_natCast]


/-- Three roundings, each within relative error `2^-53`, keep a product of at
most `10^10` hundredths within `2^-17` of a hundredth. -/
theorem near_of_three_roundings (A B X Y Z c : ℚ) (hA : 0 ≤ A) (hB : 0 ≤ B)
    (hX : |X - A| * 2 ^ 53 ≤ A) (hY : |Y - B| * 2 ^ 53 ≤ B)
    (hZ : |Z - X * Y| * 2 ^ 53 ≤ X * Y) (hAB : A * B * 100 = c) (hc : c < 10000000000) :
    |Z * 100 - c| * 2 ^ 17 ≤ 1 := by
  have hX' : |X - A| ≤ A / 2 ^ 53 := by rw [le_div_iff₀ (by positivity)]; exact hX
  have hY' : |Y - B| ≤ B / 2 ^ 53 := by rw [le_div_iff₀ (by positivity)]; exact hY
  have hZ' : |Z - X * Y| ≤ X * Y / 2 ^ 53 := by rw [le_div_iff₀ (by positivity)]; exact hZ
  obtain ⟨hX0, hX1⟩ := abs_le.1 hX'
  obtain ⟨hY0, hY1⟩ := abs_le.1 hY'
  obtain ⟨hZ0, hZ1⟩ := abs_le.1 hZ'
  have hc0 : 0 ≤ c := by rw [← hAB]; positivity
  obtain ⟨t, ht⟩ : ∃ t : ℚ, t = 1 + 1 / 2 ^ 53 := ⟨_, rfl⟩
  obtain ⟨r, hr⟩ : ∃ r : ℚ, r = 1 - 1 / 2 ^ 53 := ⟨_, rfl⟩
  have ht0 : 0 ≤ t := by rw [ht]; norm_num
  have hr0 : 0 ≤ r := by rw [hr]; norm_num
  have a1 : X ≤ A * t := by rw [ht]; linarith
  have a0 : A * r ≤ X := by rw [hr]; linarith
  have b1 : Y ≤ B * t := by rw [ht]; linarith
  have b0 : B * r ≤ Y := by rw [hr]; linarith
  have hXnn : 0 ≤ X := le_trans (by positivity) a0
  have hYnn : 0 ≤ Y := le_trans (by positivity) b0
  have p1 : X * Y ≤ A * t * (B * t) := mul_le_mul a1 b1 hYnn (by positivity)
  have p0 : A * r * (B * r) ≤ X * Y := mul_le_mul a0 b0 (by positivity) hXnn
  have z1 : Z ≤ X * Y * t := by rw [ht]; linarith
  have z0 : X * Y * r ≤ Z := by rw [hr]; linarith
  have q1 : X * Y * t ≤ A * t * (B * t) * t := mul_le_mul_of_nonneg_right p1 ht0
  have q0 : A * r * (B * r) * r ≤ X * Y * r := mul_le_mul_of_nonneg_right p0 hr0
  have e1 : A * t * (B * t) * t * 100 = c * (t * t * t) := by rw [← hAB]; ring
  have e0 : A * r * (B * r) * r * 100 = c * (r * r * r) := by rw [← hAB]; ring
  have u1 : Z * 100 ≤ c * (t * t * t) := by linarith
  have u0 : c * (r * r * r) ≤ Z * 100 := by linarith
  have ht3 : t * t * t ≤ 1 + 1 / 2 ^ 51 := by rw [ht]; norm_num
  have hr3 : 1 - 1 / 2 ^ 51 ≤ r * r * r := by rw [hr]; norm_num
  have v1 : c * (t * t * t) ≤ c * (1 + 1 / 2 ^ 51) := mul_le_mul_of_nonneg_left ht3 hc0
  have v0 : c * (1 - 1 / 2 ^ 51) ≤ c * (r * r * r) := mul_le_mul_of_nonneg_left hr3 hc0
  have habs : |Z * 100 - c| ≤ 1 / 2 ^ 17 := by
    rw [abs_le]
    norm_num at v1 v0 ⊢
    constructor <;> linarith
  rw [le_div_iff₀ (by positivity)] at habs
  exact habs


/-- The product of two finite values is the rounding of a ratio of naturals. -/
theorem mul_finite_eq_round (m₁ m₂ : Nat) (e₁ e₂ : Int) (hm1 : 0 < m₁) (hm2 : 0 < m₂)
    (hb1 : m₁ ≤ 2 ^ 53) (hb2 : m₂ ≤ 2 ^ 53) (hl : -118 ≤ e₁ + e₂) (hu : e₁ + e₂ ≤ 78) :
    ∃ num den : Nat, 0 < num ∧ 0 < den ∧ num < 2 ^ 200 ∧ den < 2 ^ 200 ∧
      (num : ℚ) / den = (m₁ : ℚ) * (2 : ℚ) ^ e₁ * ((m₂ : ℚ) * (2 : ℚ) ^ e₂) ∧
      mul (finite false m₁ e₁) (finite false m₂ e₂) = round false num den := by
  have h2 : (2 : ℚ) ≠ 0 := by norm_num
  have hmm : m₁ * m₂ ≤ 2 ^ 53 * 2 ^ 53 := Nat.mul_le_mul hb1 hb2
  by_cases he : 0 ≤ e₁ + e₂
  · obtain ⟨n, hn⟩ := Int.eq_ofNat_of_zero_le he
    have hn78 : n ≤ 78 := by omega
    refine ⟨m₁ * m₂ * 2 ^ n, 1, by positivity, by norm_num, ?_, by norm_num, ?_, ?_⟩
    · calc m₁ * m₂ * 2 ^ n ≤ 2 ^ 53 * 2 ^ 53 * 2 ^ 78 :=
          Nat.mul_le_mul hmm (Nat.pow_le_pow_right (by norm_num) hn78)
        _ < 2 ^ 200 := by norm_num
    · push_cast
      rw [div_one, ← zpow_natCast, ← hn, zpow_add₀ h2]
      ring
    · simp only [mul, bne_self_eq_false]
      rw [if_pos he, hn, Int.toNat_ofNat]
  · obtain ⟨n, hn⟩ : ∃ n : Nat, e₁ + e₂ = -(n : Int) := ⟨(-(e₁ + e₂)).toNat, by omega⟩
    have hn118 : n ≤ 118 := by omega
    refine ⟨m₁ * m₂, 2 ^ n, by positivity, by positivity, ?_, ?_, ?_, ?_⟩
    · exact lt_of_le_of_lt hmm (by norm_num)
    · exact lt_of_le_of_lt (Nat.pow_le_pow_right (by norm_num) hn118) (by norm_num)
    · push_cast
      have : (2 : ℚ) ^ e₁ * (2 : ℚ) ^ e₂ = ((2 : ℚ) ^ n)⁻¹ := by
        rw [← zpow_add₀ h2, hn, zpow_neg, zpow_natCast]
      rw [div_eq_mul_inv, ← this]
      ring
    · simp only [mul, bne_self_eq_false]
      rw [if_neg he, hn, neg_neg, Int.toNat_ofNat]

/-- The order total of two-digit decimals whose exact product is a two-digit
decimal within the range of the column: the `float64` product of their
`float64` values is taken by a `decimal(10,2)` column as the exact product. -/
theorem toCents_mul_ofDecimal (a b c : Nat) (ha0 : 0 < a) (ha : a < 10 ^ 10)
    (hb : b < 10 ^ 10) (hab : a * b = 100 * c) (hc : c < 10 ^ 10) :
    toCents (mul (ofDecimal a 2) (ofDecimal b 2)) = some (c : Int) := by
  obtain ⟨m₁, e₁, hx, hm1, hl1, hu1, hxe⟩ := ofDecimal_near a ha0 ha
  have haq : (0 : ℚ) < (a : ℚ) / 100 := by
    have : (0 : ℚ) < a := by exact_mod_cast ha0
    positivity
  have hm1pos : 0 < m₁ := by
    rcases Nat.eq_zero_or_pos m₁ with h | h
    · subst h
      simp only [Nat.cast_zero, zero_mul, zero_sub, abs_neg, abs_of_pos haq] at hxe
      norm_num at hxe
      linarith
    · exact h
  rcases Nat.eq_zero_or_pos b with rfl | hb0
  · have hc0 : c = 0 := by omega
    subst hc0
    rw [hx, ofDecimal_zero]
    have : mul (finite false m₁ e₁) (finite false 0 0) = finite false 0 0 := by
      simp [mul, round]
    rw [this]
    decide
  obtain ⟨m₂, e₂, hy, hm2, hl2, hu2, hye⟩ := ofDecimal_near b hb0 hb
  have hbq : (0 : ℚ) < (b : ℚ) / 100 := by
    have : (0 : ℚ) < b := by exact_mod_cast hb0
    positivity
  have hm2pos : 0 < m₂ := by
    rcases Nat.eq_zero_or_pos m₂ with h | h
    · subst h
      simp only [Nat.cast_zero, zero_mul, zero_sub, abs_neg, abs_of_pos hbq] at hye
      norm_num at hye
      linarith
    · exact h
  obtain ⟨num, den, hnum, hden, hn, hd, hval, hmul⟩ :=
    mul_finite_eq_round m₁ m₂ e₁ e₂ hm1pos hm2pos hm1 hm2 (by omega) (by omega)
  obtain ⟨m, e, hz, -, -, -, hze⟩ := round_near false num den hnum hden hn hd
  rw [hx, hy, hmul, hz]
  apply toCents_of_near m e c hc
  rw [hval] at hze
  have hcq : (c : ℚ) < 10000000000 := by exact_mod_cast hc
  have habq : (a : ℚ) / 100 * ((b : ℚ) / 100) * 100 = c := by
    have : ((a * b : ℕ) : ℚ) = ((100 * c : ℕ) : ℚ) := by rw [hab]
    push_cast at this
    field_simp
    linarith
  exact near_of_three_roundings _ _ _ _ _ _ haq.le hbq.le hxe hye hze habq hcq

end F64

set_option maxRecDepth 20000 in
/-- C8 (counterexample): quantity 0.05 and price 0.70, both decimals with at
most two fractional digits, whose exact decimal product is 0.035. The handler
computes the `float64` product `5044031582654955 * 2^-57`
(0.034999999999999996, below 0.035), the `decimal(10,2)` column takes it as 3
hundredths, and the order is written and returned with total 0.03: neither the
exact product nor the exact product rounded to two fractional digits (0.04). -/
theorem createOrder_total_not_exact_decimal :
    driftPriceStore.WF ∧
    smallRequest.Quantity = F64.ofDecimal 5 2 ∧
    driftPriceStore.products.map Product.PricePerUnit = [F64.ofDecimal 70 2] ∧
    (CreateOrder sampleCreateEnv "buyer" "b2" (some smallRequest) driftPriceStore).1 =
      ⟨201, .order (toOrderResponse
        ⟨"o2", "b2", "f1", "pending", "pickup", F64.ofDecimal 3 2, 30, 30⟩
        [⟨"i2", "o2", "p1", F64.ofDecimal 5 2, F64.ofDecimal 70 2, 31, 31⟩])⟩ ∧
    (CreateOrder sampleCreateEnv "buyer" "b2" (some smallRequest)
      driftPriceStore).2.orders.map Order.TotalAmount =
      [F64.finite false 75 1, F64.ofDecimal 3 2] ∧
    F64.mul (F64.ofDecimal 5 2) (F64.ofDecimal 70 2) =
      F64.finite false 5044031582654955 (-57) ∧
    F64.toCents (F64.finite false 5044031582654955 (-57)) = some 3 ∧
    F64.toRat (F64.finite false 5044031582654955 (-57)) ≠ some ((5 / 100 : ℚ) * (70 / 100)) ∧
    (3 / 100 : ℚ) ≠ (5 / 100 : ℚ) * (70 / 100) ∧
    F64.ofDecimal 3 2 ≠ F64.ofDecimal 35 3 ∧ F64.ofDecimal 3 2 ≠ F64.ofDecimal 4 2 := by
  refine ⟨by decide, by decide, by decide, by decide, by decide, by decide, by decide, ?_,
    by norm_num, by decide, by decide⟩
  simp only [F64.toRat, ne_eq, Option.some.injEq]
  norm_num

/-- C8 (amended): `CreateOrder` computes the total as the `float64` product of
quantity and price, and the `decimal(10,2)` column `total_amount` takes that
product rounded to two fractional digits. For every buyer, every stored active
product `p` with price `b / 100` and every request that passes binding with
quantity `a / 100` (both decimals with at most two fractional digits, within
the range of their columns), when the exact product `a * b / 10^4` is itself a
decimal `c / 100` with at most two fractional digits below `10^8` and the
lookup and both inserts succeed: the column takes the `float64` product as
exactly `c` hundredths, and the order is written, and returned, with the
total `c / 100`, the exact decimal product. -/
theorem createOrder_total_exact_when_product_fits (env : CreateOrderEnv) (userID : String)
    (req : CreateOrderRequest) (s : Store) (p : Product) (res : Response × Store)
    (a b c : Nat)
    (hwf : s.WF) (hp : p ∈ s.products) (hpid : req.ProductID = p.ID)
    (hid : req.ProductID ≠ "") (hq : req.Quantity.gtZero = true)
    (hmode : req.DeliveryMode = "pickup" ∨ req.DeliveryMode = "courier")
    (hactive : p.Status = "active")
    (hquery : env.productQueryFails = false)
    (horder : ¬ (env.orderInsertFails = true ∨ env.orderUUID ∈ s.orders.map Order.ID))
    (hitem : ¬ (env.itemInsertFails = true ∨ env.itemUUID ∈ s.orderItems.map OrderItem.ID))
    (hres : CreateOrder env "buyer" userID (some req) s = res)
    (hqv : req.Quantity = F64.ofDecimal a 2) (ha : a < 10 ^ 10)
    (hpv : p.PricePerUnit = F64.ofDecimal b 2) (hb : b < 10 ^ 10)
    (hab : a * b = 100 * c) (hc : c < 10 ^ 10) :
    F64.toCents (F64.mul req.Quantity p.PricePerUnit) = some (c : Int) ∧
    ∃ (o : Order) (it : OrderItem), res.2.orders = s.orders ++ [o] ∧
      F64.toDecimal2 (F64.mul req.Quantity p.PricePerUnit) = some o.TotalAmount ∧
      o.TotalAmount = F64.ofDecimal c 2 ∧
      (env.reloadFails = false → res.1 = ⟨201, .order (toOrderResponse o [it])⟩) := by
  subst hres
  have ha0 : 0 < a := by
    rcases Nat.eq_zero_or_pos a with h | h
    · rw [hqv, h, F64.ofDecimal_zero] at hq
      exact absurd hq (by decide)
    · exact h
  have hcents : F64.toCents (F64.mul req.Quantity p.PricePerUnit) = some (c : Int) := by
    rw [hqv, hpv]
    exact F64.toCents_mul_ofDecimal a b c ha0 ha hb hab hc
  have ht : F64.toDecimal2 (F64.mul req.Quantity p.PricePerUnit) = some (F64.ofDecimal c 2) := by
    rw [F64.toDecimal2, hcents, Option.map_some', F64.ofCents_natCast]
  have hqd : F64.toDecimal2 req.Quantity = some req.Quantity := by
    rw [hqv]; exact F64.toDecimal2_ofDecimal a ha
  have hpd : F64.toDecimal2 p.PricePerUnit = some p.PricePerUnit := by
    rw [hpv]; exact F64.toDecimal2_ofDecimal b hb
  have hir : (newOrderItem env req p).toRow = some (newOrderItem env req p) :=
    orderItem_toRow_of_fixed _ hqd hpd
  have hor := newOrder_toRow env userID req p
  rw [ht] at hor
  rw [createOrder_eq env userID req s p _ _ hwf hp hpid hid hq hmode hactive hor hir,
    if_neg (by simp [hquery]), if_neg horder, if_neg hitem]
  refine ⟨hcents, _, newOrderItem env req p, rfl, ht, rfl, ?_⟩
  intro hr
  simp [hr]

set_option maxRecDepth 20000 in
/-- C8 (witness): quantity 3 and price 50.00 give the total 150.00 exactly; and
quantity 1.1 and price 1.10, whose `float64` product is 1.2100000000000002,
give the total 1.21 exactly. -/
theorem createOrder_total_exact_when_product_fits_witness :
    sampleStore.WF ∧ sampleProduct ∈ sampleStore.products ∧
    sampleRequest.Quantity = F64.ofDecimal 300 2 ∧
    sampleProduct.PricePerUnit = F64.ofDecimal 5000 2 ∧
    300 * 5000 = 100 * 15000 ∧
    F64.toCents (F64.mul sampleRequest.Quantity sampleProduct.PricePerUnit) = some 15000 ∧
    (∃ (o : Order) (it : OrderItem),
      (CreateOrder sampleCreateEnv "buyer" "b2" (some sampleRequest) sampleStore).2.orders
        = sampleStore.orders ++ [o] ∧
      o.TotalAmount = F64.ofDecimal 15000 2 ∧
      (CreateOrder sampleCreateEnv "buyer" "b2" (some sampleRequest) sampleStore).1 =
        ⟨201, .order (toOrderResponse o [it])⟩) ∧
    decimalPriceStore.WF ∧ decimalRequest.Quantity = F64.ofDecimal 110 2 ∧
    F64.mul (F64.ofDecimal 110 2) (F64.ofDecimal 110 2) =
      F64.finite false 5449355549118301 (-52) ∧
    F64.finite false 5449355549118301 (-52) ≠ F64.ofDecimal 121 2 ∧
    (∃ (o : Order) (it : OrderItem),
      (CreateOrder sampleCreateEnv "buyer" "b2" (some decimalRequest)
        decimalPriceStore).2.orders = decimalPriceStore.orders ++ [o] ∧
      o.TotalAmount = F64.ofDecimal 121 2 ∧
      (CreateOrder sampleCreateEnv "buyer" "b2" (some decimalRequest) decimalPriceStore).1 =
        ⟨201, .order (toOrderResponse o [it])⟩) :=
  have h := createOrder_total_exact_when_product_fits sampleCreateEnv "b2" sampleRequest
    sampleStore sampleProduct _ 300 5000 15000 (by decide) (by decide) rfl (by decide) rfl
    (Or.inl rfl) rfl rfl (by decide) (by decide) rfl (by decide) (by decide) (by decide)
    (by decide) (by decide) (by decide)
  have h' := createOrder_total_exact_when_product_fits sampleCreateEnv "b2" decimalRequest
    decimalPriceStore { sampleProduct with PricePerUnit := F64.ofDecimal 110 2 } _ 110 110 121
    (by decide) (by decide) rfl (by decide) (by decide) (Or.inl rfl) rfl rfl (by decide)
    (by decide) rfl (by decide) (by decide) (by decide) (by decide) (by decide) (by decide)
  ⟨by decide, by decide, by decide, by decide, by decide, h.1,
    h.2.elim fun o ho => ho.elim fun it hit => ⟨o, it, hit.1, hit.2.2.1, hit.2.2.2 rfl⟩,
    by decide, by decide, by decide, by decide,
    h'.2.elim fun o ho => ho.elim fun it hit => ⟨o, it, hit.1, hit.2.2.1, hit.2.2.2 rfl⟩⟩

/-! ## Theorems: CreateOrder preconditions -/

/-- C11: only buyers can create orders. For every caller whose role is not
"buyer", every request body (decodable or not, valid or not), every store and
every behaviour of the store calls, `CreateOrder` answers 403 "Only buyers can
place orders" and returns the store unchanged: the role check comes before
binding and before the product lookup. -/
theorem createOrder_forbidden_for_non_buyer (env : CreateOrderEnv) (role userID : String)
    (body : Option CreateOrderRequest) (s : Store) (hrole : role ≠ "buyer") :
    CreateOrder env role userID body s = (⟨403, .error "Only buyers can place orders"⟩, s) := by
  unfold CreateOrder
  rw [if_pos hrole]

/-- C11 (witness): a farmer posting a valid request for the active product
`p1`, and a farmer posting a body that does not decode, are both answered 403. -/
theorem createOrder_forbidden_for_non_buyer_witness :
    "farmer" ≠ "buyer" ∧
    CreateOrder sampleCreateEnv "farmer" "f1" (some sampleRequest) sampleStore =
      (⟨403, .error "Only buyers can place orders"⟩, sampleStore) ∧
    CreateOrder sampleCreateEnv "farmer" "f1" none sampleStore =
      (⟨403, .error "Only buyers can place orders"⟩, sampleStore) :=
  ⟨by decide,
    createOrder_forbidden_for_non_buyer sampleCreateEnv "farmer" "f1" (some sampleRequest)
      sampleStore (by decide),
    createOrder_forbidden_for_non_buyer sampleCreateEnv "farmer" "f1" none sampleStore
      (by decide)⟩

/-- What `CreateOrder` does for a buyer and a request that passes binding, up
to the availability check. -/
theorem createOrder_lookup (env : CreateOrderEnv) (userID : String) (req : CreateOrderRequest)
    (s : Store) (hid : req.ProductID ≠ "") (hq : req.Quantity.gtZero = true)
    (hmode : req.DeliveryMode = "pickup" ∨ req.DeliveryMode = "courier") :
    (env.productQueryFails = true →
      CreateOrder env "buyer" userID (some req) s = (⟨500, .error "Database error"⟩, s)) ∧
    (env.productQueryFails = false →
      s.products.find? (fun p => decide (p.ID = req.ProductID)) = none →
      CreateOrder env "buyer" userID (some req) s = (⟨404, .error "Product not found"⟩, s)) ∧
    (∀ p, env.productQueryFails = false →
      s.products.find? (fun p => decide (p.ID = req.ProductID)) = some p →
      p.Status ≠ "active" →
      CreateOrder env "buyer" userID (some req) s =
        (⟨400, .error "Product is not available for ordering"⟩, s)) := by
  have hbind := bindCreateOrder_ok req hid hq hmode
  refine ⟨?_, ?_, ?_⟩
  · intro hf
    unfold CreateOrder
    simp only [hbind, dbFirstProduct, hf]
    simp
  · intro hf hnone
    unfold CreateOrder
    simp only [hbind, dbFirstProduct, hf, hnone]
    simp
  · intro p hf hsome hst
    unfold CreateOrder
    simp only [hbind, dbFirstProduct, hf, hsome]
    simp [hst]

/-- The first product with a given id, when the store has one. -/
theorem find?_product_of_exists (s : Store) (id : String)
    (h : ∃ p ∈ s.products, p.ID = id) :
    ∃ p, s.products.find? (fun p => decide (p.ID = id)) = some p ∧ p ∈ s.products ∧
      p.ID = id := by
  cases hf : s.products.find? (fun p => decide (p.ID = id)) with
  | none =>
    obtain ⟨p, hp, hpid⟩ := h
    rw [List.find?_eq_none] at hf
    exact absurd (decide_eq_true hpid) (hf p hp)
  | some p =>
    have hp := List.find?_some hf
    exact ⟨p, rfl, List.mem_of_find?_eq_some hf, of_decide_eq_true hp⟩

/-- C12: `CreateOrder` fails with NotFound exactly for an unknown product. For
every buyer, every request that passes binding and every store satisfying its
key constraints: the response is 404 exactly when the store answers the
lookup and holds no product with the requested id; in that case, and whenever
no such product exists, nothing is written; and when a product with the
requested id exists the response is never 404. -/
theorem createOrder_notFound_iff_unknown_product (env : CreateOrderEnv) (userID : String)
    (req : CreateOrderRequest) (s : Store) (hwf : s.WF)
    (hid : req.ProductID ≠ "") (hq : req.Quantity.gtZero = true)
    (hmode : req.DeliveryMode = "pickup" ∨ req.DeliveryMode = "courier") :
    ((CreateOrder env "buyer" userID (some req) s).1.code = 404 ↔
      (env.productQueryFails = false ∧ ∀ p ∈ s.products, p.ID ≠ req.ProductID)) ∧
    ((∀ p ∈ s.products, p.ID ≠ req.ProductID) →
      (CreateOrder env "buyer" userID (some req) s).2 = s ∧
      (env.productQueryFails = false →
        (CreateOrder env "buyer" userID (some req) s).1 = ⟨404, .error "Product not found"⟩)) ∧
    ((∃ p ∈ s.products, p.ID = req.ProductID) →
      (CreateOrder env "buyer" userID (some req) s).1.code ≠ 404) := by
  obtain ⟨hfail, hnone, hinactive⟩ := createOrder_lookup env userID req s hid hq hmode
  have hfound : (∃ p ∈ s.products, p.ID = req.ProductID) →
      (CreateOrder env "buyer" userID (some req) s).1.code ≠ 404 := by
    intro hex
    obtain ⟨p, hfind, hp, hpid⟩ := find?_product_of_exists s req.ProductID hex
    cases hf : env.productQueryFails
    · by_cases hactive : p.Status = "active"
      · rcases createOrder_active_code env userID req s p hwf hp hpid.symm hid hq hmode
          hactive with h | h <;> rw [h] <;> decide
      · rw [hinactive p hf hfind hactive]
        simp
    · rw [hfail hf]
      simp
  have habsent : (∀ p ∈ s.products, p.ID ≠ req.ProductID) →
      s.products.find? (fun p => decide (p.ID = req.ProductID)) = none := by
    intro h
    rw [List.find?_eq_none]
    intro p hp
    simpa using h p hp
  refine ⟨⟨?_, ?_⟩, ?_, hfound⟩
  · intro h404
    constructor
    · cases hf : env.productQueryFails
      · rfl
      · rw [hfail hf] at h404
        simp at h404
    · intro p hp hpid
      exact hfound ⟨p, hp, hpid⟩ h404
  · rintro ⟨hf, h⟩
    rw [hnone hf (habsent h)]
  · intro h
    cases hf : env.productQueryFails
    · rw [hnone hf (habsent h)]
      exact ⟨rfl, fun _ => rfl⟩
    · rw [hfail hf]
      refine ⟨rfl, fun h' => ?_⟩
      exact absurd h' (by decide)

/-- C12 (witness): a request for the unknown product `p9` is answered 404 and
the store is unchanged; the request for the stored product `p1` is answered
201. -/
theorem createOrder_notFound_iff_unknown_product_witness :
    sampleStore.WF ∧ (∀ p ∈ sampleStore.products, p.ID ≠ "p9") ∧
    CreateOrder sampleCreateEnv "buyer" "b2"
      (some { sampleRequest with ProductID := "p9" }) sampleStore =
      (⟨404, .error "Product not found"⟩, sampleStore) ∧
    (CreateOrder sampleCreateEnv "buyer" "b2" (some sampleRequest) sampleStore).1.code = 201 :=
  have h := createOrder_notFound_iff_unknown_product sampleCreateEnv "b2"
    { sampleRequest with ProductID := "p9" } sampleStore (by decide) (by decide) rfl (Or.inl rfl)
  ⟨by decide, by decide,
    Prod.ext ((h.2.1 (by decide)).2 rfl) (h.2.1 (by decide)).1, by decide⟩

/-- A request whose quantity is not positive or whose delivery mode is not
pickup or courier fails `ShouldBindJSON`. -/
theorem bindCreateOrder_invalid (req : CreateOrderRequest)
    (hbad : req.Quantity.gtZero = false ∨
      ¬ (req.DeliveryMode = "pickup" ∨ req.DeliveryMode = "courier")) :
    ∃ fields, bindCreateOrder (some req) = .error (.validation fields) := by
  cases hb : bindCreateOrder (some req) with
  | ok r =>
    obtain ⟨-, -, hq, hmode⟩ := bindCreateOrder_eq_ok (some req) r hb
    have : r = req := by
      have h := (bindCreateOrder_eq_ok (some req) r hb).1
      injection h with h
      exact h.symm
    subst this
    rcases hbad with h | h
    · rw [h] at hq; exact absurd hq (by decide)
    · exact absurd hmode h
  | error e =>
    cases e with
    | malformed =>
      simp only [bindCreateOrder] at hb
      split_ifs at hb <;> simp at hb
    | validation fields => exact ⟨fields, rfl⟩

/-- The store `CreateOrder` leaves behind, for every caller, body and store
satisfying its key constraints: the store it was given, or that store plus
the row of the order (and, unless the item insert failed, the row of the
item) built from a request that passed binding. -/
theorem createOrder_store_cases (env : CreateOrderEnv) (role userID : String)
    (body : Option CreateOrderRequest) (s : Store) (hwf : s.WF) :
    (CreateOrder env role userID body s).2 = s ∨
    ∃ (req : CreateOrderRequest) (p : Product) (orow : Order), body = some req ∧
      req.Quantity.gtZero = true ∧
      (req.DeliveryMode = "pickup" ∨ req.DeliveryMode = "courier") ∧
      (newOrder env userID req p).toRow = some orow ∧
      ((CreateOrder env role userID body s).2 = { s with orders := s.orders ++ [orow] } ∨
       ∃ irow : OrderItem, (newOrderItem env req p).toRow = some irow ∧
        (CreateOrder env role userID body s).2 =
          { s with orders := s.orders ++ [orow], orderItems := s.orderItems ++ [irow] }) := by
  by_cases hrole : role = "buyer"
  swap
  · left; simp [CreateOrder, hrole]
  subst hrole
  cases hb : bindCreateOrder body with
  | error e => left; simp [CreateOrder, hb]
  | ok req =>
    obtain ⟨rfl, hid, hq, hmode⟩ := bindCreateOrder_eq_ok body req hb
    obtain ⟨hfail, hnone, hinactive⟩ := createOrder_lookup env userID req s hid hq hmode
    cases hpq : env.productQueryFails
    swap
    · left; rw [hfail hpq]
    cases hfind : s.products.find? (fun p => decide (p.ID = req.ProductID)) with
    | none => left; rw [hnone hpq hfind]
    | some p =>
      have hp : p ∈ s.products := List.mem_of_find?_eq_some hfind
      have hpid : req.ProductID = p.ID := by
        have := List.find?_some hfind
        exact (of_decide_eq_true this).symm
      by_cases hactive : p.Status = "active"
      · rw [createOrder_run env userID req s p hwf hp hpid hid hq hmode hactive,
          if_neg (by simp [hpq])]
        by_cases h2 : env.orderInsertFails = true ∨ env.orderUUID ∈ s.orders.map Order.ID
        · rw [if_pos h2]; left; rfl
        rw [if_neg h2]
        cases hor : (newOrder env userID req p).toRow with
        | none => left; rfl
        | some orow =>
          dsimp only
          by_cases h3 : env.itemInsertFails = true ∨
              env.itemUUID ∈ s.orderItems.map OrderItem.ID
          · rw [if_pos h3]
            by_cases h5 : env.orderDeleteFails = true
            · right; exact ⟨req, p, orow, rfl, hq, hmode, hor, Or.inl (by rw [if_pos h5])⟩
            · left; rw [if_neg h5]
          rw [if_neg h3]
          cases hir : (newOrderItem env req p).toRow with
          | none =>
            dsimp only
            by_cases h5 : env.orderDeleteFails = true
            · right; exact ⟨req, p, orow, rfl, hq, hmode, hor, Or.inl (by rw [if_pos h5])⟩
            · left; rw [if_neg h5]
          | some irow =>
            right
            exact ⟨req, p, orow, rfl, hq, hmode, hor, Or.inr ⟨irow, hir, rfl⟩⟩
      · left; rw [hinactive p hpq hfind hactive]

/-- The parts of C13 the code keeps. For every buyer, a request whose quantity
is not greater than 0 (zero, negative or not a number) or whose delivery mode
is neither pickup nor courier is answered 400 with the binding error and the
store is returned unchanged. For every caller, body and store satisfying its
key constraints, every order in the store after the call that was not there
before has delivery mode pickup or courier, and every order item that was not
there before holds what the `quantity` column took for a request quantity
greater than 0. -/
theorem createOrder_checks_request (env : CreateOrderEnv) (role userID : String)
    (body : Option CreateOrderRequest) (req : CreateOrderRequest) (s : Store) (hwf : s.WF) :
    ((req.Quantity.gtZero = false ∨
        ¬ (req.DeliveryMode = "pickup" ∨ req.DeliveryMode = "courier")) →
      (CreateOrder env "buyer" userID (some req) s).2 = s ∧
      ∃ fields, (CreateOrder env "buyer" userID (some req) s).1 =
        ⟨400, .bindError (.validation fields)⟩) ∧
    (∀ o ∈ (CreateOrder env role userID body s).2.orders,
      o ∈ s.orders ∨ o.DeliveryMode = "pickup" ∨ o.DeliveryMode = "courier") ∧
    (∀ i ∈ (CreateOrder env role userID body s).2.orderItems,
      i ∈ s.orderItems ∨
        ∃ r : CreateOrderRequest, body = some r ∧ r.Quantity.gtZero = true ∧
          F64.toDecimal2 r.Quantity = some i.Quantity) := by
  refine ⟨?_, ?_, ?_⟩
  · intro hbad
    obtain ⟨fields, hb⟩ := bindCreateOrder_invalid req hbad
    have : CreateOrder env "buyer" userID (some req) s =
        (⟨400, .bindError (.validation fields)⟩, s) := by
      unfold CreateOrder
      simp only [hb]
      simp
    rw [this]
    exact ⟨rfl, fields, rfl⟩
  · intro o ho
    rcases createOrder_store_cases env role userID body s hwf with
      h | ⟨r, p, orow, -, -, hmode, hor, h | ⟨irow, -, h⟩⟩
    · rw [h] at ho; exact Or.inl ho
    · rw [h] at ho
      rcases List.mem_append.1 ho with ho | ho
      · exact Or.inl ho
      · rw [List.mem_singleton.1 ho, (newOrder_row_fields env userID r p orow hor).2.2.2.2.1]
        exact Or.inr hmode
    · rw [h] at ho
      rcases List.mem_append.1 ho with ho | ho
      · exact Or.inl ho
      · rw [List.mem_singleton.1 ho, (newOrder_row_fields env userID r p orow hor).2.2.2.2.1]
        exact Or.inr hmode
  · intro i hi
    rcases createOrder_store_cases env role userID body s hwf with
      h | ⟨r, p, orow, hbody, hq, -, -, h | ⟨irow, hir, h⟩⟩
    · rw [h] at hi; exact Or.inl hi
    · rw [h] at hi; exact Or.inl hi
    · rw [h] at hi
      rcases List.mem_append.1 hi with hi | hi
      · exact Or.inl hi
      · rw [List.mem_singleton.1 hi]
        exact Or.inr ⟨r, hbody, hq, (newOrderItem_row_fields env r p irow hir).2.2.2.1⟩

set_option maxRecDepth 20000 in
/-- C13 (failing input): buyer `b2` orders quantity 0.001 of the active product
`p1` (50.00 per unit), to be picked up. The quantity is greater than 0 and
the request passes binding; `CreateOrder` answers 201 and writes the order
with total 0.05 and an item whose `decimal(10,2)` quantity is 0: an order item
written by `CreateOrder` with a quantity that is not greater than 0. -/
theorem createOrder_stores_zero_quantity :
    sampleStore.WF ∧
    tinyRequest.Quantity = F64.ofDecimal 1 3 ∧ tinyRequest.Quantity.gtZero = true ∧
    (∃ r, bindCreateOrder (some tinyRequest) = .ok r) ∧
    CreateOrder sampleCreateEnv "buyer" "b2" (some tinyRequest) sampleStore =
      (⟨201, .order (toOrderResponse
          ⟨"o2", "b2", "f1", "pending", "pickup", F64.ofDecimal 5 2, 30, 30⟩
          [⟨"i2", "o2", "p1", F64.finite false 0 0, F64.finite false 25 1, 31, 31⟩])⟩,
       { sampleStore with
         orders := [sampleOrder, ⟨"o2", "b2", "f1", "pending", "pickup",
           F64.ofDecimal 5 2, 30, 30⟩]
         orderItems := [sampleItem, ⟨"i2", "o2", "p1", F64.finite false 0 0,
           F64.finite false 25 1, 31, 31⟩] }) ∧
    (∃ i ∈ (CreateOrder sampleCreateEnv "buyer" "b2" (some tinyRequest)
        sampleStore).2.orderItems, i ∉ sampleStore.orderItems ∧ i.Quantity.gtZero = false ∧
        i.Quantity.isZero = true) := by
  refine ⟨by decide, by decide, by decide, ⟨tinyRequest, rfl⟩, by decide, by decide⟩

/-! ## Theorems: GetOrder -/

/-- The owner-scoped query of `GetOrder` finds a stored order that satisfies
the ownership condition. -/
theorem dbFirstOrderWherePreload_of_mem (s : Store) (o : Order) (cond : Order → Bool)
    (hpk : s.PrimaryKeys) (ho : o ∈ s.orders) (hc : cond o = true) :
    dbFirstOrderWherePreload false s o.ID cond = .ok (o, preloadOrderItems s o) := by
  have h := find?_eq_some_of_nodup_key Order.ID
    (fun x => decide (x.ID = o.ID) && cond x) s.orders o hpk.2.1 ho
    (by simp [hc]) (by intro y _ hy; simp at hy; exact hy.1)
  simp only [dbFirstOrderWherePreload, h, Bool.false_eq_true, if_false]

/-- The owner-scoped query of `GetOrder` finds nothing when no stored order
has the id and satisfies the ownership condition. -/
theorem dbFirstOrderWherePreload_of_none (s : Store) (id : String) (cond : Order → Bool)
    (h : ∀ o ∈ s.orders, ¬ (o.ID = id ∧ cond o = true)) :
    dbFirstOrderWherePreload false s id cond = .error .recordNotFound := by
  have hf : s.orders.find? (fun x => decide (x.ID = id) && cond x) = none := by
    rw [List.find?_eq_none]
    intro o ho
    simpa using h o ho
  simp only [dbFirstOrderWherePreload, hf, Bool.false_eq_true, if_false]

/-- The response of `GetOrder` for a buyer, when the store answers. -/
theorem getOrder_buyer (userID orderID : String) (s : Store) (hpk : s.PrimaryKeys) :
    (∀ o ∈ s.orders, o.ID = orderID → o.BuyerID = userID →
      GetOrder false "buyer" userID orderID s =
        ⟨200, .order (toOrderResponse o (preloadOrderItems s o))⟩) ∧
    ((∀ o ∈ s.orders, ¬ (o.ID = orderID ∧ o.BuyerID = userID)) →
      GetOrder false "buyer" userID orderID s =
        ⟨404, .error "Order not found or you don't have permission to access it"⟩) := by
  constructor
  · intro o ho hid hb
    subst hid
    have := dbFirstOrderWherePreload_of_mem s o (fun x => decide (x.BuyerID = userID)) hpk ho
      (by simp [hb])
    unfold GetOrder
    simp only [this]
    simp
  · intro h
    have := dbFirstOrderWherePreload_of_none s orderID (fun x => decide (x.BuyerID = userID))
      (by intro o ho; simpa using h o ho)
    unfold GetOrder
    simp only [this]
    simp

/-- The response of `GetOrder` for a farmer, when the store answers. -/
theorem getOrder_farmer (userID orderID : String) (s : Store) (hpk : s.PrimaryKeys) :
    (∀ o ∈ s.orders, o.ID = orderID → o.FarmerID = userID →
      GetOrder false "farmer" userID orderID s =
        ⟨200, .order (toOrderResponse o (preloadOrderItems s o))⟩) ∧
    ((∀ o ∈ s.orders, ¬ (o.ID = orderID ∧ o.FarmerID = userID)) →
      GetOrder false "farmer" userID orderID s =
        ⟨404, .error "Order not found or you don't have permission to access it"⟩) := by
  constructor
  · intro o ho hid hb
    subst hid
    have := dbFirstOrderWherePreload_of_mem s o (fun x => decide (x.FarmerID = userID)) hpk ho
      (by simp [hb])
    unfold GetOrder
    simp only [this]
    simp
  · intro h
    have := dbFirstOrderWherePreload_of_none s orderID (fun x => decide (x.FarmerID = userID))
      (by intro o ho; simpa using h o ho)
    unfold GetOrder
    simp only [this]
    simp

/-- The response of `GetOrder` when the store fails on the query. -/
theorem getOrder_query_fails (role userID orderID : String) (s : Store) :
    (GetOrder true role userID orderID s).code ≠ 200 := by
  unfold GetOrder dbFirstOrderWherePreload
  simp only [if_true]
  split_ifs <;> simp

/-- C15: `GetOrder` does not reveal the existence of other users' orders. For
every buyer `B`, every store and any ids `x`, `y` such that no stored order
with that id has `B` as its buyer (`x` may name an order of another buyer, `y`
no order at all), the two calls by `B` produce the same response; it is never
403, and it is 404 NotFound when the store answers the query. -/
theorem getOrder_hides_foreign_orders (queryFails : Bool) (B x y : String) (s : Store)
    (hx : ∀ o ∈ s.orders, ¬ (o.ID = x ∧ o.BuyerID = B))
    (hy : ∀ o ∈ s.orders, ¬ (o.ID = y ∧ o.BuyerID = B)) :
    GetOrder queryFails "buyer" B x s = GetOrder queryFails "buyer" B y s ∧
    (GetOrder queryFails "buyer" B x s).code ≠ 403 ∧
    (queryFails = false →
      GetOrder queryFails "buyer" B x s =
        ⟨404, .error "Order not found or you don't have permission to access it"⟩) := by
  have key : ∀ id, (∀ o ∈ s.orders, ¬ (o.ID = id ∧ o.BuyerID = B)) →
      GetOrder queryFails "buyer" B id s =
        if queryFails = true then ⟨500, .error "Database error"⟩
        else ⟨404, .error "Order not found or you don't have permission to access it"⟩ := by
    intro id h
    cases queryFails
    · have := dbFirstOrderWherePreload_of_none s id (fun o => decide (o.BuyerID = B))
        (by intro o ho; simpa using h o ho)
      unfold GetOrder
      simp only [this]
      simp
    · unfold GetOrder dbFirstOrderWherePreload
      simp
  rw [key x hx, key y hy]
  cases queryFails <;> simp

/-- C15 (witness): buyer `b1` asks for `o7`, an order of buyer `b2`, and for
`o9`, which names no order; both calls answer the same 404. -/
theorem getOrder_hides_foreign_orders_witness :
    (∃ o ∈ twoOrderStore.orders, o.ID = "o7" ∧ o.BuyerID ≠ "b1") ∧
    (∀ o ∈ twoOrderStore.orders, o.ID ≠ "o9") ∧
    GetOrder false "buyer" "b1" "o7" twoOrderStore =
      GetOrder false "buyer" "b1" "o9" twoOrderStore ∧
    GetOrder false "buyer" "b1" "o7" twoOrderStore =
      ⟨404, .error "Order not found or you don't have permission to access it"⟩ :=
  have h := getOrder_hides_foreign_orders false "b1" "o7" "o9" twoOrderStore
    (by decide) (by decide)
  ⟨by decide, by decide, h.1, h.2.2 rfl⟩

/-! ## Theorems: listing -/

/-- The rows returned by the listing query, when the store answers. -/
theorem dbFindOrdersPreload_spec (s : Store) (cond : Order → Bool) :
    ∃ l : List Order, l.Perm (s.orders.filter cond) ∧ l.Sorted createdAtDesc ∧
      dbFindOrdersPreload false s cond = .ok (l.map fun o => (o, preloadOrderItems s o)) :=
  ⟨(s.orders.filter cond).insertionSort createdAtDesc,
    List.perm_insertionSort createdAtDesc _, List.sorted_insertionSort createdAtDesc _, by
      simp only [dbFindOrdersPreload, Bool.false_eq_true, if_false]⟩

/-- The update of a product row modifies no order and no order item. -/
theorem dbUpdateProduct_frame (fails : Bool) (now : Nat) (s : Store) (product : Product)
    (quantity pricePerUnit : Option F64) (status : Option String) (s₁ : Store)
    (h : dbUpdateProduct fails now s product quantity pricePerUnit status = .ok s₁) :
    s₁.orders = s.orders ∧ s₁.orderItems = s.orderItems := by
  unfold dbUpdateProduct at h
  split_ifs at h
  split at h
  · injection h with h
    subst h
    exact ⟨rfl, rfl⟩
  · exact absurd h (by simp)

/-- `UpdateProduct` modifies no order and no order item. -/
theorem updateProduct_frame (env : UpdateProductEnv) (role userID productID : String)
    (body : Option UpdateProductRequest) (s : Store) :
    (UpdateProduct env role userID productID body s).2.orders = s.orders ∧
    (UpdateProduct env role userID productID body s).2.orderItems = s.orderItems := by
  unfold UpdateProduct
  split_ifs
  · exact ⟨rfl, rfl⟩
  · split
    · exact ⟨rfl, rfl⟩
    · exact ⟨rfl, rfl⟩
    · split
      · exact ⟨rfl, rfl⟩
      · split_ifs
        · exact ⟨rfl, rfl⟩
        · exact ⟨rfl, rfl⟩
        · exact ⟨rfl, rfl⟩
        · exact ⟨rfl, rfl⟩
        · split
          · exact ⟨rfl, rfl⟩
          · rename_i s₁ hupd
            exact dbUpdateProduct_frame _ _ _ _ _ _ _ _ hupd

set_option maxRecDepth 20000 in
/-- The product row keeps two fractional digits: farmer `f1` sets the price of
`p1` to 60.005 and the row, and the response read from it, hold 60.01. -/
theorem updateProduct_price_two_digits :
    UpdateProduct sampleProductEnv "farmer" "f1" "p1"
        (some ⟨none, some (F64.ofDecimal 60005 3), none⟩) sampleStore =
      (⟨200, .product (toProductResponse
          { sampleProduct with PricePerUnit := F64.ofDecimal 6001 2, UpdatedAt := 40 })⟩,
       { sampleStore with
         products :=
           [({ sampleProduct with PricePerUnit := F64.ofDecimal 6001 2, UpdatedAt := 40 })] }) := by
  decide

/-- A sequence of `UpdateProduct` calls modifies no order and no order item. -/
theorem storeAfterProductCalls_frame :
    ∀ (calls : List ProductCall) (s : Store),
      (storeAfterProductCalls calls s).orders = s.orders ∧
      (storeAfterProductCalls calls s).orderItems = s.orderItems
  | [], _ => ⟨rfl, rfl⟩
  | c :: cs, s => by
    have h := storeAfterProductCalls_frame cs
      (UpdateProduct c.env c.role c.userID c.productID c.body s).2
    have h₁ := updateProduct_frame c.env c.role c.userID c.productID c.body s
    exact ⟨h.1.trans h₁.1, h.2.trans h₁.2⟩

/-- The response of `GetOrder` depends on the orders and order items only. -/
theorem getOrder_congr (queryFails : Bool) (role userID orderID : String) (s t : Store)
    (ho : s.orders = t.orders) (hi : s.orderItems = t.orderItems) :
    GetOrder queryFails role userID orderID s = GetOrder queryFails role userID orderID t := by
  unfold GetOrder dbFirstOrderWherePreload preloadOrderItems
  rw [ho, hi]

/-- The store keeps unique primary keys when `CreateOrder` appends an order
and an item with unused ids. -/
theorem primaryKeys_append (s : Store) (o : Order) (it : OrderItem) (hpk : s.PrimaryKeys)
    (ho : o.ID ∉ s.orders.map Order.ID) (hi : it.ID ∉ s.orderItems.map OrderItem.ID) :
    Store.PrimaryKeys { s with orders := s.orders ++ [o], orderItems := s.orderItems ++ [it] } := by
  refine ⟨hpk.1, ?_, ?_⟩
  · show ((s.orders ++ [o]).map Order.ID).Nodup
    rw [List.map_append, List.nodup_append]
    refine ⟨hpk.2.1, by simp, ?_⟩
    intro a ha hb
    simp only [List.map_cons, List.map_nil, List.mem_singleton] at hb
    exact ho (hb ▸ ha)
  · show ((s.orderItems ++ [it]).map OrderItem.ID).Nodup
    rw [List.map_append, List.nodup_append]
    refine ⟨hpk.2.2, by simp, ?_⟩
    intro a ha hb
    simp only [List.map_cons, List.map_nil, List.mem_singleton] at hb
    exact hi (hb ▸ ha)

/-- A run of `CreateOrder` answered 201, for a buyer, a request that passes
binding and a stored active product: both rows were written under unused ids
and the response shows them. -/
theorem createOrder_created (env : CreateOrderEnv) (userID : String)
    (req : CreateOrderRequest) (s : Store) (p : Product) (hwf : s.WF) (hp : p ∈ s.products)
    (hpid : req.ProductID = p.ID) (hid : req.ProductID ≠ "")
    (hq : req.Quantity.gtZero = true)
    (hmode : req.DeliveryMode = "pickup" ∨ req.DeliveryMode = "courier")
    (hactive : p.Status = "active")
    (hsucc : (CreateOrder env "buyer" userID (some req) s).1.code = 201) :
    ∃ (orow : Order) (irow : OrderItem),
      (newOrder env userID req p).toRow = some orow ∧
      (newOrderItem env req p).toRow = some irow ∧
      env.orderUUID ∉ s.orders.map Order.ID ∧
      env.itemUUID ∉ s.orderItems.map OrderItem.ID ∧
      CreateOrder env "buyer" userID (some req) s =
        (⟨201, .order (toOrderResponse orow [irow])⟩,
         { s with orders := s.orders ++ [orow], orderItems := s.orderItems ++ [irow] }) := by
  rw [createOrder_run env userID req s p hwf hp hpid hid hq hmode hactive] at hsucc ⊢
  by_cases h1 : env.productQueryFails = true
  · rw [if_pos h1] at hsucc; simp at hsucc
  rw [if_neg h1] at hsucc ⊢
  by_cases h2 : env.orderInsertFails = true ∨ env.orderUUID ∈ s.orders.map Order.ID
  · rw [if_pos h2] at hsucc; simp at hsucc
  rw [if_neg h2] at hsucc ⊢
  cases hor : (newOrder env userID req p).toRow with
  | none => rw [hor] at hsucc; simp at hsucc
  | some orow =>
    rw [hor] at hsucc
    dsimp only at hsucc ⊢
    by_cases h3 : env.itemInsertFails = true ∨ env.itemUUID ∈ s.orderItems.map OrderItem.ID
    · rw [if_pos h3] at hsucc; simp at hsucc
    rw [if_neg h3] at hsucc ⊢
    cases hir : (newOrderItem env req p).toRow with
    | none => rw [hir] at hsucc; simp at hsucc
    | some irow =>
      rw [hir] at hsucc
      dsimp only at hsucc ⊢
      by_cases h4 : env.reloadFails = true
      · rw [if_pos h4] at hsucc; simp at hsucc
      rw [if_neg h4]
      exact ⟨orow, irow, rfl, rfl, fun h => h2 (Or.inr h), fun h => h3 (Or.inr h), rfl⟩

set_option maxRecDepth 20000 in
/-- C17 (counterexample): buyer `b2` orders quantity 0.125 of the active
product `p1` (50.00 per unit) and is answered 201. The following `GetOrder` of
the new order by the same buyer returns one item whose quantity is 0.13, the
value the `decimal(10,2)` column took, and not the quantity 0.125 of the
request. -/
theorem getOrder_quantity_not_request_quantity :
    sampleStore.WF ∧
    eighthRequest.Quantity = F64.ofDecimal 125 3 ∧ eighthRequest.Quantity.gtZero = true ∧
    (CreateOrder sampleCreateEnv "buyer" "b2" (some eighthRequest) sampleStore).1.code = 201 ∧
    GetOrder false "buyer" "b2" "o2"
        (CreateOrder sampleCreateEnv "buyer" "b2" (some eighthRequest) sampleStore).2 =
      ⟨200, .order (toOrderResponse
        ⟨"o2", "b2", "f1", "pending", "pickup", F64.ofDecimal 625 2, 30, 30⟩
        [⟨"i2", "o2", "p1", F64.ofDecimal 13 2, F64.ofDecimal 5000 2, 31, 31⟩])⟩ ∧
    F64.ofDecimal 13 2 ≠ F64.ofDecimal 125 3 := by
  refine ⟨by decide, by decide, by decide, by decide, by decide, by decide⟩

/-- C17 (amended): the item price is a snapshot. For every successful
`CreateOrder` (201) by a buyer for the stored active product `p`, whose price
`v = p.PricePerUnit` is a two-digit decimal of its column, with a quantity `q`
that is a two-digit decimal of its column: the response names the new order
`o`; a following `GetOrder` of that id by the same buyer (when the store
answers) returns `o` with an item list of exactly one entry, of quantity `q`
and price-per-unit `v`; and after any sequence of `UpdateProduct` calls, which
leave every order and order item as they were, `GetOrder` returns the same
response. -/
theorem createOrder_getOrder_price_snapshot (env : CreateOrderEnv) (userID : String)
    (req : CreateOrderRequest) (s : Store) (p : Product) (res : Response × Store)
    (calls : List ProductCall)
    (hwf : s.WF) (hp : p ∈ s.products) (hpid : req.ProductID = p.ID)
    (hid : req.ProductID ≠ "") (hq : req.Quantity.gtZero = true)
    (hmode : req.DeliveryMode = "pickup" ∨ req.DeliveryMode = "courier")
    (hactive : p.Status = "active")
    (hqd : F64.toDecimal2 req.Quantity = some req.Quantity)
    (hpd : F64.toDecimal2 p.PricePerUnit = some p.PricePerUnit)
    (hres : CreateOrder env "buyer" userID (some req) s = res)
    (hsucc : res.1.code = 201) :
    ∃ (o : Order) (it : OrderItem),
      res.1 = ⟨201, .order (toOrderResponse o [it])⟩ ∧
      it.Quantity = req.Quantity ∧ it.PricePerUnit = p.PricePerUnit ∧
      (toOrderResponse o [it]).OrderItems.length = 1 ∧
      (toOrderResponse o [it]).OrderItems.map
        (fun i => (i.ProductID, i.Quantity, i.PricePerUnit)) =
        [(p.ID, req.Quantity, p.PricePerUnit)] ∧
      GetOrder false "buyer" userID o.ID res.2 = ⟨200, .order (toOrderResponse o [it])⟩ ∧
      (storeAfterProductCalls calls res.2).orders = res.2.orders ∧
      (storeAfterProductCalls calls res.2).orderItems = res.2.orderItems ∧
      GetOrder false "buyer" userID o.ID (storeAfterProductCalls calls res.2) =
        ⟨200, .order (toOrderResponse o [it])⟩ := by
  subst hres
  obtain ⟨orow, irow, hor, hir, hfresh, hifresh, heq⟩ :=
    createOrder_created env userID req s p hwf hp hpid hid hq hmode hactive hsucc
  obtain ⟨ho1, ho2, -⟩ := newOrder_row_fields env userID req p orow hor
  obtain ⟨hi1, hi2, hi3, hi4, hi5⟩ := newOrderItem_row_fields env req p irow hir
  have hqi : irow.Quantity = req.Quantity := (Option.some.inj (hi4.symm.trans hqd))
  have hvi : irow.PricePerUnit = p.PricePerUnit := (Option.some.inj (hi5.symm.trans hpd))
  rw [heq]
  have hfi := (filter_items_of_fresh s hwf.2 env.orderUUID hfresh).1
  have hpre : preloadOrderItems
      { s with orders := s.orders ++ [orow], orderItems := s.orderItems ++ [irow] } orow =
      [irow] := by
    simp only [preloadOrderItems, List.filter_append, ho1, hfi]
    simp [hi2]
  have hpk := primaryKeys_append s orow irow hwf.1 (ho1 ▸ hfresh) (hi1 ▸ hifresh)
  have hget := (getOrder_buyer userID orow.ID _ hpk).1 orow (by simp) rfl ho2
  rw [hpre] at hget
  have hframe := storeAfterProductCalls_frame calls
    { s with orders := s.orders ++ [orow], orderItems := s.orderItems ++ [irow] }
  refine ⟨orow, irow, rfl, hqi, hvi, rfl, ?_, hget, hframe.1, hframe.2, ?_⟩
  · simp [toOrderResponse, toOrderItemResponse, hqi, hvi, hi3, hpid]
  · rw [getOrder_congr false "buyer" userID _ _ _ hframe.1 hframe.2]
    exact hget

set_option maxRecDepth 20000 in
/-- C17 (witness): buyer `b2` orders 3 units of `p1` at 50.00; the farmer then
raises the price to 60.00 and closes the product; `GetOrder` still returns
the single item of quantity 3 at 50.00. -/
theorem createOrder_getOrder_price_snapshot_witness :
    sampleStore.WF ∧
    F64.toDecimal2 sampleRequest.Quantity = some sampleRequest.Quantity ∧
    F64.toDecimal2 sampleProduct.PricePerUnit = some sampleProduct.PricePerUnit ∧
    (CreateOrder sampleCreateEnv "buyer" "b2" (some sampleRequest) sampleStore).1.code = 201 ∧
    (storeAfterProductCalls priceChangeCalls
      (CreateOrder sampleCreateEnv "buyer" "b2" (some sampleRequest) sampleStore).2).products.map
        (fun p => (p.ID, p.PricePerUnit, p.Status)) = [("p1", F64.finite false 15 2, "closed")] ∧
    (∃ (o : Order) (it : OrderItem),
      (toOrderResponse o [it]).OrderItems.map
        (fun i => (i.ProductID, i.Quantity, i.PricePerUnit)) =
        [("p1", F64.finite false 3 0, F64.finite false 25 1)] ∧
      GetOrder false "buyer" "b2" o.ID
        (storeAfterProductCalls priceChangeCalls
          (CreateOrder sampleCreateEnv "buyer" "b2" (some sampleRequest) sampleStore).2) =
        ⟨200, .order (toOrderResponse o [it])⟩) :=
  have h := createOrder_getOrder_price_snapshot sampleCreateEnv "b2" sampleRequest sampleStore
    sampleProduct _ priceChangeCalls (by decide) (by decide) rfl (by decide) rfl (Or.inl rfl)
    rfl (by decide) (by decide) rfl (by decide)
  ⟨by decide, by decide, by decide, by decide, by decide,
    h.elim fun o h' => h'.elim fun it hit => ⟨o, it, hit.2.2.2.2.1, hit.2.2.2.2.2.2.2.2⟩⟩

/-! ## Theorems: shape of the transition graph -/

/-- Every edge of the transition graph leads to a status of higher rank. -/
theorem statusRank_lt_of_transition (a b : String) (h : Transition a b) :
    statusRank a < statusRank b := by
  have h' := (validTransition_iff_allowed a b).1 h
  simp only [allowedPairs, List.mem_cons, Prod.mk.injEq, List.mem_singleton,
    List.not_mem_nil, or_false] at h'
  rcases h' with ⟨rfl, rfl⟩ | ⟨rfl, rfl⟩ | ⟨rfl, rfl⟩ | ⟨rfl, rfl⟩ <;> decide

/-- Every non-empty sequence of edges leads to a status of higher rank. -/
theorem statusRank_lt_of_transGen (a b : String) (h : Relation.TransGen Transition a b) :
    statusRank a < statusRank b := by
  induction h with
  | single hab => exact statusRank_lt_of_transition _ _ hab
  | tail _ hbc ih => exact lt_trans ih (statusRank_lt_of_transition _ _ hbc)

/-- C18: the transition graph is acyclic with exactly two sinks. For the graph
of the switch in `UpdateOrderStatus`, and for the graph of
`getValidTransitions`, no non-empty sequence of allowed transitions starts and
ends at the same status; and among the five statuses the ones with no allowed
outgoing transition (an empty `getValidTransitions`) are exactly rejected and
delivered. -/
theorem transition_graph_acyclic_two_sinks :
    (∀ c : String, ¬ Relation.TransGen Transition c c) ∧
    (∀ c : String, ¬ Relation.TransGen (fun a b => b ∈ getValidTransitions a) c c) ∧
    (∀ c ∈ orderStatuses,
      (∀ r : String, validTransition c r = false) ↔ (c = "rejected" ∨ c = "delivered")) ∧
    (∀ c ∈ orderStatuses,
      getValidTransitions c = [] ↔ (c = "rejected" ∨ c = "delivered")) ∧
    (orderStatuses.filter fun c => (getValidTransitions c).isEmpty) =
      ["rejected", "delivered"] := by
  have hacyc : ∀ c : String, ¬ Relation.TransGen Transition c c :=
    fun c h => lt_irrefl _ (statusRank_lt_of_transGen c c h)
  refine ⟨hacyc, ?_, ?_, ?_, by decide⟩
  · intro c h
    refine hacyc c (Relation.TransGen.mono ?_ h)
    intro a b hab
    exact (mem_getValidTransitions_iff a b).1 hab
  · intro c hc
    simp only [orderStatuses, List.mem_cons, List.mem_singleton, List.not_mem_nil,
      or_false] at hc
    rcases hc with rfl | rfl | rfl | rfl | rfl
    · refine ⟨fun h => ?_, fun h => ?_⟩
      · exact absurd (h "accepted") (by decide)
      · rcases h with h | h <;> exact absurd h (by decide)
    · refine ⟨fun h => ?_, fun h => ?_⟩
      · exact absurd (h "shipped") (by decide)
      · rcases h with h | h <;> exact absurd h (by decide)
    · exact ⟨fun _ => Or.inl rfl, fun _ r => rfl⟩
    · refine ⟨fun h => ?_, fun h => ?_⟩
      · exact absurd (h "delivered") (by decide)
      · rcases h with h | h <;> exact absurd h (by decide)
    · exact ⟨fun _ => Or.inr rfl, fun _ r => rfl⟩
  · intro c hc
    simp only [orderStatuses, List.mem_cons, List.mem_singleton, List.not_mem_nil,
      or_false] at hc
    rcases hc with rfl | rfl | rfl | rfl | rfl <;> decide

/-- The response of `CreateOrder` to a caller that is not a buyer (line 85). -/
theorem createOrder_non_buyer (env : CreateOrderEnv) (role userID : String)
    (body : Option CreateOrderRequest) (s : Store) (hrole : role ≠ "buyer") :
    CreateOrder env role userID body s = (⟨403, .error "Only buyers can place orders"⟩, s) := by
  unfold CreateOrder
  rw [if_pos hrole]

/-! ## Theorems: error outcomes -/

/-- The status code and payload of `CreateOrder` for each error kind. -/
theorem createOrder_outcome (env : CreateOrderEnv) (role userID : String)
    (body : Option CreateOrderRequest) (s : Store) (hwf : s.WF) :
    (CreateOrder env role userID body s).1.code =
      statusCodeOf 201 (createOrderErrorKind env role body s) ∧
    (createOrderErrorKind env role body s = some .validation →
      ∃ e, (CreateOrder env role userID body s).1.payload = .bindError e) ∧
    (createOrderErrorKind env role body s = some .invalidState →
      (CreateOrder env role userID body s).1.payload =
        .error "Product is not available for ordering") := by
  by_cases hrole : role = "buyer"
  swap
  · rw [createOrder_non_buyer env role userID body s hrole]
    simp [createOrderErrorKind, hrole, statusCodeOf, ErrorKind.statusCode]
  subst hrole
  cases hb : bindCreateOrder body with
  | error e =>
    have : CreateOrder env "buyer" userID body s = (⟨400, .bindError e⟩, s) := by
      unfold CreateOrder
      simp only [hb]
      simp
    rw [this]
    simp [createOrderErrorKind, hb, statusCodeOf, ErrorKind.statusCode]
  | ok req =>
    obtain ⟨rfl, hid, hq, hmode⟩ := bindCreateOrder_eq_ok body req hb
    obtain ⟨hfail, hnone, hinactive⟩ := createOrder_lookup env userID req s hid hq hmode
    cases hpq : env.productQueryFails
    swap
    · rw [hfail hpq]
      simp [createOrderErrorKind, hb, hpq, statusCodeOf, ErrorKind.statusCode]
    cases hfind : s.products.find? (fun p => decide (p.ID = req.ProductID)) with
    | none =>
      rw [hnone hpq hfind]
      simp [createOrderErrorKind, hb, hpq, hfind, statusCodeOf, ErrorKind.statusCode]
    | some p =>
      have hp : p ∈ s.products := List.mem_of_find?_eq_some hfind
      have hpid : req.ProductID = p.ID := by
        have := List.find?_some hfind
        exact (of_decide_eq_true this).symm
      by_cases hactive : p.Status = "active"
      · rw [createOrder_run env userID req s p hwf hp hpid hid hq hmode hactive]
        have hk : createOrderErrorKind env "buyer" (some req) s =
            if env.orderInsertFails = true ∨ env.orderUUID ∈ s.orders.map Order.ID ∨
                F64.toDecimal2 (F64.mul req.Quantity p.PricePerUnit) = none then
              some .storageError
            else if env.itemInsertFails = true ∨
                env.itemUUID ∈ s.orderItems.map OrderItem.ID ∨
                F64.toDecimal2 req.Quantity = none ∨
                F64.toDecimal2 p.PricePerUnit = none then some .storageError
            else if env.reloadFails = true then some .storageError
            else none := by
          simp only [createOrderErrorKind, hb, hpq, hfind, hactive]
          simp
        rw [hk, if_neg (by simp [hpq])]
        by_cases h2 : env.orderInsertFails = true ∨ env.orderUUID ∈ s.orders.map Order.ID
        · rw [if_pos h2, if_pos (h2.elim Or.inl fun h => Or.inr (Or.inl h))]
          refine ⟨rfl, ?_, ?_⟩ <;> (intro h; exact absurd h (by simp))
        rw [if_neg h2]
        cases hor : (newOrder env userID req p).toRow with
        | none =>
          rw [if_pos (Or.inr (Or.inr ((newOrder_toRow_eq_none env userID req p).1 hor)))]
          refine ⟨rfl, ?_, ?_⟩ <;> (intro h; exact absurd h (by simp))
        | some orow =>
          have hn2 : ¬ (env.orderInsertFails = true ∨ env.orderUUID ∈ s.orders.map Order.ID ∨
              F64.toDecimal2 (F64.mul req.Quantity p.PricePerUnit) = none) := by
            rintro (h | h | h)
            · exact h2 (Or.inl h)
            · exact h2 (Or.inr h)
            · rw [(newOrder_toRow_eq_none env userID req p).2 h] at hor
              cases hor
          rw [if_neg hn2]
          dsimp only
          by_cases h3 : env.itemInsertFails = true ∨
              env.itemUUID ∈ s.orderItems.map OrderItem.ID
          · rw [if_pos h3, if_pos (h3.elim Or.inl fun h => Or.inr (Or.inl h))]
            refine ⟨rfl, ?_, ?_⟩ <;> (intro h; exact absurd h (by simp))
          rw [if_neg h3]
          cases hir : (newOrderItem env req p).toRow with
          | none =>
            rw [if_pos (Or.inr (Or.inr ((newOrderItem_toRow_eq_none env req p).1 hir)))]
            refine ⟨rfl, ?_, ?_⟩ <;> (intro h; exact absurd h (by simp))
          | some irow =>
            have hn3 : ¬ (env.itemInsertFails = true ∨
                env.itemUUID ∈ s.orderItems.map OrderItem.ID ∨
                F64.toDecimal2 req.Quantity = none ∨
                F64.toDecimal2 p.PricePerUnit = none) := by
              rintro (h | h | h)
              · exact h3 (Or.inl h)
              · exact h3 (Or.inr h)
              · rw [(newOrderItem_toRow_eq_none env req p).2 h] at hir
                cases hir
            rw [if_neg hn3]
            dsimp only
            by_cases h4 : env.reloadFails = true
            · rw [if_pos h4, if_pos h4]
              refine ⟨rfl, ?_, ?_⟩ <;> (intro h; exact absurd h (by simp))
            · rw [if_neg h4, if_neg h4]
              refine ⟨rfl, ?_, ?_⟩ <;> (intro h; exact absurd h (by simp))
      · rw [hinactive p hpq hfind hactive]
        simp [createOrderErrorKind, hb, hpq, hfind, hactive, statusCodeOf,
          ErrorKind.statusCode]

/-- The row written by the status update of `UpdateOrderStatus`. -/
theorem dbUpdateOrderStatus_ok (now : Nat) (s : Store) (order : Order) (r : String) :
    dbUpdateOrderStatus false now s order r = .ok { s with
      orders := s.orders.map fun o =>
        if o.ID = order.ID then { o with Status := r, UpdatedAt := now } else o } := by
  simp only [dbUpdateOrderStatus, Bool.false_eq_true, if_false]

/-- After the status update the reload by id finds a row. -/
theorem dbFirstOrderPreload_after_update_isOk (now : Nat) (s : Store) (order : Order)
    (r : String) (ho : order ∈ s.orders) :
    ∃ res, dbFirstOrderPreload false { s with
      orders := s.orders.map fun o =>
        if o.ID = order.ID then { o with Status := r, UpdatedAt := now } else o } order.ID =
      .ok res := by
  cases hf : (s.orders.map fun o =>
      if o.ID = order.ID then { o with Status := r, UpdatedAt := now } else o).find?
      (fun o => decide (o.ID = order.ID)) with
  | none =>
    rw [List.find?_eq_none] at hf
    have hmem : ({ order with Status := r, UpdatedAt := now } : Order) ∈
        s.orders.map fun o =>
          if o.ID = order.ID then { o with Status := r, UpdatedAt := now } else o :=
      List.mem_map.2 ⟨order, ho, by simp⟩
    exact absurd (by simp) (hf _ hmem)
  | some o' =>
    refine ⟨(o', preloadOrderItems { s with
      orders := s.orders.map fun o =>
        if o.ID = order.ID then { o with Status := r, UpdatedAt := now } else o } o'), ?_⟩
    unfold dbFirstOrderPreload
    rw [if_neg (by simp), hf]

/-- What `UpdateOrderStatus` does for a farmer once the lookup has found the
order `order`. -/
theorem updateOrderStatus_found (env : UpdateStatusEnv) (userID orderID : String)
    (body : Option UpdateOrderStatusRequest) (s : Store) (order : Order)
    (hq : env.orderQueryFails = false)
    (hfind : s.orders.find? (fun o => decide (o.ID = orderID ∧ o.FarmerID = userID))
      = some order) :
    (∀ e, bindUpdateOrderStatus body = .error e →
      UpdateOrderStatus env "farmer" userID orderID body s = (⟨400, .bindError e⟩, s)) ∧
    (∀ req, bindUpdateOrderStatus body = .ok req →
      validTransition order.Status req.Status = false →
      UpdateOrderStatus env "farmer" userID orderID body s =
        (⟨400, .invalidTransition order.Status req.Status
          (getValidTransitions order.Status)⟩, s)) ∧
    (∀ req, bindUpdateOrderStatus body = .ok req →
      validTransition order.Status req.Status = true → env.updateFails = true →
      UpdateOrderStatus env "farmer" userID orderID body s =
        (⟨500, .error "Failed to update order status"⟩, s)) ∧
    (∀ req, bindUpdateOrderStatus body = .ok req →
      validTransition order.Status req.Status = true → env.updateFails = false →
      (UpdateOrderStatus env "farmer" userID orderID body s).2 = { s with
        orders := s.orders.map fun o =>
          if o.ID = order.ID then
            { o with Status := req.Status, UpdatedAt := env.updateNow } else o } ∧
      (UpdateOrderStatus env "farmer" userID orderID body s).1.code =
        if env.reloadFails = true then 500 else 200) := by
  have hmem : order ∈ s.orders := List.mem_of_find?_eq_some hfind
  have hid : order.ID = orderID := by
    have := List.find?_some hfind
    exact (of_decide_eq_true this).1
  have hlook : dbFirstOrderOfFarmer env.orderQueryFails s orderID userID = .ok order := by
    simp only [dbFirstOrderOfFarmer, hq, hfind, Bool.false_eq_true, if_false]
  refine ⟨?_, ?_, ?_, ?_⟩
  · intro e hb
    unfold UpdateOrderStatus
    simp only [hlook, hb]
    simp
  · intro req hb hv
    unfold UpdateOrderStatus
    simp only [hlook, hb, hv]
    simp
  · intro req hb hv hu
    unfold UpdateOrderStatus
    simp only [hlook, hb, hv, hu, dbUpdateOrderStatus]
    simp
  · intro req hb hv hu
    obtain ⟨res, hres⟩ := dbFirstOrderPreload_after_update_isOk env.updateNow s order
      req.Status hmem
    subst hid
    cases hr : env.reloadFails
    · unfold UpdateOrderStatus
      simp only [hlook, hb, hv, hu, dbUpdateOrderStatus_ok, hr, hres]
      simp
    · unfold UpdateOrderStatus
      simp only [hlook, hb, hv, hu, dbUpdateOrderStatus_ok, hr, dbFirstOrderPreload]
      simp

/-- The response of `UpdateOrderStatus` to a caller that is not a farmer
(line 246). -/
theorem updateOrderStatus_forbidden (env : UpdateStatusEnv) (role userID orderID : String)
    (body : Option UpdateOrderStatusRequest) (s : Store) (hrole : role ≠ "farmer") :
    UpdateOrderStatus env role userID orderID body s =
      (⟨403, .error "Only farmers can update order status"⟩, s) := by
  unfold UpdateOrderStatus
  rw [if_pos hrole]

/-- The status code and payload of `UpdateOrderStatus` for each error kind. -/
theorem updateOrderStatus_outcome (env : UpdateStatusEnv) (role userID orderID : String)
    (body : Option UpdateOrderStatusRequest) (s : Store) :
    (UpdateOrderStatus env role userID orderID body s).1.code =
      statusCodeOf 200 (updateStatusErrorKind env role userID orderID body s) ∧
    (updateStatusErrorKind env role userID orderID body s = some .validation →
      ∃ e, (UpdateOrderStatus env role userID orderID body s).1.payload = .bindError e) ∧
    (updateStatusErrorKind env role userID orderID body s = some .invalidTransition →
      ∃ c r, (UpdateOrderStatus env role userID orderID body s).1.payload =
        .invalidTransition c r (getValidTransitions c)) := by
  by_cases hrole : role = "farmer"
  swap
  · rw [updateOrderStatus_forbidden env role userID orderID body s hrole]
    simp [updateStatusErrorKind, hrole, statusCodeOf, ErrorKind.statusCode]
  subst hrole
  cases hq : env.orderQueryFails
  swap
  · have : UpdateOrderStatus env "farmer" userID orderID body s =
        (⟨500, .error "Database error"⟩, s) := by
      unfold UpdateOrderStatus
      simp [hq, dbFirstOrderOfFarmer]
    rw [this]
    simp [updateStatusErrorKind, hq, statusCodeOf, ErrorKind.statusCode]
  cases hfind : s.orders.find? (fun o => decide (o.ID = orderID ∧ o.FarmerID = userID)) with
  | none =>
    have hnone : ∀ o ∈ s.orders, ¬ (o.ID = orderID ∧ o.FarmerID = userID) := by
      rw [List.find?_eq_none] at hfind
      intro o ho
      simpa using hfind o ho
    rw [updateOrderStatus_unmatched env userID orderID body s hnone]
    simp only [updateStatusErrorKind, hq, hfind]
    simp [statusCodeOf, ErrorKind.statusCode]
  | some order =>
    obtain ⟨hbe, hden, hupd, hok⟩ :=
      updateOrderStatus_found env userID orderID body s order hq hfind
    cases hb : bindUpdateOrderStatus body with
    | error e =>
      rw [hbe e hb]
      simp only [updateStatusErrorKind, hq, hfind, hb]
      simp [statusCodeOf, ErrorKind.statusCode]
    | ok req =>
      cases hv : validTransition order.Status req.Status
      · rw [hden req hb hv]
        simp only [updateStatusErrorKind, hq, hfind, hb, hv]
        simp [statusCodeOf, ErrorKind.statusCode]
      · cases hu : env.updateFails
        · have hk : updateStatusErrorKind env "farmer" userID orderID body s =
              if env.reloadFails = true then some .storageError else none := by
            simp only [updateStatusErrorKind, hq, hfind, hb, hv, hu]
            simp
          rw [hk, (hok req hb hv hu).2]
          cases hr : env.reloadFails <;> simp [statusCodeOf, ErrorKind.statusCode]
        · rw [hupd req hb hv hu]
          simp only [updateStatusErrorKind, hq, hfind, hb, hv, hu]
          simp [statusCodeOf, ErrorKind.statusCode]

/-- C19 (counterexample): three different error kinds with the same HTTP
status code. `CreateOrder` for the closed product (InvalidState),
`UpdateOrderStatus` from pending to shipped (InvalidTransition) and
`CreateOrder` with quantity 0 (request validation) are all answered 400. -/
theorem invalidState_invalidTransition_validation_share_400 :
    createOrderErrorKind sampleCreateEnv "buyer" (some sampleRequest) closedProductStore
      = some .invalidState ∧
    (CreateOrder sampleCreateEnv "buyer" "b2" (some sampleRequest) closedProductStore).1.code
      = 400 ∧
    updateStatusErrorKind sampleUpdateEnv "farmer" "f1" "o1" (some ⟨"shipped"⟩) sampleStore
      = some .invalidTransition ∧
    (UpdateOrderStatus sampleUpdateEnv "farmer" "f1" "o1" (some ⟨"shipped"⟩) sampleStore).1.code
      = 400 ∧
    createOrderErrorKind sampleCreateEnv "buyer"
      (some { sampleRequest with Quantity := F64.finite false 0 0 }) sampleStore
      = some .validation ∧
    (CreateOrder sampleCreateEnv "buyer" "b2"
      (some { sampleRequest with Quantity := F64.finite false 0 0 }) sampleStore).1.code
      = 400 := by
  decide

/-- C19 (amended): the status code tells NotFound, Forbidden and StorageError
apart from every other kind, and the payload tells the remaining kinds apart.
For every run of `CreateOrder` and of `UpdateOrderStatus` on a store
satisfying its key constraints, the status code is the one of the run's error
kind (201 and 200 without error): 403 for Forbidden, 404 for NotFound, 500 for
StorageError, and 400 for InvalidState, InvalidTransition and a validation
failure alike. Two different kinds have the same status code only when both
are among these last three; there a validation failure carries the binder's
error, InvalidState the message "Product is not available for ordering", and
InvalidTransition the current status, the requested status and the valid
transitions. -/
theorem error_kinds_by_status_and_payload (cenv : CreateOrderEnv) (uenv : UpdateStatusEnv)
    (role userID orderID : String) (cbody : Option CreateOrderRequest)
    (ubody : Option UpdateOrderStatusRequest) (s : Store) (hwf : s.WF) :
    (CreateOrder cenv role userID cbody s).1.code =
      statusCodeOf 201 (createOrderErrorKind cenv role cbody s) ∧
    (UpdateOrderStatus uenv role userID orderID ubody s).1.code =
      statusCodeOf 200 (updateStatusErrorKind uenv role userID orderID ubody s) ∧
    (ErrorKind.forbidden.statusCode = 403 ∧ ErrorKind.notFound.statusCode = 404 ∧
      ErrorKind.storageError.statusCode = 500 ∧ ErrorKind.validation.statusCode = 400 ∧
      ErrorKind.invalidState.statusCode = 400 ∧
      ErrorKind.invalidTransition.statusCode = 400) ∧
    (∀ k₁ k₂ : ErrorKind, k₁ ≠ k₂ → k₁.statusCode = k₂.statusCode →
      k₁ ∈ [ErrorKind.validation, .invalidState, .invalidTransition] ∧
      k₂ ∈ [ErrorKind.validation, .invalidState, .invalidTransition]) ∧
    (∀ k : ErrorKind, k.statusCode ≠ 200 ∧ k.statusCode ≠ 201) ∧
    (createOrderErrorKind cenv role cbody s = some .validation →
      ∃ e, (CreateOrder cenv role userID cbody s).1.payload = .bindError e) ∧
    (createOrderErrorKind cenv role cbody s = some .invalidState →
      (CreateOrder cenv role userID cbody s).1.payload =
        .error "Product is not available for ordering") ∧
    (updateStatusErrorKind uenv role userID orderID ubody s = some .validation →
      ∃ e, (UpdateOrderStatus uenv role userID orderID ubody s).1.payload = .bindError e) ∧
    (updateStatusErrorKind uenv role userID orderID ubody s = some .invalidTransition →
      ∃ c r, (UpdateOrderStatus uenv role userID orderID ubody s).1.payload =
        .invalidTransition c r (getValidTransitions c)) := by
  obtain ⟨hc1, hc2, hc3⟩ := createOrder_outcome cenv role userID cbody s hwf
  obtain ⟨hu1, hu2, hu3⟩ := updateOrderStatus_outcome uenv role userID orderID ubody s
  refine ⟨hc1, hu1, ⟨rfl, rfl, rfl, rfl, rfl, rfl⟩, ?_, ?_, hc2, hc3, hu2, hu3⟩
  · intro k₁ k₂ hne heq
    cases k₁ <;> cases k₂ <;> simp_all [ErrorKind.statusCode]
  · intro k
    cases k <;> simp [ErrorKind.statusCode]

/-- C19 (witness): on the sample store, a farmer calling `CreateOrder` is
answered 403 (Forbidden) and a buyer calling `UpdateOrderStatus` is answered
403 as well; the request for the unknown order `o9` by farmer `f1` is answered
404. -/
theorem error_kinds_by_status_and_payload_witness :
    sampleStore.WF ∧
    createOrderErrorKind sampleCreateEnv "farmer" (some sampleRequest) sampleStore
      = some .forbidden ∧
    (CreateOrder sampleCreateEnv "farmer" "f1" (some sampleRequest) sampleStore).1.code = 403 ∧
    updateStatusErrorKind sampleUpdateEnv "farmer" "f1" "o9" (some ⟨"accepted"⟩) sampleStore
      = some .notFound ∧
    (UpdateOrderStatus sampleUpdateEnv "farmer" "f1" "o9" (some ⟨"accepted"⟩) sampleStore).1.code
      = 404 :=
  have h₁ := error_kinds_by_status_and_payload sampleCreateEnv sampleUpdateEnv "farmer" "f1"
    "o9" (some sampleRequest) (some ⟨"accepted"⟩) sampleStore (by decide)
  ⟨by decide, by decide, h₁.1.trans (by decide), by decide, h₁.2.1.trans (by decide)⟩

/-! ## Theorems: the lifecycle of an order -/

/-- The stored status of an order after the status update of the order
`order`. -/
theorem storedStatus_after_update (s : Store) (hpk : s.PrimaryKeys) (order : Order)
    (hmem : order ∈ s.orders) (r : String) (now : Nat) (oid st : String)
    (hst : storedStatus s oid = some st) :
    storedStatus { s with
      orders := s.orders.map fun o =>
        if o.ID = order.ID then { o with Status := r, UpdatedAt := now } else o } oid =
      some (if oid = order.ID then r else st) ∧
    (oid = order.ID → st = order.Status) := by
  unfold storedStatus at hst ⊢
  cases hf : s.orders.find? (fun o => decide (o.ID = oid)) with
  | none => rw [hf] at hst; cases hst
  | some x =>
    rw [hf] at hst
    simp only [Option.map_some', Option.some.injEq] at hst
    have hx : x ∈ s.orders := List.mem_of_find?_eq_some hf
    have hxid : x.ID = oid := by
      have := List.find?_some hf
      exact of_decide_eq_true this
    have hcomp : ((fun o : Order => decide (o.ID = oid)) ∘ fun o : Order =>
        if o.ID = order.ID then { o with Status := r, UpdatedAt := now } else o) =
        fun o => decide (o.ID = oid) := by
      funext o
      simp only [Function.comp]
      split_ifs <;> rfl
    constructor
    · rw [List.find?_map, hcomp, hf]
      simp only [Option.map_some', Option.some.injEq]
      rw [hxid]
      split_ifs
      · rfl
      · exact hst
    · intro h
      have := order_eq_of_id_eq s hpk order x hmem hx (hxid.trans h)
      rw [← hst, this]

/-- The status update keeps the primary keys unique. -/
theorem primaryKeys_after_update (s : Store) (hpk : s.PrimaryKeys) (order : Order)
    (r : String) (now : Nat) :
    Store.PrimaryKeys { s with
      orders := s.orders.map fun o =>
        if o.ID = order.ID then { o with Status := r, UpdatedAt := now } else o } := by
  refine ⟨hpk.1, ?_, hpk.2.2⟩
  have : (s.orders.map fun o =>
      if o.ID = order.ID then { o with Status := r, UpdatedAt := now } else o).map Order.ID =
      s.orders.map Order.ID := by
    rw [List.map_map]
    apply List.map_congr_left
    intro o _
    simp only [Function.comp]
    split_ifs <;> rfl
  show ((s.orders.map _).map Order.ID).Nodup
  rw [this]
  exact hpk.2.1

/-- One call of `UpdateOrderStatus`, seen from the order with id `oid`: the
keys stay unique, the stored status stays or moves along one edge of the
graph, and it moves along an edge when the call is for `oid` and succeeds. -/
theorem updateOrderStatus_step (c : UpdateCall) (s : Store) (hpk : s.PrimaryKeys)
    (oid st : String) (hst : storedStatus s oid = some st) :
    (c.run s).2.PrimaryKeys ∧
    ∃ st', storedStatus (c.run s).2 oid = some st' ∧ (st' = st ∨ Transition st st') ∧
      ((c.run s).1.code = 200 → c.orderID = oid → Transition st st') := by
  obtain ⟨env, role, userID, orderID, body⟩ := c
  simp only [UpdateCall.run]
  have hsame : ∀ resp : Response, resp.code ≠ 200 →
      UpdateOrderStatus env role userID orderID body s = (resp, s) →
      (UpdateOrderStatus env role userID orderID body s).2.PrimaryKeys ∧
      ∃ st', storedStatus (UpdateOrderStatus env role userID orderID body s).2 oid = some st' ∧
        (st' = st ∨ Transition st st') ∧
        ((UpdateOrderStatus env role userID orderID body s).1.code = 200 → orderID = oid →
          Transition st st') := by
    intro resp hcode h
    rw [h]
    exact ⟨hpk, st, hst, Or.inl rfl, fun h200 => absurd h200 hcode⟩
  by_cases hrole : role = "farmer"
  swap
  · exact hsame _ (by decide) (updateOrderStatus_forbidden env role userID orderID body s hrole)
  subst hrole
  cases hfind : s.orders.find? (fun o => decide (o.ID = orderID ∧ o.FarmerID = userID)) with
  | none =>
    have hnone : ∀ o ∈ s.orders, ¬ (o.ID = orderID ∧ o.FarmerID = userID) := by
      rw [List.find?_eq_none] at hfind
      intro o ho
      simpa using hfind o ho
    have h := updateOrderStatus_unmatched env userID orderID body s hnone
    cases hq : env.orderQueryFails
    · rw [hq] at h; exact hsame _ (by decide) h
    · rw [hq] at h; exact hsame _ (by decide) h
  | some order =>
    cases hq : env.orderQueryFails
    swap
    · refine hsame ⟨500, .error "Database error"⟩ (by decide) ?_
      unfold UpdateOrderStatus
      simp [hq, dbFirstOrderOfFarmer]
    obtain ⟨hbe, hden, hupd, hok⟩ :=
      updateOrderStatus_found env userID orderID body s order hq hfind
    have hmem : order ∈ s.orders := List.mem_of_find?_eq_some hfind
    have hid : order.ID = orderID := by
      have := List.find?_some hfind
      exact (of_decide_eq_true this).1
    cases hb : bindUpdateOrderStatus body with
    | error e => exact hsame _ (by simp) (hbe e hb)
    | ok req =>
      cases hv : validTransition order.Status req.Status
      · exact hsame _ (by simp) (hden req hb hv)
      · cases hu : env.updateFails
        swap
        · exact hsame _ (by decide) (hupd req hb hv hu)
        obtain ⟨hstore, -⟩ := hok req hb hv hu
        obtain ⟨hnew, hold⟩ := storedStatus_after_update s hpk order hmem req.Status
          env.updateNow oid st hst
        rw [hstore]
        refine ⟨primaryKeys_after_update s hpk order req.Status env.updateNow,
          _, hnew, ?_, ?_⟩
        · by_cases h : oid = order.ID
          · rw [if_pos h]
            right
            rw [hold h]
            exact hv
          · rw [if_neg h]
            exact Or.inl rfl
        · intro _ h
          have h' : oid = order.ID := (hid.trans h).symm
          rw [if_pos h', hold h']
          exact hv

/-- The rank of a status is at most 3. -/
theorem statusRank_le (st : String) : statusRank st ≤ 3 := by
  unfold statusRank
  split_ifs <;> omega

/-- The target of an edge is one of the five statuses. -/
theorem mem_orderStatuses_of_transition (a b : String) (h : Transition a b) :
    b ∈ orderStatuses := by
  have h' := (validTransition_iff_allowed a b).1 h
  simp only [allowedPairs, List.mem_cons, Prod.mk.injEq, List.mem_singleton,
    List.not_mem_nil, or_false] at h'
  rcases h' with ⟨-, rfl⟩ | ⟨-, rfl⟩ | ⟨-, rfl⟩ | ⟨-, rfl⟩ <;> decide

/-- No edge leaves rejected or delivered. -/
theorem not_transition_of_terminal (a b : String) (ha : a = "rejected" ∨ a = "delivered") :
    ¬ Transition a b := by
  rcases ha with rfl | rfl <;> exact fun h => absurd h (by simp [Transition, validTransition])

/-- The invariants of a sequence of `UpdateOrderStatus` calls, seen from the
order with id `oid` whose stored status is `st`. -/
theorem runUpdateCalls_invariants (oid : String) :
    ∀ (cs : List UpdateCall) (s : Store) (st : String), s.PrimaryKeys →
      storedStatus s oid = some st → st ∈ orderStatuses →
      (∀ x ∈ runUpdateCalls cs s, ∃ st' ∈ orderStatuses, storedStatus x.2.2 oid = some st') ∧
      List.Chain StatusStep (some st)
        ((runUpdateCalls cs s).map fun x => storedStatus x.2.2 oid) ∧
      ((runUpdateCalls cs s).filter
        (fun x => decide (x.1.orderID = oid ∧ x.2.1.code = 200))).length + statusRank st ≤ 3 ∧
      ((st = "rejected" ∨ st = "delivered") →
        ∀ x ∈ runUpdateCalls cs s, storedStatus x.2.2 oid = some st) ∧
      (∀ pre post, cs = pre ++ post → ∀ t,
        storedStatus (storeAfterUpdates pre s) oid = some t →
        (t = "rejected" ∨ t = "delivered") →
        ∀ x ∈ runUpdateCalls post (storeAfterUpdates pre s), storedStatus x.2.2 oid = some t)
  | [], s, st, _, _, _ => by
    refine ⟨by simp [runUpdateCalls], by simp [runUpdateCalls], ?_, by simp [runUpdateCalls], ?_⟩
    · simpa [runUpdateCalls] using statusRank_le st
    · intro pre post h
      have hpre : pre = [] := (List.append_eq_nil.1 h.symm).1
      have hpost : post = [] := (List.append_eq_nil.1 h.symm).2
      subst hpre hpost
      simp [runUpdateCalls]
  | c :: cs, s, st, hpk, hst, hmem => by
    obtain ⟨hpk', st', hst', hstep, hsucc⟩ := updateOrderStatus_step c s hpk oid st hst
    have hmem' : st' ∈ orderStatuses := by
      rcases hstep with h | h
      · rw [h]; exact hmem
      · exact mem_orderStatuses_of_transition st st' h
    obtain ⟨ih1, ih2, ih3, ih4, ih5⟩ :=
      runUpdateCalls_invariants oid cs (c.run s).2 st' hpk' hst' hmem'
    have hterm : (st = "rejected" ∨ st = "delivered") →
        ∀ x ∈ runUpdateCalls (c :: cs) s, storedStatus x.2.2 oid = some st := by
      intro ht x hx
      have heq : st' = st := by
        rcases hstep with h | h
        · exact h
        · exact absurd h (not_transition_of_terminal st st' ht)
      subst heq
      simp only [runUpdateCalls, List.mem_cons] at hx
      rcases hx with rfl | hx
      · exact hst'
      · exact ih4 ht x hx
    refine ⟨?_, ?_, ?_, hterm, ?_⟩
    · intro x hx
      simp only [runUpdateCalls, List.mem_cons] at hx
      rcases hx with rfl | hx
      · exact ⟨st', hmem', hst'⟩
      · exact ih1 x hx
    · simp only [runUpdateCalls, List.map_cons]
      refine List.Chain.cons ?_ (hst' ▸ ih2)
      rw [hst']
      rcases hstep with h | h
      · exact Or.inl (by rw [h])
      · exact Or.inr ⟨st, st', rfl, rfl, h⟩
    · simp only [runUpdateCalls, List.filter_cons]
      by_cases hc : c.orderID = oid ∧ (c.run s).1.code = 200
      · have hlt := statusRank_lt_of_transition st st' (hsucc hc.2 hc.1)
        simp only [hc, and_self, decide_True, if_true, List.length_cons]
        omega
      · have hle : statusRank st ≤ statusRank st' := by
          rcases hstep with h | h
          · rw [h]
          · exact le_of_lt (statusRank_lt_of_transition st st' h)
        simp only [hc, decide_False, Bool.false_eq_true, if_false]
        omega
    · intro pre post h t ht hterm'
      cases pre with
      | nil =>
        simp only [storeAfterUpdates] at ht ⊢
        rw [hst] at ht
        injection ht with ht
        subst ht
        simp only [List.nil_append] at h
        subst h
        exact hterm hterm'
      | cons c₀ pre' =>
        simp only [List.cons_append, List.cons.injEq] at h
        obtain ⟨rfl, rfl⟩ := h
        simp only [storeAfterUpdates] at ht ⊢
        exact ih5 pre' post rfl t ht hterm'

/-- No status has an edge to itself. -/
theorem validTransition_self (r : String) : validTransition r r = false := by
  cases h : validTransition r r
  · rfl
  · exact absurd (statusRank_lt_of_transition r r h) (lt_irrefl _)

/-- Every entry of the trace is a call with the result of running it on some
store. -/
theorem runUpdateCalls_mem :
    ∀ (cs : List UpdateCall) (s : Store), ∀ x ∈ runUpdateCalls cs s, ∃ s', x.2 = x.1.run s'
  | [], _, x, hx => by simp [runUpdateCalls] at hx
  | c :: cs, s, x, hx => by
    simp only [runUpdateCalls, List.mem_cons] at hx
    rcases hx with rfl | hx
    · exact ⟨s, rfl⟩
    · exact runUpdateCalls_mem cs _ x hx

/-- Repeating a request that has just succeeded fails: the order now has the
requested status, and no status has an edge to itself. -/
theorem updateOrderStatus_repeat_fails (c : UpdateCall) (s : Store)
    (h200 : (c.run s).1.code = 200) (env' : UpdateStatusEnv) :
    (UpdateOrderStatus env' c.role c.userID c.orderID c.body (c.run s).2).1.code ≠ 200 := by
  obtain ⟨env, role, userID, orderID, body⟩ := c
  simp only [UpdateCall.run] at h200 ⊢
  by_cases hrole : role = "farmer"
  swap
  · rw [updateOrderStatus_forbidden env role userID orderID body s hrole] at h200
    exact absurd h200 (by simp)
  subst hrole
  cases hfind : s.orders.find? (fun o => decide (o.ID = orderID ∧ o.FarmerID = userID)) with
  | none =>
    have hnone : ∀ o ∈ s.orders, ¬ (o.ID = orderID ∧ o.FarmerID = userID) := by
      rw [List.find?_eq_none] at hfind
      intro o ho
      simpa using hfind o ho
    rw [updateOrderStatus_unmatched env userID orderID body s hnone] at h200
    split_ifs at h200 <;> exact absurd h200 (by simp)
  | some order =>
    cases hq : env.orderQueryFails
    swap
    · have : UpdateOrderStatus env "farmer" userID orderID body s =
          (⟨500, .error "Database error"⟩, s) := by
        unfold UpdateOrderStatus
        simp [hq, dbFirstOrderOfFarmer]
      rw [this] at h200
      exact absurd h200 (by simp)
    obtain ⟨hbe, hden, hupd, hok⟩ :=
      updateOrderStatus_found env userID orderID body s order hq hfind
    cases hb : bindUpdateOrderStatus body with
    | error e => rw [hbe e hb] at h200; exact absurd h200 (by simp)
    | ok req =>
      cases hv : validTransition order.Status req.Status
      · rw [hden req hb hv] at h200; exact absurd h200 (by simp)
      · cases hu : env.updateFails
        swap
        · rw [hupd req hb hv hu] at h200; exact absurd h200 (by simp)
        rw [(hok req hb hv hu).1]
        have hcomp : ((fun o : Order => decide (o.ID = orderID ∧ o.FarmerID = userID)) ∘
            fun o : Order =>
              if o.ID = order.ID then
                { o with Status := req.Status, UpdatedAt := env.updateNow } else o) =
            fun o => decide (o.ID = orderID ∧ o.FarmerID = userID) := by
          funext o
          simp only [Function.comp]
          split_ifs <;> rfl
        have hfind' : (s.orders.map fun o : Order =>
              if o.ID = order.ID then
                { o with Status := req.Status, UpdatedAt := env.updateNow } else o).find?
            (fun o => decide (o.ID = orderID ∧ o.FarmerID = userID)) =
            some { order with Status := req.Status, UpdatedAt := env.updateNow } := by
          rw [List.find?_map, hcomp, hfind]
          simp
        cases hq' : env'.orderQueryFails
        · have h2 := (updateOrderStatus_found env' userID orderID body
            { s with orders := s.orders.map fun o : Order =>
                if o.ID = order.ID then
                  { o with Status := req.Status, UpdatedAt := env.updateNow } else o }
            { order with Status := req.Status, UpdatedAt := env.updateNow } hq' hfind').2.1
            req hb (validTransition_self req.Status)
          rw [h2]
          simp
        · have : ∀ t : Store, UpdateOrderStatus env' "farmer" userID orderID body t =
              (⟨500, .error "Database error"⟩, t) := by
            intro t
            unfold UpdateOrderStatus
            simp [hq', dbFirstOrderOfFarmer]
          rw [this]
          simp

/-- C20: order status only moves forward along the graph. Start from the
store left by a successful `CreateOrder` (201), in which the new order has
status pending, and run any sequence of `UpdateOrderStatus` calls (any
callers, ids, bodies and store behaviour). Then after every call the stored
status of the order is one of the five statuses; successive stored statuses
are equal or joined by an edge of the transition graph; at most three of the
calls for this order succeed (200); a call that has just succeeded fails when
it is repeated; and once the stored status is rejected or delivered, it is
the same after every later call. -/
theorem order_status_moves_forward (cenv : CreateOrderEnv) (userID : String)
    (req : CreateOrderRequest) (s : Store) (p : Product) (s₁ : Store)
    (calls : List UpdateCall)
    (hwf : s.WF) (hp : p ∈ s.products) (hpid : req.ProductID = p.ID)
    (hid : req.ProductID ≠ "") (hq : req.Quantity.gtZero = true)
    (hmode : req.DeliveryMode = "pickup" ∨ req.DeliveryMode = "courier")
    (hactive : p.Status = "active")
    (hsucc : (CreateOrder cenv "buyer" userID (some req) s).1.code = 201)
    (hs₁ : (CreateOrder cenv "buyer" userID (some req) s).2 = s₁) :
    storedStatus s₁ cenv.orderUUID = some "pending" ∧
    (∀ x ∈ runUpdateCalls calls s₁,
      ∃ st ∈ orderStatuses, storedStatus x.2.2 cenv.orderUUID = some st) ∧
    List.Chain StatusStep (some "pending")
      ((runUpdateCalls calls s₁).map fun x => storedStatus x.2.2 cenv.orderUUID) ∧
    ((runUpdateCalls calls s₁).filter
      (fun x => decide (x.1.orderID = cenv.orderUUID ∧ x.2.1.code = 200))).length ≤ 3 ∧
    (∀ x ∈ runUpdateCalls calls s₁, x.2.1.code = 200 → ∀ env' : UpdateStatusEnv,
      (UpdateOrderStatus env' x.1.role x.1.userID x.1.orderID x.1.body x.2.2).1.code ≠ 200) ∧
    (∀ pre post, calls = pre ++ post → ∀ t,
      storedStatus (storeAfterUpdates pre s₁) cenv.orderUUID = some t →
      (t = "rejected" ∨ t = "delivered") →
      ∀ x ∈ runUpdateCalls post (storeAfterUpdates pre s₁),
        storedStatus x.2.2 cenv.orderUUID = some t) := by
  subst hs₁
  obtain ⟨orow, irow, hor, hir, hfresh, hifresh, heq⟩ :=
    createOrder_created cenv userID req s p hwf hp hpid hid hq hmode hactive hsucc
  obtain ⟨ho1, -, -, ho4, -⟩ := newOrder_row_fields cenv userID req p orow hor
  obtain ⟨hi1, -⟩ := newOrderItem_row_fields cenv req p irow hir
  rw [heq]
  dsimp only
  have hpk := primaryKeys_append s orow irow hwf.1 (ho1 ▸ hfresh) (hi1 ▸ hifresh)
  have hst : storedStatus
      { s with orders := s.orders ++ [orow], orderItems := s.orderItems ++ [irow] }
      cenv.orderUUID = some "pending" := by
    simp only [storedStatus, List.find?_append, (filter_orders_of_fresh s _ hfresh).1]
    simp [ho1, ho4]
  obtain ⟨i1, i2, i3, -, i5⟩ := runUpdateCalls_invariants cenv.orderUUID calls _ "pending"
    hpk hst (by decide)
  refine ⟨hst, i1, i2, ?_, ?_, i5⟩
  · have : statusRank "pending" = 0 := rfl
    omega
  · intro x hx h200 env'
    obtain ⟨s', hs'⟩ := runUpdateCalls_mem calls _ x hx
    rw [hs'] at h200 ⊢
    exact updateOrderStatus_repeat_fails x.1 s' h200 env'

set_option maxRecDepth 20000 in
/-- C20 (witness): order `o2` is created, then farmer `f1` accepts it (200),
accepts it again (400), ships it, delivers it and tries to reject it (400):
the stored statuses are accepted, accepted, shipped, delivered, delivered, and
three calls succeed. -/
theorem order_status_moves_forward_witness :
    sampleStore.WF ∧
    (CreateOrder sampleCreateEnv "buyer" "b2" (some sampleRequest) sampleStore).1.code = 201 ∧
    (runUpdateCalls lifecycleCalls
      (CreateOrder sampleCreateEnv "buyer" "b2" (some sampleRequest) sampleStore).2).map
        (fun x => (x.2.1.code, storedStatus x.2.2 "o2")) =
      [(200, some "accepted"), (400, some "accepted"), (200, some "shipped"),
       (200, some "delivered"), (400, some "delivered")] ∧
    ((runUpdateCalls lifecycleCalls
      (CreateOrder sampleCreateEnv "buyer" "b2" (some sampleRequest) sampleStore).2).filter
      (fun x => decide (x.1.orderID = sampleCreateEnv.orderUUID ∧ x.2.1.code = 200))).length
      ≤ 3 :=
  have h := order_status_moves_forward sampleCreateEnv "b2" sampleRequest sampleStore
    sampleProduct _ lifecycleCalls (by decide) (by decide) rfl (by decide) rfl (Or.inl rfl)
    rfl (by decide) rfl
  ⟨by decide, by decide, by decide, h.2.2.2.1⟩

end FarmerPortal
